import Mathlib

/-!
Birthday-surprise notification pipeline: a shallow embedding.

The two serverless handlers of the repository, `api/subscribe.js` (signup) and
`api/send-sms.js` (dispatch), are embedded as Lean functions over an explicit
world state.

Modelling conventions

* A JavaScript string is a Lean `String`.  The source only inspects ASCII
  characters (digits, `+`, `@`, `.`, the placeholder braces), so the difference
  between UTF-16 code units and Unicode scalar values is not observable.
* A JavaScript number that holds a timestamp, a counter or a limit is an `Int`.
* The fields of a request body are strings or absent, `testMode` is a Boolean.
* `await` is sequencing.  The sends of one batch, which the source starts
  together and joins with `Promise.all`, are run one after the other in list
  order by `sendBatch`; the order and the number of the results are the ones
  `Promise.all` guarantees.  This fixes one order of the requests in the
  provider trace.  The statement that depends on that order, the independence
  of the recipients, is made about `batchLoopTogether`, which starts the sends
  of a batch together and leaves open the order in which the replies arrive.
* The key-value store, the messaging provider, the clock and the random source
  are external.  Their behaviour is an `Env` of oracles; what the program did to
  them is recorded in the `World`.  A store operation that throws has no effect
  on the contents.  The store records the expiry set on a key; it does not
  remove a key when the expiry has passed.
* A `try`/`catch` is a result of type `Option`: `none` is the thrown error, and
  the `none` branch of the caller is the `catch` block.
* A loop is a recursive function; where the recursion is on a counter, a `fuel`
  argument that the caller sets to the largest possible number of iterations
  makes it structural.
* `console.log` and `console.error` are not modelled.
-/

set_option autoImplicit false

namespace BirthdaySurprise

/-! ## JavaScript string helpers -/

/-- The regular expression class `\d` (and the complement of `\D`): an ASCII digit. -/
def isDigitChar (c : Char) : Bool := c.isDigit

/-- The replacement `s.replace(/\D/g, '')`: every non-digit is removed. -/
def stripNonDigits (s : String) : String :=
  ⟨s.data.filter isDigitChar⟩

/-- The test `s.startsWith(c)` for a one-character string `c`. -/
def startsWithChar (s : String) (c : Char) : Bool :=
  match s.data with
  | [] => false
  | x :: _ => x == c

/-- JavaScript truthiness of a value that is a string or `undefined`. -/
def truthyStr : Option String → Bool
  | none => false
  | some s => s != ""

/-- The expression `a || b` on strings-or-undefined. -/
def orElseStr (a b : Option String) : Option String :=
  if truthyStr a then a else b

/-- The text a template literal inserts for a string-or-undefined value. -/
def templateStr : Option String → String
  | none => "undefined"
  | some s => s

/-- The characters matched by `\s` and removed by `trim()`. -/
def isJsWhitespace (c : Char) : Bool :=
  let n := c.toNat
  n == 0x09 || n == 0x0A || n == 0x0B || n == 0x0C || n == 0x0D || n == 0x20 ||
  n == 0xA0 || n == 0x1680 || (0x2000 ≤ n && n ≤ 0x200A) || n == 0x2028 ||
  n == 0x2029 || n == 0x202F || n == 0x205F || n == 0x3000 || n == 0xFEFF

/-- The method `s.trim()`. -/
def jsTrim (s : String) : String :=
  ⟨((s.data.dropWhile isJsWhitespace).reverse.dropWhile isJsWhitespace).reverse⟩

/-! ## `api/subscribe.js`: validation and normalisation -/

/-- The function `validatePhoneNumber` of `api/subscribe.js`; the argument is the
`phone` field of the request body, absent or a string. -/
def validatePhoneNumber (phone : Option String) : Bool :=
  match phone with
  | none => false
  | some p =>
    if p == "" then false
    else
      let cleanPhone := stripNonDigits p
      decide (cleanPhone.length ≥ 10) && decide (cleanPhone.length ≤ 15)

/-- The character class `[^\s@]`. -/
def emailAtom (c : Char) : Bool := !isJsWhitespace c && c != '@'

/-- Whether a string matches `/^[^\s@]+@[^\s@]+\.[^\s@]+$/`: a non-empty run of atoms, one
`@`, then atoms only, with a dot that is neither the first nor the last of them. -/
def matchesEmailRegex (cs : List Char) : Bool :=
  let a := cs.takeWhile emailAtom
  !a.isEmpty &&
    match cs.dropWhile emailAtom with
    | '@' :: r => r.all emailAtom && (r.drop 1).dropLast.contains '.'
    | _ => false

/-- The function `validateEmail` of `api/subscribe.js`. -/
def validateEmail (email : Option String) : Bool :=
  match email with
  | none => true
  | some e => if e == "" then true else matchesEmailRegex e.data

/-- The function `formatPhoneNumber` of `api/subscribe.js`. -/
def formatPhoneNumber (phone : String) : String :=
  let cleanPhone := stripNonDigits phone
  if cleanPhone.length = 10 then
    "+1" ++ cleanPhone
  else if cleanPhone.length = 11 ∧ startsWithChar cleanPhone '1' then
    "+" ++ cleanPhone
  else if startsWithChar phone '+' then
    "+" ++ stripNonDigits phone
  else
    "+" ++ cleanPhone

/-! ## The external collaborators -/

/-- A subscriber record, the object `subscribe.js` writes under `user:<id>` and `phone:<phone>`. -/
structure User where
  id : String
  name : String
  phone : String
  email : String
  timestamp : String
  userAgent : String
  referrer : String
  source : String
  status : String
  createdAt : String
  notificationsSent : Int
  lastNotificationSent : Option String
  deriving DecidableEq, Repr

/-- The values the two handlers store: a rate-limit log (an array of timestamps), a string
(the user id under a `subscriber:<id>` key) or a subscriber record. -/
inductive KVal where
  | log (timestamps : List Int)
  | str (s : String)
  | user (u : User)
  deriving DecidableEq, Repr

/-- JavaScript truthiness of the result of `kv.get`: `null` and the empty string are falsy,
arrays and objects are truthy. -/
def truthyVal : Option KVal → Bool
  | none => false
  | some (.str s) => s != ""
  | some (.log _) => true
  | some (.user _) => true

/-- The text a template literal inserts for a stored value. -/
def KVal.template : KVal → String
  | .str s => s
  | .log ts => ",".intercalate (ts.map toString)
  | .user _ => "[object Object]"

/-- One key of the store: its value and the expiry, in seconds, set by `kv.expire` (if any). -/
structure Entry where
  key : String
  val : KVal
  ttl : Option Int
  deriving DecidableEq, Repr

/-- The contents of the key-value store, in key-enumeration order. -/
abbrev Store := List Entry

/-- The value under a key, `none` for JavaScript `null`. -/
def Store.get (s : Store) (key : String) : Option KVal :=
  (s.find? (fun e => e.key == key)).map Entry.val

/-- The expiry of a key. -/
def Store.ttlOf (s : Store) (key : String) : Option Int :=
  (s.find? (fun e => e.key == key)).bind Entry.ttl

/-- The command `SET key value`: the value is replaced and any expiry is dropped; a new key
goes to the end of the enumeration. -/
def Store.set : Store → String → KVal → Store
  | [], key, v => [⟨key, v, none⟩]
  | e :: rest, key, v =>
    if e.key == key then ⟨key, v, none⟩ :: rest else e :: Store.set rest key v

/-- The command `EXPIRE key seconds`: no effect on a missing key. -/
def Store.expire : Store → String → Int → Store
  | [], _, _ => []
  | e :: rest, key, secs =>
    if e.key == key then { e with ttl := some secs } :: rest else e :: Store.expire rest key secs

/-- The command `DEL key`. -/
def Store.del (s : Store) (key : String) : Store :=
  s.filter (fun e => !(e.key == key))

/-- The command `KEYS <start>*`: the keys that begin with `start`, in enumeration order. -/
def Store.keys (s : Store) (start : String) : List String :=
  (s.map Entry.key).filter (fun k => start.data.isPrefixOf k.data)

/-- A Twilio error code as a JavaScript value: a number or a string. -/
inductive ErrCode where
  | num (n : Int)
  | str (s : String)
  deriving DecidableEq, Repr

/-- The argument of `twilioClient.messages.create`. -/
structure SendReq where
  body : String
  sender : String
  dest : String
  deriving DecidableEq, Repr

/-- What `twilioClient.messages.create` does: resolve with a message (`sid`, `status`), or
reject with an error (`message`, `code`). -/
inductive ProviderReply where
  | ok (sid : String) (status : String)
  | err (message : String) (code : Option ErrCode)
  deriving DecidableEq, Repr

/-- The behaviour of the environment, fixed for a run.  Each oracle is indexed by the number
of earlier uses, so that any sequence of outcomes can be described. -/
structure Env where
  /-- Whether the store operation issued after `n` earlier ones throws. -/
  kvFails : Nat → Bool
  /-- The provider outcome for the request made after `n` earlier ones. -/
  provider : Nat → SendReq → ProviderReply
  /-- The value of the reading of the clock (`Date.now()`, `new Date()`) after `n` earlier ones. -/
  clock : Nat → Int
  /-- The text of `Math.random()` in a template literal. -/
  randomDecimal : Nat → String
  /-- The text of `Math.random().toString(36).substr(2, 9)`. -/
  randomBase36 : Nat → String
  /-- The method `Date.prototype.toISOString`, on milliseconds since the epoch. -/
  toISOString : Int → String
  /-- The method `String.prototype.toLowerCase`. -/
  toLowerCase : String → String
  /-- The variables `process.env.TWILIO_ACCOUNT_SID`, `TWILIO_AUTH_TOKEN`, `TWILIO_PHONE_NUMBER`. -/
  twilioAccountSid : Option String
  twilioAuthToken : Option String
  twilioPhoneNumber : Option String

/-- The state of the outside world as the handlers change it. -/
structure World where
  /-- The contents of the key-value store. -/
  store : Store
  /-- The number of store operations issued so far. -/
  kvOps : Nat
  /-- The requests made to the messaging provider so far, oldest first. -/
  sends : List SendReq
  /-- The delays, in milliseconds, of the `setTimeout` pauses so far, oldest first. -/
  sleeps : List Int
  /-- The number of clock readings so far. -/
  clockReads : Nat
  /-- The number of `Math.random()` calls so far. -/
  randReads : Nat
  deriving DecidableEq, Repr

/-- One store operation: it throws (`none`, with no effect on the contents) when the
environment says so, and otherwise returns `f` of the contents and leaves `g` of them. -/
def kvOp {α : Type} (env : Env) (f : Store → α) (g : Store → Store) (w : World) :
    Option α × World :=
  if env.kvFails w.kvOps then
    (none, { w with kvOps := w.kvOps + 1 })
  else
    (some (f w.store), { w with kvOps := w.kvOps + 1, store := g w.store })

/-- The call `kv.get(key)`. -/
def kvGet (env : Env) (key : String) (w : World) : Option (Option KVal) × World :=
  kvOp env (fun s => s.get key) id w

/-- The call `kv.set(key, value)`. -/
def kvSet (env : Env) (key : String) (v : KVal) (w : World) : Option Unit × World :=
  kvOp env (fun _ => ()) (fun s => s.set key v) w

/-- The call `kv.expire(key, seconds)`. -/
def kvExpire (env : Env) (key : String) (secs : Int) (w : World) : Option Unit × World :=
  kvOp env (fun _ => ()) (fun s => s.expire key secs) w

/-- The call `kv.del(key)`. -/
def kvDel (env : Env) (key : String) (w : World) : Option Unit × World :=
  kvOp env (fun _ => ()) (fun s => s.del key) w

/-- The call `kv.keys(start + '*')`. -/
def kvKeys (env : Env) (start : String) (w : World) : Option (List String) × World :=
  kvOp env (fun s => s.keys start) id w

/-- The expression `Date.now()`. -/
def dateNow (env : Env) (w : World) : Int × World :=
  (env.clock w.clockReads, { w with clockReads := w.clockReads + 1 })

/-- The expression `new Date().toISOString()`. -/
def isoNow (env : Env) (w : World) : String × World :=
  (env.toISOString (env.clock w.clockReads), { w with clockReads := w.clockReads + 1 })

/-- The pause `await new Promise(resolve => setTimeout(resolve, ms))`. -/
def sleep (ms : Int) (w : World) : World :=
  { w with sleeps := w.sleeps ++ [ms] }

/-! ## `api/send-sms.js` -/

/-- The array that `await kv.get(key) || []` yields in `checkRateLimit`, or `none` when the
value has no `filter` method (the call then throws a `TypeError`). -/
def requestsOf : Option KVal → Option (List Int)
  | none => some []
  | some (.log ts) => some ts
  | some (.str s) => if s == "" then some [] else none
  | some (.user _) => none

/-- The expression `Math.ceil(windowMs / 1000)`. -/
def ceilSeconds (windowMs : Int) : Int := -((-windowMs) / 1000)

/-- The function `checkRateLimit` of `api/send-sms.js`.  The argument `now` is the value that
`Date.now()` returns on its first line; every `none` branch is the `catch` block. -/
def checkRateLimit (env : Env) (now : Int) (key : String) (limit : Int) (windowMs : Int)
    (w : World) : Bool × World :=
  match kvGet env key w with
  | (none, w1) => (true, w1)
  | (some stored, w1) =>
    match requestsOf stored with
    | none => (true, w1)
    | some requests =>
      let windowStart := now - windowMs
      let recentRequests := requests.filter (fun timestamp => decide (timestamp > windowStart))
      if (recentRequests.length : Int) ≥ limit then
        (false, w1)
      else
        let recentRequests := recentRequests ++ [now]
        match kvSet env key (.log recentRequests) w1 with
        | (none, w2) => (true, w2)
        | (some _, w2) =>
          match kvExpire env key (ceilSeconds windowMs) w2 with
          | (none, w3) => (true, w3)
          | (some _, w3) => (true, w3)

/-- The loop of `getAllSubscribers`; `none` is a thrown store error. -/
def getAllSubscribersLoop (env : Env) : List String → List User → World → Option (List User) × World
  | [], subscribers, w => (some subscribers, w)
  | key :: rest, subscribers, w =>
    match kvGet env key w with
    | (none, w1) => (none, w1)
    | (some userId, w1) =>
      match userId with
      | none => getAllSubscribersLoop env rest subscribers w1
      | some uid =>
        if truthyVal (some uid) then
          match kvGet env ("user:" ++ uid.template) w1 with
          | (none, w2) => (none, w2)
          | (some (some (.user user)), w2) =>
            if user.status == "active" then
              getAllSubscribersLoop env rest (subscribers ++ [user]) w2
            else
              getAllSubscribersLoop env rest subscribers w2
          | (some _, w2) => getAllSubscribersLoop env rest subscribers w2
        else
          getAllSubscribersLoop env rest subscribers w1

/-- The function `getAllSubscribers` of `api/send-sms.js`. -/
def getAllSubscribers (env : Env) (w : World) : List User × World :=
  match kvKeys env "subscriber:" w with
  | (none, w1) => ([], w1)
  | (some subscriberKeys, w1) =>
    if subscriberKeys.length = 0 then
      ([], w1)
    else
      match getAllSubscribersLoop env subscriberKeys [] w1 with
      | (none, w2) => ([], w2)
      | (some subscribers, w2) => (subscribers, w2)

/-- The object `sendSingleSMS` and `sendSMSWithRetry` return, and the one built in test mode;
an absent property is `none`. -/
structure DeliveryResult where
  success : Bool
  phone : String
  messageId : Option String
  status : Option String
  error : Option String
  errorCode : Option ErrCode
  deriving DecidableEq, Repr

/-- The function `sendSingleSMS` of `api/send-sms.js`.  The thrown length error and a
rejection by the provider both end in the `catch` block, which reports the raw `phone`. -/
def sendSingleSMS (env : Env) (phone message fromNumber : String) (w : World) :
    DeliveryResult × World :=
  let cleanPhone := stripNonDigits phone
  if cleanPhone.length < 10 ∨ cleanPhone.length > 15 then
    ({ success := false, phone := phone, messageId := none, status := none,
       error := some ("Invalid phone number length: " ++ toString cleanPhone.length ++ " digits"),
       errorCode := none }, w)
  else
    let formattedPhone :=
      if !startsWithChar phone '+' then
        if cleanPhone.length = 10 then "+1" ++ cleanPhone
        else if cleanPhone.length = 11 ∧ startsWithChar cleanPhone '1' then "+" ++ cleanPhone
        else "+" ++ cleanPhone
      else phone
    let request : SendReq := { body := message, sender := fromNumber, dest := formattedPhone }
    let w1 := { w with sends := w.sends ++ [request] }
    match env.provider w.sends.length request with
    | .ok sid status =>
      ({ success := true, phone := formattedPhone, messageId := some sid, status := some status,
         error := none, errorCode := none }, w1)
    | .err msg code =>
      ({ success := false, phone := phone, messageId := none, status := none,
         error := some msg, errorCode := code }, w1)

/-- The test `result.errorCode && ['21211', '21614', '21408'].includes(result.errorCode)`:
`includes` compares with strict equality, so a numeric code is never found. -/
def isNoRetryCode : Option ErrCode → Bool
  | none => false
  | some (.num _) => false
  | some (.str s) => s != "" && ["21211", "21614", "21408"].contains s

/-- The `for` loop of `sendSMSWithRetry`, from `attempt` on; `fuel` bounds the number of
iterations.  The result is the early `return` of the loop, `none` when the loop is left by
`break` or by its condition. -/
def sendSMSWithRetryLoop (env : Env) (phone message fromNumber : String) (maxRetries : Int) :
    Nat → Nat → World → Option DeliveryResult × World
  | 0, _, w => (none, w)
  | fuel + 1, attempt, w =>
    if (attempt : Int) ≤ maxRetries then
      match sendSingleSMS env phone message fromNumber w with
      | (result, w1) =>
        if result.success then (some result, w1)
        else if isNoRetryCode result.errorCode then (none, w1)
        else
          let w2 := if (attempt : Int) < maxRetries then sleep (2 ^ attempt * 1000) w1 else w1
          sendSMSWithRetryLoop env phone message fromNumber maxRetries fuel (attempt + 1) w2
    else (none, w)

/-- The function `sendSMSWithRetry` of `api/send-sms.js`. -/
def sendSMSWithRetry (env : Env) (phone message fromNumber : String) (maxRetries : Int)
    (w : World) : DeliveryResult × World :=
  match sendSMSWithRetryLoop env phone message fromNumber maxRetries maxRetries.toNat 1 w with
  | (some result, w1) => (result, w1)
  | (none, w1) =>
    ({ success := false, phone := phone, messageId := none, status := none,
       error := some "Failed after retries", errorCode := none }, w1)

/-- The default value of the parameter `maxRetries`. -/
def defaultMaxRetries : Int := 2

/-- The expansion of a replacement text for a pattern without capture groups: `$$`, `$&`,
the text before the match and the text after it; any other character stands for itself. -/
def expandReplacement (matched before after : List Char) : List Char → List Char
  | [] => []
  | [c] => [c]
  | c :: d :: rest =>
    if c = '$' ∧ d = '$' then '$' :: expandReplacement matched before after rest
    else if c = '$' ∧ d = '&' then matched ++ expandReplacement matched before after rest
    else if c = '$' ∧ d = Char.ofNat 96 then before ++ expandReplacement matched before after rest
    else if c = '$' ∧ d = Char.ofNat 39 then after ++ expandReplacement matched before after rest
    else c :: expandReplacement matched before after (d :: rest)

/-- The placeholder matched by `/\{name\}/g`. -/
def namePlaceholder : List Char := "\x7bname\x7d".data

/-- The scan of `message.replace(/\{name\}/g, replacement)` over the rest of the message;
`before` is the part of the message already passed. -/
def replaceNameFrom (replacement : List Char) : Nat → List Char → List Char → List Char
  | 0, _, rest => rest
  | fuel + 1, before, rest =>
    if namePlaceholder.isPrefixOf rest then
      let after := rest.drop namePlaceholder.length
      expandReplacement namePlaceholder before after replacement ++
        replaceNameFrom replacement fuel (before ++ namePlaceholder) after
    else
      match rest with
      | [] => []
      | c :: tail => c :: replaceNameFrom replacement fuel (before ++ [c]) tail

/-- The expression `message.replace(/\{name\}/g, replacement)`. -/
def replaceName (message replacement : String) : String :=
  ⟨replaceNameFrom replacement.data (message.length + 1) [] message.data⟩

/-- A match of `/(\+1)(\d{3})(\d{3})(\d{4})/` at the head of the text: the fourth group and
the text after the match. -/
def maskMatch : List Char → Option (List Char × List Char)
  | '+' :: '1' :: rest =>
    if 10 ≤ rest.length ∧ (rest.take 10).all isDigitChar then
      some ((rest.take 10).drop 6, rest.drop 10)
    else none
  | _ => none

/-- The replacement of the leftmost match of the mask pattern by `$1***$4`. -/
def maskPhoneChars : List Char → List Char
  | [] => []
  | c :: rest =>
    match maskMatch (c :: rest) with
    | some (last4, after) => "+1***".data ++ last4 ++ after
    | none => c :: maskPhoneChars rest

/-- The expression `r.phone.replace(/(\+1)(\d{3})(\d{3})(\d{4})/, '$1***$4')`. -/
def maskPhone (phone : String) : String := ⟨maskPhoneChars phone.data⟩

/-- An element of `recipients`; `id` is absent for the `specificPhone` recipient. -/
structure Recipient where
  phone : String
  name : String
  id : Option String
  deriving DecidableEq, Repr

/-- The body of the `batch.map` callback for one recipient. -/
def sendToRecipient (env : Env) (message fromNumber : String) (testMode : Bool)
    (recipient : Recipient) (w : World) : DeliveryResult × World :=
  let personalizedMessage :=
    replaceName message (if recipient.name != "" then recipient.name else "Friend")
  if testMode then
    match dateNow env w with
    | (now, w1) =>
      ({ success := true, phone := recipient.phone,
         messageId := some ("test_" ++ toString now ++ "_" ++ env.randomDecimal w1.randReads),
         status := some "test_sent", error := none, errorCode := none },
       { w1 with randReads := w1.randReads + 1 })
  else
    sendSMSWithRetry env recipient.phone personalizedMessage fromNumber defaultMaxRetries w

/-- The sends of one batch, `await Promise.all(batch.map(...))`, in list order: each send
runs to its end before the next begins.  The results are in the order of the batch, as
`Promise.all` returns them; the places of the requests in the provider trace are those of
this one order (`sendBatchTogether` has the order of the source). -/
def sendBatch (env : Env) (message fromNumber : String) (testMode : Bool) :
    List Recipient → World → List DeliveryResult × World
  | [], w => ([], w)
  | recipient :: rest, w =>
    match sendToRecipient env message fromNumber testMode recipient w with
    | (result, w1) =>
      match sendBatch env message fromNumber testMode rest w1 with
      | (results, w2) => (result :: results, w2)

/-- The constant `batchSize`. -/
def batchSize : Nat := 5

/-- The values the batch loop carries: `results`, `successCount`, `failureCount`. -/
structure Tally where
  results : List DeliveryResult
  successCount : Nat
  failureCount : Nat
  deriving DecidableEq, Repr

/-- The loop `for (let i = 0; i < recipients.length; i += batchSize)`, from `i` on; `fuel`
bounds the number of iterations. -/
def batchLoop (env : Env) (message fromNumber : String) (testMode : Bool)
    (recipients : List Recipient) : Nat → Nat → Tally → World → Tally × World
  | 0, _, acc, w => (acc, w)
  | fuel + 1, i, acc, w =>
    if i < recipients.length then
      let batch := (recipients.drop i).take batchSize
      match sendBatch env message fromNumber testMode batch w with
      | (batchResults, w1) =>
        let acc1 : Tally :=
          { results := acc.results ++ batchResults,
            successCount := acc.successCount + (batchResults.filter (fun r => r.success)).length,
            failureCount := acc.failureCount + (batchResults.filter (fun r => !r.success)).length }
        let w2 := if i + batchSize < recipients.length then sleep 1000 w1 else w1
        batchLoop env message fromNumber testMode recipients fuel (i + batchSize) acc1 w2
    else (acc, w)

/-- The update of one subscriber record after a successful send: the `try` block inside the
reconciliation loop.  A thrown error (a store failure, or the assignment of a property to a
string) is caught and leaves the record as it is. -/
def recordDelivery (env : Env) (id : String) (w : World) : World :=
  match kvGet env ("user:" ++ id) w with
  | (none, w1) => w1
  | (some none, w1) => w1
  | (some (some (.str _)), w1) => w1
  | (some (some (.log ts)), w1) =>
    match isoNow env w1 with
    | (_, w2) => (kvSet env ("user:" ++ id) (.log ts) w2).2
  | (some (some (.user userData)), w1) =>
    let sent := (if userData.notificationsSent = 0 then 0 else userData.notificationsSent) + 1
    match isoNow env w1 with
    | (stamp, w2) =>
      (kvSet env ("user:" ++ id)
        (.user { userData with notificationsSent := sent, lastNotificationSent := some stamp })
        w2).2

/-- The loop `for (const result of results)` of the reconciliation step. -/
def reconcile (env : Env) (recipients : List Recipient) (specificPhone : Option String) :
    List DeliveryResult → World → World
  | [], w => w
  | result :: rest, w =>
    if result.success && !truthyStr specificPhone then
      match recipients.find? (fun r => r.phone == result.phone) with
      | some user =>
        match user.id with
        | some id =>
          if id != "" then reconcile env recipients specificPhone rest (recordDelivery env id w)
          else reconcile env recipients specificPhone rest w
        | none => reconcile env recipients specificPhone rest w
      | none => reconcile env recipients specificPhone rest w
    else reconcile env recipients specificPhone rest w

/-- The parsed JSON body of a dispatch request. -/
structure SmsBody where
  message : Option String
  testMode : Bool
  specificPhone : Option String
  deriving DecidableEq, Repr

/-- A request to `api/send-sms.js`. -/
structure SmsRequest where
  method : String
  forwardedFor : Option String
  remoteAddress : Option String
  body : Option SmsBody
  deriving DecidableEq, Repr

/-- One element of `data.results` in the 200 response. -/
structure ReportedResult where
  phone : String
  success : Bool
  status : String
  error : Option String
  deriving DecidableEq, Repr

/-- The `data` object of the 200 response. -/
structure SmsData where
  totalSent : Nat
  totalFailed : Nat
  totalRecipients : Nat
  testMode : Bool
  results : List ReportedResult
  timestamp : String
  deriving DecidableEq, Repr

/-- The response of `api/send-sms.js`: an empty reply, a `success: false` body with its
error code and message, or the 200 summary. -/
inductive SmsResponse where
  | ended (status : Nat)
  | failure (status : Nat) (error : String) (message : String)
  | sent (status : Nat) (message : String) (data : SmsData)
  deriving DecidableEq, Repr

/-- The callback of `results.map` that builds the reported results. -/
def reportResult (r : DeliveryResult) : ReportedResult :=
  { phone := maskPhone r.phone,
    success := r.success,
    status := if truthyStr r.status then templateStr r.status
              else if r.success then "sent" else "failed",
    error := r.error }

/-- The recipients of a dispatch: the `specificPhone` alone when it is given (and not empty),
the active subscribers otherwise. -/
def resolveRecipients (env : Env) (specificPhone : Option String) (w : World) :
    List Recipient × World :=
  if truthyStr specificPhone then
    ([{ phone := templateStr specificPhone, name := "Test User", id := none }], w)
  else
    match getAllSubscribers env w with
    | (subscribers, w1) =>
      (subscribers.map (fun sub => { phone := sub.phone, name := sub.name, id := some sub.id }),
       w1)

/-- The part of the dispatch handler after admission: recipients, batches, reconciliation and
the response. -/
def dispatch (env : Env) (message fromNumber : String) (testMode : Bool)
    (specificPhone : Option String) (w : World) : SmsResponse × World :=
  match resolveRecipients env specificPhone w with
  | (recipients, w1) =>
    if recipients.length = 0 then
      (.failure 400 "NO_RECIPIENTS" "No subscribers found to send SMS to", w1)
    else
      match batchLoop env message fromNumber testMode recipients recipients.length 0
          { results := [], successCount := 0, failureCount := 0 } w1 with
      | (tally, w2) =>
        let w3 :=
          if !testMode && decide (tally.successCount > 0) then
            reconcile env recipients specificPhone tally.results w2
          else w2
        match isoNow env w3 with
        | (stamp, w4) =>
          (.sent 200
            ("SMS sent successfully to " ++ toString tally.successCount ++ " recipient(s)")
            { totalSent := tally.successCount,
              totalFailed := tally.failureCount,
              totalRecipients := recipients.length,
              testMode := testMode,
              results := tally.results.map reportResult,
              timestamp := stamp }, w4)

/-- The key under which the requests of one caller are logged: the text
`sms_rate_limit:` followed by `clientIP`, the forwarded address or else the remote one. -/
def rateLimitKey (req : SmsRequest) : String :=
  let clientIP := orElseStr req.forwardedFor req.remoteAddress
  "sms_rate_limit:" ++ templateStr clientIP

/-- The admission step of the dispatch handler:
`await checkRateLimit(rateLimitKey, 3, 300000)`, at the current reading of the clock. -/
def admission (env : Env) (req : SmsRequest) (w : World) : Bool × World :=
  match dateNow env w with
  | (now, w1) => checkRateLimit env now (rateLimitKey req) 3 300000 w1

/-- The default export of `api/send-sms.js`.  A request without a body makes the
destructuring throw, which the outer `catch` answers with 500. -/
def SendSms.handler (env : Env) (req : SmsRequest) (w : World) : SmsResponse × World :=
  if req.method == "OPTIONS" then (.ended 200, w)
  else if req.method != "POST" then
    (.failure 405 "METHOD_NOT_ALLOWED" "Only POST method is allowed", w)
  else
    match env.twilioAccountSid, env.twilioAuthToken, env.twilioPhoneNumber with
    | some sid, some token, some fromNumber =>
      if sid == "" || token == "" || fromNumber == "" then
        (.failure 500 "CONFIGURATION_ERROR" "Twilio configuration is missing", w)
      else
        match req.body with
        | none => (.failure 500 "INTERNAL_SERVER_ERROR" "Failed to send SMS. Please try again.", w)
        | some body =>
          match body.message with
          | none => (.failure 400 "MISSING_MESSAGE" "SMS message is required", w)
          | some message =>
            if message == "" then
              (.failure 400 "MISSING_MESSAGE" "SMS message is required", w)
            else
              match admission env req w with
              | (rateLimitOk, w2) =>
                  if !rateLimitOk then
                    (.failure 429 "RATE_LIMIT_EXCEEDED"
                      "Too many SMS requests. Please wait before trying again.", w2)
                  else
                    dispatch env message fromNumber body.testMode body.specificPhone w2
    | _, _, _ => (.failure 500 "CONFIGURATION_ERROR" "Twilio configuration is missing", w)

/-! ## `api/subscribe.js`: the handler -/

/-- The parsed JSON body of a signup request; an absent field is `none`. -/
structure SubscribeBody where
  name : Option String
  phone : Option String
  email : Option String
  timestamp : Option String
  userAgent : Option String
  referrer : Option String
  source : Option String
  deriving DecidableEq, Repr

/-- A request to `api/subscribe.js`; `queryReset` is `req.query.reset`. -/
structure SubscribeRequest where
  method : String
  queryReset : Option String
  body : Option SubscribeBody
  deriving DecidableEq, Repr

/-- The `data` object of a successful signup. -/
structure SignupData where
  userId : String
  name : String
  phone : String
  totalSubscribers : Nat
  registeredAt : String
  deriving DecidableEq, Repr

/-- The response of `api/subscribe.js`.  The text of a store error, which the reset endpoint
echoes, is not modelled. -/
inductive SubscribeResponse where
  | ended (status : Nat)
  | failure (status : Nat) (error : String) (message : String)
  | registered (status : Nat) (message : String) (data : SignupData)
  | stats (status : Nat) (totalSubscribers : Nat) (timestamp : String)
  | resetDone (status : Nat) (message : String) (deletedKeys : List String) (timestamp : String)
  | resetFailed (status : Nat)
  deriving DecidableEq, Repr

/-- The loop `for (const key of allKeys)` of the reset endpoint; `none` is a thrown store
error. -/
def deleteAll (env : Env) : List String → Nat → World → Option Nat × World
  | [], deletedCount, w => (some deletedCount, w)
  | key :: rest, deletedCount, w =>
    match kvDel env key w with
    | (none, w1) => (none, w1)
    | (some _, w1) => deleteAll env rest (deletedCount + 1) w1

/-- The reset endpoint (`DELETE` with `reset=confirm`). -/
def resetDatabase (env : Env) (w : World) : SubscribeResponse × World :=
  match kvKeys env "" w with
  | (none, w1) => (.resetFailed 500, w1)
  | (some allKeys, w1) =>
    match deleteAll env allKeys 0 w1 with
    | (none, w2) => (.resetFailed 500, w2)
    | (some deletedCount, w2) =>
      match isoNow env w2 with
      | (stamp, w3) =>
        (.resetDone 200
          ("Database reset complete! Deleted " ++ toString deletedCount ++ " keys.")
          (allKeys.take 10) stamp, w3)

/-- The answer of the outer `catch` block of `api/subscribe.js`. -/
def subscribeInternalError : SubscribeResponse :=
  .failure 500 "INTERNAL_SERVER_ERROR" "Something went wrong. Please try again."

/-- The writes of a signup that passed every check, and its response. -/
def storeSubscriber (env : Env) (body : SubscribeBody) (name formattedPhone : String)
    (w : World) : SubscribeResponse × World :=
  match dateNow env w with
  | (now, w1) =>
    let id := "user_" ++ toString now ++ "_" ++ env.randomBase36 w1.randReads
    let w2 := { w1 with randReads := w1.randReads + 1 }
    let stamped : String × World :=
      if truthyStr body.timestamp then (templateStr body.timestamp, w2) else isoNow env w2
    match stamped with
    | (timestamp, w3) =>
      match isoNow env w3 with
      | (createdAt, w4) =>
        let user : User :=
          { id := id,
            name := jsTrim name,
            phone := formattedPhone,
            email := if truthyStr body.email then env.toLowerCase (jsTrim (templateStr body.email))
                     else "",
            timestamp := timestamp,
            userAgent := templateStr (orElseStr body.userAgent (some "")),
            referrer := templateStr (orElseStr body.referrer (some "")),
            source := templateStr (orElseStr body.source (some "signup_form")),
            status := "active",
            createdAt := createdAt,
            notificationsSent := 0,
            lastNotificationSent := none }
        match kvSet env ("phone:" ++ formattedPhone) (.user user) w4 with
        | (none, w5) => (subscribeInternalError, w5)
        | (some _, w5) =>
          match kvSet env ("user:" ++ user.id) (.user user) w5 with
          | (none, w6) => (subscribeInternalError, w6)
          | (some _, w6) =>
            match kvSet env ("subscriber:" ++ user.id) (.str user.id) w6 with
            | (none, w7) => (subscribeInternalError, w7)
            | (some _, w7) =>
              match kvKeys env "subscriber:" w7 with
              | (none, w8) => (subscribeInternalError, w8)
              | (some subscriberKeys, w8) =>
                (.registered 200 "Successfully registered for birthday notifications!"
                  { userId := user.id,
                    name := user.name,
                    phone := formattedPhone,
                    totalSubscribers := subscriberKeys.length,
                    registeredAt := user.timestamp }, w8)

/-- The `POST` branch of `api/subscribe.js`. -/
def signup (env : Env) (body : SubscribeBody) (w : World) : SubscribeResponse × World :=
  match body.name, body.phone with
  | some name, some phone =>
    if name == "" || phone == "" then
      (.failure 400 "MISSING_REQUIRED_FIELDS" "Name and phone number are required", w)
    else if !validatePhoneNumber (some phone) then
      (.failure 400 "INVALID_PHONE" "Please enter a valid phone number", w)
    else if !validateEmail body.email then
      (.failure 400 "INVALID_EMAIL" "Please enter a valid email address", w)
    else
      let formattedPhone := formatPhoneNumber phone
      match kvGet env ("phone:" ++ formattedPhone) w with
      | (none, w1) => (subscribeInternalError, w1)
      | (some existingUser, w1) =>
        if truthyVal existingUser then
          (.failure 409 "DUPLICATE_PHONE"
            "This phone number is already registered for notifications!", w1)
        else
          storeSubscriber env body name formattedPhone w1
  | _, _ => (.failure 400 "MISSING_REQUIRED_FIELDS" "Name and phone number are required", w)

/-- The `GET` branch of `api/subscribe.js`: the number of subscribers, 0 when the store fails. -/
def subscriberStats (env : Env) (w : World) : SubscribeResponse × World :=
  match kvKeys env "subscriber:" w with
  | (none, w1) =>
    match isoNow env w1 with
    | (stamp, w2) => (.stats 200 0 stamp, w2)
  | (some subscriberKeys, w1) =>
    match isoNow env w1 with
    | (stamp, w2) => (.stats 200 subscriberKeys.length stamp, w2)

/-- The default export of `api/subscribe.js`.  A `POST` without a body makes the destructuring
throw, which the outer `catch` answers with 500. -/
def Subscribe.handler (env : Env) (req : SubscribeRequest) (w : World) :
    SubscribeResponse × World :=
  if req.method == "OPTIONS" then (.ended 200, w)
  else if req.method == "DELETE" && req.queryReset == some "confirm" then resetDatabase env w
  else if req.method == "POST" then
    match req.body with
    | none => (subscribeInternalError, w)
    | some body => signup env body w
  else if req.method == "GET" then subscriberStats env w
  else (.failure 405 "METHOD_NOT_ALLOWED" "Method not allowed", w)

/-! ## Worlds and environments for the concrete checks -/

/-- An environment in which the store never fails and the provider accepts every message. -/
def calmEnv : Env :=
  { kvFails := fun _ => false,
    provider := fun n _ => .ok ("SM" ++ toString n) "queued",
    clock := fun n => 1700000000000 + n,
    randomDecimal := fun _ => "0.5",
    randomBase36 := fun _ => "k3j9x0q2a",
    toISOString := fun t => "T" ++ toString t,
    toLowerCase := fun s => s,
    twilioAccountSid := some "AC0",
    twilioAuthToken := some "secret",
    twilioPhoneNumber := some "+15550000000" }

/-- A world with the given store contents and no history. -/
def worldOf (store : Store) : World :=
  { store := store, kvOps := 0, sends := [], sleeps := [], clockReads := 0, randReads := 0 }

/-- The world with an empty store. -/
def emptyWorld : World := worldOf []

/-- The number of decimal digits of a phone string. -/
def digitCount (phone : String) : Nat := (stripNonDigits phone).length

/-- Every character of the string is a decimal digit. -/
abbrev AllDigits (s : String) : Prop := ∀ c ∈ s.data, isDigitChar c = true

/-- The entries that `checkRateLimit` keeps: those strictly after `now - windowMs`. -/
def recentOf (now windowMs : Int) (requests : List Int) : List Int :=
  requests.filter (fun timestamp => decide (timestamp > now - windowMs))

/-- A world whose store holds, under the key `k`, three timestamps equal to 100. -/
def boundaryWorld : World := worldOf [⟨"k", .log [100, 100, 100], none⟩]

/-- An environment in which only the second store operation (the write of the log) throws. -/
def writeFailsEnv : Env := { calmEnv with kvFails := fun n => n == 1 }

/-- No record of the store is a subscriber with status `active`. -/
def NoActiveSubscriber (s : Store) : Prop :=
  ∀ e ∈ s, ∀ u : User, e.val = .user u → u.status ≠ "active"

/-- A store with one subscriber whose status is not `active`. -/
def inactiveStore : Store :=
  [⟨"user:u1", .user ⟨"u1", "Ann", "+15551234567", "", "t", "", "", "signup_form", "inactive",
      "t", 0, none⟩, none⟩,
   ⟨"subscriber:u1", .str "u1", none⟩]

/-! ## Definitions for the statements about sending and dispatch -/

/-- The destination `formattedPhone` that `sendSingleSMS` computes for a phone. -/
def sendDestination (phone : String) : String :=
  let cleanPhone := stripNonDigits phone
  if !startsWithChar phone '+' then
    if cleanPhone.length = 10 then "+1" ++ cleanPhone
    else if cleanPhone.length = 11 ∧ startsWithChar cleanPhone '1' then "+" ++ cleanPhone
    else "+" ++ cleanPhone
  else phone

/-- The request `sendSingleSMS` makes to the provider for a phone, a body and a sender. -/
def sendRequest (phone message fromNumber : String) : SendReq :=
  { body := message, sender := fromNumber, dest := sendDestination phone }

/-- The result `sendSingleSMS` builds from the reply of the provider. -/
def attemptResult (phone : String) : ProviderReply → DeliveryResult
  | .ok sid status =>
    { success := true, phone := sendDestination phone, messageId := some sid,
      status := some status, error := none, errorCode := none }
  | .err msg code =>
    { success := false, phone := phone, messageId := none, status := none,
      error := some msg, errorCode := code }

/-- The digit count of the phone is within the bound `sendSingleSMS` checks. -/
abbrev ValidPhone (phone : String) : Prop := 10 ≤ digitCount phone ∧ digitCount phone ≤ 15

/-- The result `sendSMSWithRetry` returns when its loop ends without a success. -/
def failedAfterRetries (phone : String) : DeliveryResult :=
  { success := false, phone := phone, messageId := none, status := none,
    error := some "Failed after retries", errorCode := none }

/-- The two worlds differ at most in the pauses recorded. -/
def SameButSleeps (w w2 : World) : Prop :=
  w.store = w2.store ∧ w.kvOps = w2.kvOps ∧ w.sends = w2.sends ∧
  w.clockReads = w2.clockReads ∧ w.randReads = w2.randReads

/-- The provider rejects the request with a code that the retry loop does not take for
permanent. -/
def TransientReply (reply : ProviderReply) : Prop :=
  ∃ msg code, reply = .err msg code ∧ isNoRetryCode code = false

/-- The request gets as far as the rate limiter: it is a `POST`, the provider configuration
is present, and the body carries the non-empty `message`. -/
def ReachesLimiter (env : Env) (req : SmsRequest) (body : SmsBody)
    (message fromNumber : String) : Prop :=
  req.method = "POST" ∧
  (∃ sid token, env.twilioAccountSid = some sid ∧ sid ≠ "" ∧
    env.twilioAuthToken = some token ∧ token ≠ "") ∧
  env.twilioPhoneNumber = some fromNumber ∧ fromNumber ≠ "" ∧
  req.body = some body ∧ body.message = some message ∧ message ≠ ""

/-- The result reported for a recipient in test mode. -/
def testReport (recipient : Recipient) : ReportedResult :=
  { phone := maskPhone recipient.phone, success := true, status := "test_sent", error := none }

/-- The reported results of a response; none unless it is the 200 summary. -/
def SmsResponse.results : SmsResponse → List ReportedResult
  | .sent _ _ data => data.results
  | _ => []

/-- The second world differs from the first at most in the number of store operations. -/
def OnlyReads (w w2 : World) : Prop :=
  w2.store = w.store ∧ w2.sends = w.sends ∧ w2.sleeps = w.sleeps ∧
  w2.clockReads = w.clockReads ∧ w2.randReads = w.randReads

/-- The request made to the provider for a recipient of a dispatch: the personalised message,
sent to the recipient's phone. -/
def requestFor (message fromNumber : String) (recipient : Recipient) : SendReq :=
  sendRequest recipient.phone
    (replaceName message (if recipient.name != "" then recipient.name else "Friend")) fromNumber

/-- An environment whose provider rejects every request with the numeric code 21211, as the
provider's client library reports it. -/
def numericRejectEnv : Env :=
  { calmEnv with provider := fun _ _ => .err "Invalid 'To' Phone Number" (some (.num 21211)) }

/-- An environment whose provider rejects every request with the code 21211 as a string. -/
def stringRejectEnv : Env :=
  { calmEnv with provider := fun _ _ => .err "Invalid 'To' Phone Number" (some (.str "21211")) }

/-- An environment whose provider rejects the first request with a transient code and accepts
the later ones. -/
def flakyEnv : Env :=
  { calmEnv with provider := fun n _ =>
      if n = 0 then .err "Service unavailable" (some (.num 20503)) else .ok "SM1" "queued" }

/-- A signup body with a name and a phone and nothing else. -/
def signupBody (name phone : String) : SubscribeBody :=
  { name := some name, phone := some phone, email := none, timestamp := none,
    userAgent := none, referrer := none, source := none }

/-- A `POST` to the dispatch handler from the address `1.2.3.4`. -/
def dispatchRequest (message : String) (testMode : Bool) (specificPhone : Option String) :
    SmsRequest :=
  { method := "POST", forwardedFor := some "1.2.3.4", remoteAddress := none,
    body := some { message := some message, testMode := testMode,
                   specificPhone := specificPhone } }

/-- The world after the signup of Ann with the phone `5551234567`, from an empty store. -/
def annWorld : World := (signup calmEnv (signupBody "Ann" "5551234567") emptyWorld).2

/-- The world after the signup of Jo with the German mobile number `+49 151 12345678`. -/
def joWorld : World := (signup calmEnv (signupBody "Jo" "+49 151 12345678") emptyWorld).2

/-- A world in which the caller `1.2.3.4` has made three requests within the last second. -/
def busyWorld : World :=
  { annWorld with
    store := Store.set annWorld.store "sms_rate_limit:1.2.3.4"
      (KVal.log [1699999999000, 1699999999500, 1699999999900]) }

/-- The world after the signup of a subscriber whose name is two blanks. -/
def blankNameWorld : World := (signup calmEnv (signupBody "  " "5551234567") emptyWorld).2

/-- The name put in place of the placeholder: the recipient's name, or `Friend` when it is
empty. -/
def shownName (recipient : Recipient) : String :=
  if recipient.name = "" then "Friend" else recipient.name

/-- The recipient built from a subscriber record, as in `subscribers.map(...)`. -/
def toRecipient (sub : User) : Recipient :=
  { phone := sub.phone, name := sub.name, id := some sub.id }

/-- The record of a subscriber after one more delivery, recorded at the time `stamp`. -/
def User.delivered (u : User) (stamp : String) : User :=
  { u with notificationsSent := u.notificationsSent + 1, lastNotificationSent := some stamp }

/-- An environment whose provider accepts every request with the same identifier. -/
def steadyEnv : Env := { calmEnv with provider := fun _ _ => .ok "SM0" "queued" }

/-- A provider that rejects the requests for Ann's phone with a transient code and accepts
the others. -/
def rejectAnn : Nat → SendReq → ProviderReply :=
  fun _ q =>
    if q.dest = "+15551234567" then .err "Service unavailable" (some (.num 20503))
    else .ok "SM0" "queued"

/-- The world after the signups of Ann and of Bob. -/
def twoWorld : World := (signup calmEnv (signupBody "Bob" "5559876543") annWorld).2

/-- The recipient that a dispatch over `twoWorld` builds for Bob. -/
def bobRecipient : Recipient :=
  { phone := "+15559876543", name := "Bob", id := some "user_1700000000003_k3j9x0q2a" }

/-! ## Definitions for the statements about retries, batches and the stores reached -/

/-- The number of calls of `sendSingleSMS` that the loop of `sendSMSWithRetry` makes from
`attempt` on: the loop of `sendSMSWithRetryLoop` with its iterations counted. -/
def retryAttempts (env : Env) (phone message fromNumber : String) (maxRetries : Int) :
    Nat → Nat → World → Nat
  | 0, _, _ => 0
  | fuel + 1, attempt, w =>
    if (attempt : Int) ≤ maxRetries then
      match sendSingleSMS env phone message fromNumber w with
      | (result, w1) =>
        if result.success then 1
        else if isNoRetryCode result.errorCode then 1
        else
          let w2 := if (attempt : Int) < maxRetries then sleep (2 ^ attempt * 1000) w1 else w1
          1 + retryAttempts env phone message fromNumber maxRetries fuel (attempt + 1) w2
    else 0

/-- The delays `2 ^ attempt * 1000`, in milliseconds, for `count` attempts from `attempt`
on. -/
def backoffDelays (attempt count : Nat) : List Int :=
  (List.range count).map (fun i => 2 ^ (attempt + i) * 1000)

/-- A sequence of calls of `checkRateLimit` for one key and one limit, each with its own
reading of the clock and its own window: the world after the last call. -/
def checkRateLimitAll (env : Env) (key : String) (limit : Int) :
    List (Int × Int) → World → World
  | [], w => w
  | (now, windowMs) :: rest, w =>
    checkRateLimitAll env key limit rest (checkRateLimit env now key limit windowMs w).2

/-- The key holds nothing, or a log of at most `limit` timestamps. -/
def LogWithin (s : Store) (key : String) (limit : Int) : Prop :=
  s.get key = none ∨ ∃ log, s.get key = some (.log log) ∧ (log.length : Int) ≤ limit

/-- The subscriber that one index key leads to in a store, as the specification describes
it: the id under the key, if present, resolved to the record under `user:<id>`, if that
exists and has the status `active`. -/
def activeAt (s : Store) (key : String) : Option User :=
  match s.get key with
  | none => none
  | some uid =>
    if truthyVal (some uid) then
      match s.get ("user:" ++ uid.template) with
      | some (.user user) => if user.status = "active" then some user else none
      | _ => none
    else none

/-- The operation `listActive` of the specification on the contents of the store: the index
entries `subscriber:*` in enumeration order, each resolved to its active record or skipped. -/
def listActive (s : Store) : List User :=
  (s.keys "subscriber:").filterMap (activeAt s)

/-- The batches that the batch loop takes, from `i` on: the slices
`recipients.slice(i, i + batchSize)` of `batchLoop`, listed in the order of the iterations. -/
def batchSlices (recipients : List Recipient) : Nat → Nat → List (List Recipient)
  | 0, _ => []
  | fuel + 1, i =>
    if i < recipients.length then
      ((recipients.drop i).take batchSize) :: batchSlices recipients fuel (i + batchSize)
    else []

/-- The processing of a list of batches as the specification describes it: each batch is sent
and awaited as a whole and tallied, and a pause of one second follows every batch that has a
successor. -/
def runBatches (env : Env) (message fromNumber : String) (testMode : Bool) :
    List (List Recipient) → Tally → World → Tally × World
  | [], acc, w => (acc, w)
  | batch :: rest, acc, w =>
    match sendBatch env message fromNumber testMode batch w with
    | (batchResults, w1) =>
      let acc1 : Tally :=
        { results := acc.results ++ batchResults,
          successCount := acc.successCount + (batchResults.filter (fun r => r.success)).length,
          failureCount := acc.failureCount + (batchResults.filter (fun r => !r.success)).length }
      match rest with
      | [] => (acc1, w1)
      | next :: more =>
        runBatches env message fromNumber testMode (next :: more) acc1 (sleep 1000 w1)

/-- A world whose store holds Ann's records, an inactive subscriber with its index entry, an
index entry without a record and an index entry without an id. -/
def mixedWorld : World :=
  worldOf (annWorld.store ++ inactiveStore ++
    [⟨"subscriber:u9", .str "u9", none⟩, ⟨"subscriber:u0", .str "", none⟩])

/-- An environment in which only the third store operation throws. -/
def thirdReadFailsEnv : Env := { calmEnv with kvFails := fun n => n == 2 }

/-- The subscriber records of a store: the records under the keys `user:*`, in enumeration
order. -/
def subscriberRecords (s : Store) : List User :=
  s.filterMap (fun e =>
    if "user:".data.isPrefixOf e.key.data then
      match e.val with
      | .user u => some u
      | _ => none
    else none)

/-- The world after a sequence of requests to `api/subscribe.js`, handled one after the
other. -/
def Subscribe.run (env : Env) : List SubscribeRequest → World → World
  | [], w => w
  | req :: rest, w => Subscribe.run env rest (Subscribe.handler env req w).2

/-- The keys of the store are pairwise distinct, and every record under a key `user:*` is
stored under the key of its own id and is the record that the index entry of its phone
holds. -/
def PhoneIndexed (s : Store) : Prop :=
  (s.map Entry.key).Nodup ∧
  ∀ e ∈ s, "user:".data.isPrefixOf e.key.data = true → ∀ u : User, e.val = .user u →
    e.key = "user:" ++ u.id ∧ s.get ("phone:" ++ u.phone) = some (.user u)

/-- A signup request with a name and a phone. -/
def signupRequest (name phone : String) : SubscribeRequest :=
  { method := "POST", queryReset := none, body := some (signupBody name phone) }

/-! ## A batch as the source starts it

`batch.map(async ...)` calls the callbacks one after the other, and each runs up to its first
`await`, the call of `twilioClient.messages.create` of its first attempt: the first attempts
of a batch are made in the order of the batch, before any reply is handled.  A send whose
first attempt fails, not permanently, pauses and makes its second attempt; the second
attempts are made in the order in which the replies to the first ones arrived, which the
program does not control.  `Promise.all` returns the results in the order of the batch. -/

/-- The send to one recipient of a batch as far as it has got: the results of its calls of
`sendSingleSMS`, and the places in the provider trace of the requests they made. -/
structure Slot where
  recipient : Recipient
  attempts : List DeliveryResult
  requests : List Nat
  deriving DecidableEq, Repr

/-- One iteration of the loop of `sendSMSWithRetry` for a recipient, up to the result of
`sendSingleSMS`: the result is noted, with the place in the trace of the request if one was
made. -/
def Slot.attempt (env : Env) (message fromNumber : String) (slot : Slot) (w : World) :
    Slot × World :=
  match sendSingleSMS env slot.recipient.phone
      (replaceName message (if slot.recipient.name != "" then slot.recipient.name else "Friend"))
      fromNumber w with
  | (result, w1) =>
    ({ slot with
        attempts := slot.attempts ++ [result],
        requests := slot.requests ++
          List.range' w.sends.length (w1.sends.length - w.sends.length) }, w1)

/-- Whether the loop of `sendSMSWithRetry`, with its default of two attempts, goes on after
the attempts made: the one attempt failed, its code is not in the list, and `attempt <
maxRetries`. -/
def Slot.waiting (slot : Slot) : Bool :=
  match slot.attempts with
  | [result] =>
    !result.success && !isNoRetryCode result.errorCode && decide ((1 : Int) < defaultMaxRetries)
  | _ => false

/-- The value `sendSMSWithRetry` returns: the result of the successful attempt, or else the
object built after the loop. -/
def Slot.result (slot : Slot) : DeliveryResult :=
  match slot.attempts.find? (fun r => r.success) with
  | some result => result
  | none =>
    { success := false, phone := slot.recipient.phone, messageId := none, status := none,
      error := some "Failed after retries", errorCode := none }

/-- The start of a live batch: the first attempts, in the order of the batch. -/
def startSends (env : Env) (message fromNumber : String) :
    List Recipient → World → List Slot × World
  | [], w => ([], w)
  | recipient :: rest, w =>
    match Slot.attempt env message fromNumber
        { recipient := recipient, attempts := [], requests := [] } w with
    | (slot, w1) =>
      match startSends env message fromNumber rest w1 with
      | (slots, w2) => (slot :: slots, w2)

/-- The second attempts of a live batch, for the positions in the order given: a send that
goes on pauses `2 ^ 1 * 1000` ms and calls `sendSingleSMS` again. -/
def retrySends (env : Env) (message fromNumber : String) :
    List Nat → List Slot → World → List Slot × World
  | [], slots, w => (slots, w)
  | j :: order, slots, w =>
    match slots[j]? with
    | some slot =>
      if slot.waiting then
        match Slot.attempt env message fromNumber slot (sleep (2 ^ 1 * 1000) w) with
        | (slot1, w1) => retrySends env message fromNumber order (slots.set j slot1) w1
      else retrySends env message fromNumber order slots w
    | none => retrySends env message fromNumber order slots w

/-- The positions of a batch of `count` recipients in the order in which the replies to
their first attempts arrive; `arrival` gives the time of arrival for each recipient of the
dispatch, `offset` is the position of the batch among them. -/
def retryOrder (arrival : Nat → Nat) (offset count : Nat) : List Nat :=
  (List.range count).insertionSort (fun a b => arrival (offset + a) ≤ arrival (offset + b))

/-- A live batch, `await Promise.all(batch.map(...))`, with the sends started together. -/
def sendBatchTogether (env : Env) (arrival : Nat → Nat) (message fromNumber : String)
    (offset : Nat) (batch : List Recipient) (w : World) : List Slot × World :=
  match startSends env message fromNumber batch w with
  | (slots, w1) =>
    retrySends env message fromNumber (retryOrder arrival offset batch.length) slots w1

/-- The batch loop of a live dispatch with the sends of each batch started together: the
loop of `batchLoop`, from `i` on, with the sends of the recipients as its result. -/
def batchLoopTogether (env : Env) (arrival : Nat → Nat) (message fromNumber : String)
    (recipients : List Recipient) : Nat → Nat → List Slot → World → List Slot × World
  | 0, _, acc, w => (acc, w)
  | fuel + 1, i, acc, w =>
    if i < recipients.length then
      let batch := (recipients.drop i).take batchSize
      match sendBatchTogether env arrival message fromNumber i batch w with
      | (slots, w1) =>
        let w2 := if i + batchSize < recipients.length then sleep 1000 w1 else w1
        batchLoopTogether env arrival message fromNumber recipients fuel (i + batchSize)
          (acc ++ slots) w2
    else (acc, w)

/-- A provider that accepts the second request made and rejects every other one with a
transient code. -/
def secondOnly : Nat → SendReq → ProviderReply :=
  fun n _ => if n = 1 then .ok "SM1" "queued" else .err "Service unavailable" (some (.num 20503))

/-- A provider that rejects every request with a transient code. -/
def rejectAll : Nat → SendReq → ProviderReply :=
  fun _ _ => .err "Service unavailable" (some (.num 20503))

/-- The recipient that a dispatch over `twoWorld` builds for Ann. -/
def annRecipient : Recipient :=
  { phone := "+15551234567", name := "Ann", id := some "user_1700000000000_k3j9x0q2a" }

/-- The attempts noted for a send are the results of the replies of the provider to its
requests, in order; a send for a phone outside the length bound has made no successful
attempt. -/
def Slot.Consistent (env : Env) (message fromNumber : String) (slot : Slot) : Prop :=
  (ValidPhone slot.recipient.phone →
    slot.attempts = slot.requests.map (fun n =>
      attemptResult slot.recipient.phone
        (env.provider n (requestFor message fromNumber slot.recipient)))) ∧
  (¬ ValidPhone slot.recipient.phone → slot.requests = [] ∧ ∀ a ∈ slot.attempts, a.success = false)

/-- The places noted for a send are places of the provider trace, and the request at each of
them is the request for the recipient of the send. -/
def Slot.Traced (message fromNumber : String) (w : World) (slot : Slot) : Prop :=
  ∀ n ∈ slot.requests, w.sends[n]? = some (requestFor message fromNumber slot.recipient)

/-- The send to Bob after one accepted attempt, made by the request at the place `n` of the
trace. -/
def bobSent (n : Nat) : Slot :=
  { recipient := bobRecipient,
    attempts := [{ success := true, phone := "+15559876543", messageId := some "SM0",
                   status := some "queued", error := none, errorCode := none }],
    requests := [n] }

/-- The result of a send at a provider whose reply `reply` to the request for the recipient
is the same whenever the request is made: the result of the accepted request, or the object
built after the loop. -/
def steadyResult (recipient : Recipient) (reply : ProviderReply) : DeliveryResult :=
  if ValidPhone recipient.phone ∧ (attemptResult recipient.phone reply).success = true then
    attemptResult recipient.phone reply
  else failedAfterRetries recipient.phone

/-! ## Lemmas on strings -/

theorem stripNonDigits_allDigits (s : String) : AllDigits (stripNonDigits s) := by
  intro c hc
  simp only [stripNonDigits, List.mem_filter] at hc
  exact hc.2

theorem stripNonDigits_of_allDigits (s : String) (h : AllDigits s) : stripNonDigits s = s := by
  apply String.ext
  simp only [stripNonDigits]
  exact List.filter_eq_self.mpr h

theorem stripNonDigits_stripNonDigits (s : String) :
    stripNonDigits (stripNonDigits s) = stripNonDigits s :=
  stripNonDigits_of_allDigits _ (stripNonDigits_allDigits s)

theorem stripNonDigits_plus (s : String) : stripNonDigits ("+" ++ s) = stripNonDigits s := by
  apply String.ext
  simp [stripNonDigits, String.data_append, isDigitChar]

theorem stripNonDigits_plus_one (s : String) :
    stripNonDigits ("+1" ++ s) = "1" ++ stripNonDigits s := by
  apply String.ext
  simp [stripNonDigits, String.data_append, isDigitChar]

theorem startsWithChar_plus (s : String) : startsWithChar ("+" ++ s) '+' = true := by
  simp [startsWithChar, String.data_append]

theorem startsWithChar_one (s : String) : startsWithChar ("1" ++ s) '1' = true := by
  simp [startsWithChar, String.data_append]

/-- The two shapes of a normalised number: ten digits get `+1`, any other count gets `+`. -/
theorem formatPhoneNumber_cases (p : String) :
    (formatPhoneNumber p = "+1" ++ stripNonDigits p ∧ (stripNonDigits p).length = 10) ∨
    (formatPhoneNumber p = "+" ++ stripNonDigits p ∧ (stripNonDigits p).length ≠ 10) := by
  unfold formatPhoneNumber
  by_cases h : (stripNonDigits p).length = 10
  · left; simp [h]
  · right
    simp only [h, if_false]
    refine ⟨?_, h⟩
    split_ifs <;> rfl

/-- A number of the first normalised shape is left alone. -/
theorem formatPhoneNumber_plus_one_digits (p : String) (hl : (stripNonDigits p).length = 10) :
    formatPhoneNumber ("+1" ++ stripNonDigits p) = "+1" ++ stripNonDigits p := by
  unfold formatPhoneNumber
  simp only [stripNonDigits_plus_one, stripNonDigits_stripNonDigits]
  have h1 : ("1" ++ stripNonDigits p).length = 11 := by
    rw [String.length_append, hl]; rfl
  simp only [h1, startsWithChar_one]
  apply String.ext
  simp [String.data_append]

/-- A number of the second normalised shape is left alone. -/
theorem formatPhoneNumber_plus_digits (p : String) (hl : (stripNonDigits p).length ≠ 10) :
    formatPhoneNumber ("+" ++ stripNonDigits p) = "+" ++ stripNonDigits p := by
  unfold formatPhoneNumber
  simp only [stripNonDigits_plus, stripNonDigits_stripNonDigits]
  simp [hl, startsWithChar_plus]

/-! ## The phone normaliser -/

/-- C1. Normalising a normalised number changes nothing: `formatPhoneNumber` is idempotent on
every string. -/
theorem formatPhoneNumber_idempotent (p : String) :
    formatPhoneNumber (formatPhoneNumber p) = formatPhoneNumber p := by
  rcases formatPhoneNumber_cases p with ⟨h, hl⟩ | ⟨h, hl⟩
  · rw [h]
    exact formatPhoneNumber_plus_one_digits p hl
  · rw [h]
    exact formatPhoneNumber_plus_digits p hl

/-- C2. A string of exactly ten decimal digits is normalised to `+1` followed by it, and a
string of exactly eleven decimal digits that begins with `1` to `+` followed by it. -/
theorem formatPhoneNumber_digit_strings (d : String) (hd : AllDigits d) :
    (d.length = 10 → formatPhoneNumber d = "+1" ++ d) ∧
    (d.length = 11 → startsWithChar d '1' = true → formatPhoneNumber d = "+" ++ d) := by
  have hs : stripNonDigits d = d := stripNonDigits_of_allDigits d hd
  constructor
  · intro h10
    simp [formatPhoneNumber, hs, h10]
  · intro h11 h1
    simp [formatPhoneNumber, hs, h11, h1]

/-- The witness of C2: the ten digits `5551234567` give `+15551234567`, and so do the eleven
digits `15551234567`. -/
theorem formatPhoneNumber_digit_strings_witness :
    formatPhoneNumber "5551234567" = "+1" ++ "5551234567" ∧
    formatPhoneNumber "15551234567" = "+" ++ "15551234567" :=
  ⟨(formatPhoneNumber_digit_strings "5551234567" (by decide)).1 (by decide),
   (formatPhoneNumber_digit_strings "15551234567" (by decide)).2 (by decide) (by decide)⟩

/-- C3 (the code at the failing input). The Danish number `+4512345678` begins with `+` and
has ten digits; `formatPhoneNumber` does not return `+` followed by its digits but inserts the
country code `1`, while `sendSingleSMS` hands the same string to the provider unchanged. -/
theorem formatPhoneNumber_plus_ten_digits :
    formatPhoneNumber "+4512345678" = "+14512345678" ∧
    formatPhoneNumber "+4512345678" ≠ "+" ++ stripNonDigits "+4512345678" ∧
    (sendSingleSMS calmEnv "+4512345678" "Hi" "+15550000000" emptyWorld).2.sends =
      [{ body := "Hi", sender := "+15550000000", dest := "+4512345678" }] := by
  decide

/-! ## Phone validation at signup and at send time -/

theorem validatePhoneNumber_iff (p : String) :
    validatePhoneNumber (some p) = true ↔ p ≠ "" ∧ 10 ≤ digitCount p ∧ digitCount p ≤ 15 := by
  unfold validatePhoneNumber digitCount
  by_cases hp : p = ""
  · subst hp; simp
  · simp [hp]

/-- The response of a signup that got past the duplicate check is the success or the answer
of the outer `catch`, never a validation failure. -/
theorem storeSubscriber_response (env : Env) (body : SubscribeBody) (name fp : String)
    (w : World) :
    (storeSubscriber env body name fp w).1 = subscribeInternalError ∨
    ∃ msg data, (storeSubscriber env body name fp w).1 = .registered 200 msg data := by
  unfold storeSubscriber
  simp only [dateNow]
  repeat' split
  all_goals first
    | (left; rfl)
    | (right; exact ⟨_, _, rfl⟩)

/-- C4 (the claim fails for an empty phone). The empty string fails `validatePhoneNumber`,
yet a signup that carries it is answered `MISSING_REQUIRED_FIELDS`, not `INVALID_PHONE`. -/
theorem signup_empty_phone_not_invalid_phone :
    validatePhoneNumber (some "") = false ∧
    (signup calmEnv ⟨some "Ann", some "", none, none, none, none, none⟩ emptyWorld).1 =
      .failure 400 "MISSING_REQUIRED_FIELDS" "Name and phone number are required" ∧
    (signup calmEnv ⟨some "Ann", some "", none, none, none, none, none⟩ emptyWorld).1 ≠
      .failure 400 "INVALID_PHONE" "Please enter a valid phone number" := by
  decide

/-- C4 (amended). `validatePhoneNumber` accepts a phone exactly when it is not empty and has
between 10 and 15 digits; a signup with a non-empty name answers 400 `INVALID_PHONE`, leaving
the world as it was, exactly when the phone is not empty and its digit count is outside that
range; `sendSingleSMS` applies the same bound: outside it the result is a failure that carries
the length error and the provider is not invoked, inside it the provider is invoked once. -/
theorem phone_length_bound (p : String) :
    (validatePhoneNumber (some p) = true ↔ p ≠ "" ∧ 10 ≤ digitCount p ∧ digitCount p ≤ 15) ∧
    (∀ (env : Env) (body : SubscribeBody) (name : String) (w : World),
      body.name = some name → name ≠ "" → body.phone = some p →
      ((signup env body w).1 = .failure 400 "INVALID_PHONE" "Please enter a valid phone number" ↔
        p ≠ "" ∧ (digitCount p < 10 ∨ 15 < digitCount p)) ∧
      ((signup env body w).1 = .failure 400 "INVALID_PHONE" "Please enter a valid phone number" →
        (signup env body w).2 = w)) ∧
    (∀ (env : Env) (message fromNumber : String) (w : World),
      (digitCount p < 10 ∨ 15 < digitCount p) →
      sendSingleSMS env p message fromNumber w =
        ({ success := false, phone := p, messageId := none, status := none,
           error := some ("Invalid phone number length: " ++ toString (digitCount p) ++ " digits"),
           errorCode := none }, w)) ∧
    (∀ (env : Env) (message fromNumber : String) (w : World),
      10 ≤ digitCount p → digitCount p ≤ 15 →
      (sendSingleSMS env p message fromNumber w).2.sends.length = w.sends.length + 1) := by
  refine ⟨validatePhoneNumber_iff p, ?_, ?_, ?_⟩
  · intro env body name w hname hne hphone
    have hv := validatePhoneNumber_iff p
    by_cases hp : p = ""
    · have h1 : (signup env body w) =
          (.failure 400 "MISSING_REQUIRED_FIELDS" "Name and phone number are required", w) := by
        simp [signup, hname, hphone, hp]
      simp [h1, hp]
    · by_cases hvalid : validatePhoneNumber (some p) = true
      · have hin := (hv.mp hvalid).2
        have hresp : (signup env body w).1 ≠
            .failure 400 "INVALID_PHONE" "Please enter a valid phone number" := by
          unfold signup
          simp only [hname, hphone]
          have hcond : (name == "" || p == "") = false := by simp [hne, hp]
          simp only [hcond, hvalid, Bool.not_true, Bool.false_eq_true, if_false]
          split
          · simp
          · split
            · simp [subscribeInternalError]
            · rename_i stored w1 _
              split
              · simp
              · rcases storeSubscriber_response env body name (formatPhoneNumber p) w1 with h | h
                · rw [h]; simp [subscribeInternalError]
                · obtain ⟨msg, data, h⟩ := h
                  rw [h]; simp
        constructor
        · constructor
          · intro h; exact absurd h hresp
          · rintro ⟨_, h⟩; omega
        · intro h; exact absurd h hresp
      · have h1 : (signup env body w) =
            (.failure 400 "INVALID_PHONE" "Please enter a valid phone number", w) := by
          simp [signup, hname, hphone, hp, hne, hvalid]
        have hout : digitCount p < 10 ∨ 15 < digitCount p := by
          by_contra hc
          exact hvalid (hv.mpr ⟨hp, by omega, by omega⟩)
        simp [h1, hp, hout]
  · intro env message fromNumber w hout
    have hout2 : (stripNonDigits p).length < 10 ∨ (stripNonDigits p).length > 15 := hout
    simp [sendSingleSMS, hout2, digitCount]
  · intro env message fromNumber w hlo hhi
    have hin : ¬ ((stripNonDigits p).length < 10 ∨ (stripNonDigits p).length > 15) := by
      unfold digitCount at hlo hhi; omega
    unfold sendSingleSMS
    simp only [hin, if_false]
    split <;> simp

/-- The witness of C4: the nine-digit phone `555123456` is rejected by the validator, by the
signup and by the sender, and the ten-digit phone `5551234567` reaches the provider. -/
theorem phone_length_bound_witness :
    validatePhoneNumber (some "555123456") = false ∧
    (signup calmEnv ⟨some "Ann", some "555123456", none, none, none, none, none⟩ emptyWorld).1 =
      .failure 400 "INVALID_PHONE" "Please enter a valid phone number" ∧
    (sendSingleSMS calmEnv "555123456" "Hi" "+15550000000" emptyWorld).2.sends = [] ∧
    (sendSingleSMS calmEnv "5551234567" "Hi" "+15550000000" emptyWorld).2.sends.length = 1 := by
  have h := phone_length_bound "555123456"
  have h2 := phone_length_bound "5551234567"
  refine ⟨by decide, ?_, ?_, ?_⟩
  · exact ((h.2.1 calmEnv ⟨some "Ann", some "555123456", none, none, none, none, none⟩ "Ann"
      emptyWorld rfl (by decide) rfl).1).mpr (by decide)
  · rw [h.2.2.1 calmEnv "Hi" "+15550000000" emptyWorld (by decide)]
    rfl
  · exact h2.2.2.2 calmEnv "Hi" "+15550000000" emptyWorld (by decide) (by decide)

/-- C5 (the claim fails for a phone that begins with `+`). For `+1 (555) 123-4567`, whose
eleven digits are within the bound, `sendSingleSMS` hands the raw string to the provider and
returns it as `phone`, while `formatPhoneNumber` gives `+15551234567`. -/
theorem sendSingleSMS_keeps_raw_plus_phone :
    digitCount "+1 (555) 123-4567" = 11 ∧
    formatPhoneNumber "+1 (555) 123-4567" = "+15551234567" ∧
    (sendSingleSMS calmEnv "+1 (555) 123-4567" "Hi" "+15550000000" emptyWorld).2.sends =
      [{ body := "Hi", sender := "+15550000000", dest := "+1 (555) 123-4567" }] ∧
    (sendSingleSMS calmEnv "+1 (555) 123-4567" "Hi" "+15550000000" emptyWorld).1.success = true ∧
    (sendSingleSMS calmEnv "+1 (555) 123-4567" "Hi" "+15550000000" emptyWorld).1.phone =
      "+1 (555) 123-4567" := by
  decide

/-- C5 (amended). For every phone whose digit count is in [10, 15], `sendSingleSMS` invokes
the provider once, with a destination that is `formatPhoneNumber phone` when the phone does
not begin with `+` and the phone itself, unchanged, when it does; a successful result reports
that destination as `phone`.  For a phone that is already normalised (the output of
`formatPhoneNumber`, as every stored subscriber phone is) the destination is again
`formatPhoneNumber phone`. -/
theorem sendSingleSMS_destination (env : Env) (phone message fromNumber : String) (w : World)
    (hlo : 10 ≤ digitCount phone) (hhi : digitCount phone ≤ 15) :
    (sendSingleSMS env phone message fromNumber w).2.sends =
      w.sends ++ [{ body := message, sender := fromNumber,
                    dest := if startsWithChar phone '+' then phone
                            else formatPhoneNumber phone }] ∧
    ((sendSingleSMS env phone message fromNumber w).1.success = true →
      (sendSingleSMS env phone message fromNumber w).1.phone =
        if startsWithChar phone '+' then phone else formatPhoneNumber phone) ∧
    (∀ q : String, phone = formatPhoneNumber q →
      (if startsWithChar phone '+' then phone else formatPhoneNumber phone) =
        formatPhoneNumber phone) := by
  have hin : ¬ ((stripNonDigits phone).length < 10 ∨ (stripNonDigits phone).length > 15) := by
    unfold digitCount at hlo hhi; omega
  have hdest : (if (!startsWithChar phone '+') = true then
        if (stripNonDigits phone).length = 10 then "+1" ++ stripNonDigits phone
        else if (stripNonDigits phone).length = 11 ∧ startsWithChar (stripNonDigits phone) '1' = true
          then "+" ++ stripNonDigits phone
        else "+" ++ stripNonDigits phone
      else phone) = (if startsWithChar phone '+' then phone else formatPhoneNumber phone) := by
    by_cases hplus : startsWithChar phone '+' = true
    · simp [hplus]
    · simp only [hplus, Bool.not_false, if_true, Bool.false_eq_true, if_false]
      unfold formatPhoneNumber
      simp only [hplus, Bool.false_eq_true, if_false]
  refine ⟨?_, ?_, ?_⟩
  · unfold sendSingleSMS
    simp only [hin, if_false, hdest]
    split <;> rfl
  · unfold sendSingleSMS
    simp only [hin, if_false, hdest]
    split <;> simp
  · intro q hq
    have hstart : startsWithChar phone '+' = true := by
      rcases formatPhoneNumber_cases q with ⟨h, _⟩ | ⟨h, _⟩
      · rw [hq, h]
        have : "+1" ++ stripNonDigits q = "+" ++ ("1" ++ stripNonDigits q) := by
          apply String.ext; simp [String.data_append]
        rw [this]; exact startsWithChar_plus _
      · rw [hq, h]; exact startsWithChar_plus _
    simp only [hstart, if_true]
    rcases formatPhoneNumber_cases q with ⟨h, hl⟩ | ⟨h, hl⟩
    · rw [hq, h]
      exact (formatPhoneNumber_plus_one_digits q hl).symm
    · rw [hq, h]
      exact (formatPhoneNumber_plus_digits q hl).symm

/-- The witness of C5: the stored phone `+15551234567` is sent to as it is, and the raw phone
`(555) 123-4567` is sent to in normalised form. -/
theorem sendSingleSMS_destination_witness :
    (sendSingleSMS calmEnv "(555) 123-4567" "Hi" "+15550000000" emptyWorld).2.sends =
      [] ++ [{ body := "Hi", sender := "+15550000000",
               dest := if startsWithChar "(555) 123-4567" '+' then "(555) 123-4567"
                       else formatPhoneNumber "(555) 123-4567" }] :=
  (sendSingleSMS_destination calmEnv "(555) 123-4567" "Hi" "+15550000000" emptyWorld
    (by decide) (by decide)).1

/-! ## Lemmas on the store -/

theorem ceilSeconds_eq_ceil (windowMs : Int) :
    ceilSeconds windowMs = ⌈(windowMs : ℚ) / 1000⌉ := by
  unfold ceilSeconds
  have h := Rat.floor_intCast_div_natCast (-windowMs) 1000
  have h2 : ((-windowMs : ℤ) : ℚ) / ((1000 : ℕ) : ℚ) = -((windowMs : ℚ) / 1000) := by
    push_cast; ring
  rw [h2, Int.floor_neg] at h
  have h3 : ((1000 : ℕ) : ℤ) = 1000 := by norm_num
  rw [h3] at h
  omega

theorem Store.get_set_self (s : Store) (key : String) (v : KVal) :
    (Store.set s key v).get key = some v := by
  induction s with
  | nil => simp [Store.set, Store.get]
  | cons e rest ih =>
    unfold Store.set
    by_cases h : e.key = key
    · simp [h, Store.get]
    · simp only [beq_iff_eq, h, if_false]
      simpa [Store.get, List.find?_cons, h] using ih

theorem Store.get_expire (s : Store) (key key2 : String) (secs : Int) :
    (Store.expire s key secs).get key2 = s.get key2 := by
  induction s with
  | nil => simp [Store.expire]
  | cons e rest ih =>
    unfold Store.expire
    by_cases h : e.key = key
    · simp only [beq_iff_eq, h, if_true]
      by_cases h2 : key = key2
      · simp [Store.get, List.find?_cons, h, h2]
      · simp [Store.get, List.find?_cons, h, h2]
    · simp only [beq_iff_eq, h, if_false]
      by_cases h2 : e.key = key2
      · simp [Store.get, List.find?_cons, h2]
      · simpa [Store.get, List.find?_cons, h2] using ih

theorem Store.ttlOf_expire_set (s : Store) (key : String) (v : KVal) (secs : Int) :
    (Store.expire (Store.set s key v) key secs).ttlOf key = some secs := by
  induction s with
  | nil => simp [Store.set, Store.expire, Store.ttlOf]
  | cons e rest ih =>
    unfold Store.set
    by_cases h : e.key = key
    · simp [h, Store.expire, Store.ttlOf]
    · simp only [beq_iff_eq, h, if_false]
      unfold Store.expire
      simp only [beq_iff_eq, h, if_false]
      simpa [Store.ttlOf, List.find?_cons, h] using ih

theorem kvOp_ok {α : Type} (env : Env) (f : Store → α) (g : Store → Store) (w : World)
    (h : env.kvFails w.kvOps = false) :
    kvOp env f g w = (some (f w.store), { w with kvOps := w.kvOps + 1, store := g w.store }) := by
  simp [kvOp, h]

theorem kvOp_fail {α : Type} (env : Env) (f : Store → α) (g : Store → Store) (w : World)
    (h : env.kvFails w.kvOps = true) :
    kvOp env f g w = (none, { w with kvOps := w.kvOps + 1 }) := by
  simp [kvOp, h]

/-- With a working store and a log (or nothing) under the key, `checkRateLimit` denies when
the recent entries reach the limit, and otherwise stores them with `now` appended. -/
theorem checkRateLimit_store_ok (env : Env) (now : Int) (key : String) (limit windowMs : Int)
    (w : World) (requests : List Int)
    (h0 : env.kvFails w.kvOps = false) (h1 : env.kvFails (w.kvOps + 1) = false)
    (h2 : env.kvFails (w.kvOps + 2) = false)
    (hreq : requestsOf (w.store.get key) = some requests) :
    checkRateLimit env now key limit windowMs w =
      if limit ≤ ((recentOf now windowMs requests).length : Int) then
        (false, { w with kvOps := w.kvOps + 1 })
      else
        (true, { w with
          kvOps := w.kvOps + 3,
          store := ((w.store.set key (.log (recentOf now windowMs requests ++ [now]))).expire key
            (ceilSeconds windowMs)) }) := by
  by_cases hl : limit ≤ ((recentOf now windowMs requests).length : Int)
  · have hl2 := hl
    unfold recentOf at hl2
    simp [checkRateLimit, kvGet, kvOp, h0, hreq, hl, hl2]
  · have hl2 := hl
    unfold recentOf at hl2
    simp [checkRateLimit, kvGet, kvSet, kvExpire, kvOp, h0, h1, h2, hreq, hl, hl2, recentOf]

/-! ## The rate limiter -/

theorem checkRateLimit_admits (env : Env) (now : Int) (key : String) (limit windowMs : Int)
    (w : World) (requests : List Int) (hstore : ∀ n, env.kvFails n = false)
    (hreq : requestsOf (w.store.get key) = some requests)
    (hlt : ((recentOf now windowMs requests).length : Int) < limit) :
    (checkRateLimit env now key limit windowMs w).1 = true ∧
    (checkRateLimit env now key limit windowMs w).2.store.get key =
      some (.log (recentOf now windowMs requests ++ [now])) ∧
    (checkRateLimit env now key limit windowMs w).2.store.ttlOf key =
      some (ceilSeconds windowMs) := by
  rw [checkRateLimit_store_ok env now key limit windowMs w requests (hstore _) (hstore _)
    (hstore _) hreq]
  have hl : ¬ limit ≤ ((recentOf now windowMs requests).length : Int) := by omega
  simp only [hl, if_false, Store.get_expire, Store.get_set_self, Store.ttlOf_expire_set,
    and_self]

theorem checkRateLimit_denies (env : Env) (now : Int) (key : String) (limit windowMs : Int)
    (w : World) (requests : List Int) (hstore : ∀ n, env.kvFails n = false)
    (hreq : requestsOf (w.store.get key) = some requests)
    (hge : limit ≤ ((recentOf now windowMs requests).length : Int)) :
    (checkRateLimit env now key limit windowMs w).1 = false ∧
    (checkRateLimit env now key limit windowMs w).2.store = w.store := by
  rw [checkRateLimit_store_ok env now key limit windowMs w requests (hstore _) (hstore _)
    (hstore _) hreq]
  simp [hge]

/-- C6. With limit 3, a working store and no log under the key, four successive calls at
times `t1 ≤ t2 ≤ t3 ≤ t4` with `t4 - t1 < windowMs` are answered true, true, true, false; the
stored log is then `[t1, t2, t3]`, and a later call at a time `t` for which every stored
timestamp is outside the window (`s ≤ t - windowMs`) is answered true again.  The window is
positive because `0 ≤ t4 - t1 < windowMs`. -/
theorem checkRateLimit_fourth_in_window_denied (env : Env) (key : String)
    (windowMs t1 t2 t3 t4 t : Int) (w : World)
    (hstore : ∀ n, env.kvFails n = false) (habsent : w.store.get key = none)
    (h12 : t1 ≤ t2) (h23 : t2 ≤ t3) (h34 : t3 ≤ t4)
    (hwin : t4 - t1 < windowMs) (hlater : ∀ s ∈ [t1, t2, t3], s ≤ t - windowMs) :
    (checkRateLimit env t1 key 3 windowMs w).1 = true ∧
    (checkRateLimit env t2 key 3 windowMs (checkRateLimit env t1 key 3 windowMs w).2).1 = true ∧
    (checkRateLimit env t3 key 3 windowMs
      (checkRateLimit env t2 key 3 windowMs (checkRateLimit env t1 key 3 windowMs w).2).2).1
        = true ∧
    (checkRateLimit env t4 key 3 windowMs
      (checkRateLimit env t3 key 3 windowMs
        (checkRateLimit env t2 key 3 windowMs
          (checkRateLimit env t1 key 3 windowMs w).2).2).2).1 = false ∧
    (checkRateLimit env t4 key 3 windowMs
      (checkRateLimit env t3 key 3 windowMs
        (checkRateLimit env t2 key 3 windowMs
          (checkRateLimit env t1 key 3 windowMs w).2).2).2).2.store.get key
        = some (.log [t1, t2, t3]) ∧
    (checkRateLimit env t key 3 windowMs
      (checkRateLimit env t4 key 3 windowMs
        (checkRateLimit env t3 key 3 windowMs
          (checkRateLimit env t2 key 3 windowMs
            (checkRateLimit env t1 key 3 windowMs w).2).2).2).2).1 = true := by
  have hl1 := hlater t1 (by simp)
  have hl2 := hlater t2 (by simp)
  have hl3 := hlater t3 (by simp)
  -- first call: nothing stored
  have r1 : recentOf t1 windowMs [] = [] := rfl
  obtain ⟨a1, s1, -⟩ := checkRateLimit_admits env t1 key 3 windowMs w [] hstore
    (by rw [habsent]; rfl) (by rw [r1]; decide)
  rw [r1] at s1
  -- second call: `t1` is recent
  have r2 : recentOf t2 windowMs [t1] = [t1] := by
    have : t1 > t2 - windowMs := by omega
    simp [recentOf, this]
  obtain ⟨a2, s2, -⟩ := checkRateLimit_admits env t2 key 3 windowMs _ [t1] hstore
    (by rw [s1]; rfl) (by rw [r2]; simp)
  rw [r2] at s2
  -- third call: `t1` and `t2` are recent
  have r3 : recentOf t3 windowMs [t1, t2] = [t1, t2] := by
    have : t1 > t3 - windowMs := by omega
    have : t2 > t3 - windowMs := by omega
    simp [recentOf, *]
  obtain ⟨a3, s3, -⟩ := checkRateLimit_admits env t3 key 3 windowMs _ [t1, t2] hstore
    (by rw [s2]; rfl) (by rw [r3]; simp)
  rw [r3] at s3
  -- fourth call: three recent entries reach the limit
  have r4 : recentOf t4 windowMs [t1, t2, t3] = [t1, t2, t3] := by
    have : t1 > t4 - windowMs := by omega
    have : t2 > t4 - windowMs := by omega
    have : t3 > t4 - windowMs := by omega
    simp [recentOf, *]
  obtain ⟨a4, s4⟩ := checkRateLimit_denies env t4 key 3 windowMs _ [t1, t2, t3] hstore
    (by rw [s3]; rfl) (by rw [r4]; simp)
  have g4 := s3
  rw [← s4] at g4
  -- later call: nothing is recent any more
  have r5 : recentOf t windowMs [t1, t2, t3] = [] := by
    have : ¬ t1 > t - windowMs := by omega
    have : ¬ t2 > t - windowMs := by omega
    have : ¬ t3 > t - windowMs := by omega
    simp [recentOf, *]
  obtain ⟨a5, -, -⟩ := checkRateLimit_admits env t key 3 windowMs _ [t1, t2, t3] hstore
    (by rw [g4]; rfl) (by rw [r5]; simp)
  exact ⟨a1, a2, a3, a4, g4, a5⟩

/-- The witness of C6: the operating policy (3 requests per 300000 ms) at the times 0, 1000,
2000, 3000 and then 400000. -/
theorem checkRateLimit_fourth_in_window_denied_witness :
    (checkRateLimit calmEnv 3000 "sms_rate_limit:1.2.3.4" 3 300000
      (checkRateLimit calmEnv 2000 "sms_rate_limit:1.2.3.4" 3 300000
        (checkRateLimit calmEnv 1000 "sms_rate_limit:1.2.3.4" 3 300000
          (checkRateLimit calmEnv 0 "sms_rate_limit:1.2.3.4" 3 300000
            emptyWorld).2).2).2).1 = false :=
  (checkRateLimit_fourth_in_window_denied calmEnv "sms_rate_limit:1.2.3.4" 300000 0 1000 2000
    3000 400000 emptyWorld (fun _ => rfl) rfl (by decide) (by decide) (by decide) (by decide)
    (by decide)).2.2.2.1

/-- C7 (the claim fails at the boundary). At `now = 200` with a window of 100 the three stored
timestamps equal `now - windowMs`; they are not older than it, yet `checkRateLimit` with limit
3 does not count them: it admits the call and stores the log `[200]`. -/
theorem checkRateLimit_drops_boundary_timestamp :
    (checkRateLimit calmEnv 200 "k" 3 100 boundaryWorld).1 = true ∧
    (checkRateLimit calmEnv 200 "k" 3 100 boundaryWorld).2.store.get "k" = some (.log [200]) := by
  decide

/-- C7 (amended). When the read of the log succeeds, `checkRateLimit` denies admission
exactly when the number of stored timestamps strictly after `now - windowMs` is at least
`limit`; a stored timestamp at or before `now - windowMs` is not counted.  When it admits and
the write succeeds, the stored timestamps at or before `now - windowMs` are gone from the log
and all the others are still in it. -/
theorem checkRateLimit_denies_iff (env : Env) (now : Int) (key : String) (limit windowMs : Int)
    (w : World) (requests : List Int)
    (hread : env.kvFails w.kvOps = false)
    (hreq : requestsOf (w.store.get key) = some requests) :
    ((checkRateLimit env now key limit windowMs w).1 = false ↔
      limit ≤ (requests.countP (fun ts => decide (now - windowMs < ts)) : Int)) ∧
    (env.kvFails (w.kvOps + 1) = false →
      (checkRateLimit env now key limit windowMs w).1 = true →
      ∃ log, (checkRateLimit env now key limit windowMs w).2.store.get key = some (.log log) ∧
        (∀ ts ∈ requests, now - windowMs < ts → ts ∈ log) ∧
        (∀ ts ∈ log, ts ≠ now → ts ∈ requests ∧ now - windowMs < ts)) := by
  have hcount : ((recentOf now windowMs requests).length : Int) =
      (requests.countP (fun ts => decide (now - windowMs < ts)) : Int) := by
    simp [recentOf, List.countP_eq_length_filter]
  rw [← hcount]
  by_cases hl : limit ≤ ((recentOf now windowMs requests).length : Int)
  · have hl2 := hl
    unfold recentOf at hl2
    simp [checkRateLimit, kvGet, kvOp, hread, hreq, hl, hl2]
  · have hl2 := hl
    unfold recentOf at hl2
    constructor
    · by_cases h1 : env.kvFails (w.kvOps + 1) = true
      · simp [checkRateLimit, kvGet, kvSet, kvOp, hread, hreq, hl, hl2, h1]
      · by_cases h2 : env.kvFails (w.kvOps + 2) = true
        · simp [checkRateLimit, kvGet, kvSet, kvExpire, kvOp, hread, hreq, hl, hl2, h1, h2]
        · simp [checkRateLimit, kvGet, kvSet, kvExpire, kvOp, hread, hreq, hl, hl2, h1, h2]
    · intro hset _
      refine ⟨recentOf now windowMs requests ++ [now], ?_, ?_, ?_⟩
      · by_cases h2 : env.kvFails (w.kvOps + 2) = true
        · simp [checkRateLimit, kvGet, kvSet, kvExpire, kvOp, hread, hreq, hl2, hset, h2,
            Store.get_set_self, recentOf]
        · simp [checkRateLimit, kvGet, kvSet, kvExpire, kvOp, hread, hreq, hl2, hset, h2,
            Store.get_set_self, Store.get_expire, recentOf]
      · intro ts hts hgt
        simp [recentOf, hts, hgt]
      · intro ts hts hne
        simp only [recentOf, List.mem_append, List.mem_filter, List.mem_singleton,
          decide_eq_true_eq] at hts
        rcases hts with h | h
        · exact ⟨h.1, h.2⟩
        · exact absurd h hne

/-- The witness of C7: with the log `[100, 150, 200]`, at `now = 200` and a window of 100, the
entries 150 and 200 are counted and the limit 2 is reached. -/
theorem checkRateLimit_denies_iff_witness :
    (checkRateLimit calmEnv 200 "k" 2 100 (worldOf [⟨"k", .log [100, 150, 200], none⟩])).1 = false ↔
      (2 : Int) ≤ ([100, 150, 200].countP (fun ts => decide ((200 : Int) - 100 < ts)) : Int) :=
  (checkRateLimit_denies_iff calmEnv 200 "k" 2 100 (worldOf [⟨"k", .log [100, 150, 200], none⟩])
    [100, 150, 200] rfl rfl).1

/-- C8. When `checkRateLimit` returns true and none of its three store operations fails, the
log stored under the key is the retained entries of the previous log (those after
`now - windowMs`), in their order, followed by `now` alone, and the expiry of the key is
`windowMs / 1000` seconds rounded up. -/
theorem checkRateLimit_appends_now (env : Env) (now : Int) (key : String)
    (limit windowMs : Int) (w : World) (requests : List Int)
    (h0 : env.kvFails w.kvOps = false) (h1 : env.kvFails (w.kvOps + 1) = false)
    (h2 : env.kvFails (w.kvOps + 2) = false)
    (hreq : requestsOf (w.store.get key) = some requests)
    (hgranted : (checkRateLimit env now key limit windowMs w).1 = true) :
    (checkRateLimit env now key limit windowMs w).2.store.get key =
      some (.log (requests.filter (fun ts => decide (ts > now - windowMs)) ++ [now])) ∧
    (requests.filter (fun ts => decide (ts > now - windowMs)) ++ [now]).length =
      (requests.filter (fun ts => decide (ts > now - windowMs))).length + 1 ∧
    (checkRateLimit env now key limit windowMs w).2.store.ttlOf key =
      some ⌈(windowMs : ℚ) / 1000⌉ := by
  have hok := checkRateLimit_store_ok env now key limit windowMs w requests h0 h1 h2 hreq
  have hl : ¬ limit ≤ ((recentOf now windowMs requests).length : Int) := by
    intro hl
    rw [hok, if_pos hl] at hgranted
    exact absurd hgranted (by simp)
  rw [hok, if_neg hl]
  refine ⟨?_, ?_, ?_⟩
  · simp only [Store.get_expire, Store.get_set_self, recentOf]
  · simp
  · simp only [Store.ttlOf_expire_set, ceilSeconds_eq_ceil]

/-- The witness of C8: the second admitted request of a caller, one second after the first. -/
theorem checkRateLimit_appends_now_witness :
    (checkRateLimit calmEnv 2000 "k" 3 300000
        (worldOf [⟨"k", .log [1000], some 300⟩])).2.store.get "k" =
      some (.log ([1000].filter (fun ts => decide (ts > 2000 - 300000)) ++ [2000])) :=
  (checkRateLimit_appends_now calmEnv 2000 "k" 3 300000 (worldOf [⟨"k", .log [1000], some 300⟩])
    [1000] rfl rfl rfl rfl (by decide)).1

/-- C9. If a store operation issued during `checkRateLimit` (the read, the write or the
expiry) throws, the call returns true.  The embedded function has no error result: every
throwing path ends in the `catch` block. -/
theorem checkRateLimit_fails_open (env : Env) (now : Int) (key : String)
    (limit windowMs : Int) (w : World)
    (hfail : ∃ n, w.kvOps ≤ n ∧ n < (checkRateLimit env now key limit windowMs w).2.kvOps ∧
      env.kvFails n = true) :
    (checkRateLimit env now key limit windowMs w).1 = true := by
  obtain ⟨n, hlo, hhi, hn⟩ := hfail
  by_cases h0 : env.kvFails w.kvOps = true
  · simp [checkRateLimit, kvGet, kvOp, h0]
  · cases hreq : requestsOf (w.store.get key) with
    | none => simp [checkRateLimit, kvGet, kvOp, h0, hreq]
    | some requests =>
      by_cases hl : limit ≤ ((requests.filter (fun ts => decide (ts > now - windowMs))).length : Int)
      · have hops : (checkRateLimit env now key limit windowMs w).2.kvOps = w.kvOps + 1 := by
          simp [checkRateLimit, kvGet, kvOp, h0, hreq, hl]
        have hn2 : n = w.kvOps := by omega
        rw [hn2] at hn
        exact absurd hn h0
      · by_cases h1 : env.kvFails (w.kvOps + 1) = true
        · simp [checkRateLimit, kvGet, kvSet, kvOp, h0, hreq, hl, h1]
        · by_cases h2 : env.kvFails (w.kvOps + 2) = true
          · simp [checkRateLimit, kvGet, kvSet, kvExpire, kvOp, h0, hreq, hl, h1, h2]
          · simp [checkRateLimit, kvGet, kvSet, kvExpire, kvOp, h0, hreq, hl, h1, h2]

/-- The witness of C9: the write of the log fails and the call is admitted. -/
theorem checkRateLimit_fails_open_witness :
    (checkRateLimit writeFailsEnv 2000 "k" 3 300000 emptyWorld).1 = true :=
  checkRateLimit_fails_open writeFailsEnv 2000 "k" 3 300000 emptyWorld
    ⟨1, by decide, by decide, by decide⟩

/-! ## Dispatch without recipients -/

theorem Store.get_mem (s : Store) (key : String) (v : KVal) (h : s.get key = some v) :
    ∃ e ∈ s, e.val = v := by
  unfold Store.get at h
  cases hf : s.find? (fun e => e.key == key) with
  | none => rw [hf] at h; simp at h
  | some e =>
    rw [hf] at h
    simp only [Option.map_some', Option.some.injEq] at h
    exact ⟨e, List.mem_of_find?_eq_some hf, h⟩

theorem NoActiveSubscriber.set_log (s : Store) (key : String) (ts : List Int)
    (h : NoActiveSubscriber s) : NoActiveSubscriber (s.set key (.log ts)) := by
  induction s with
  | nil =>
    intro e he u hu
    simp only [Store.set, List.mem_singleton] at he
    subst he
    simp at hu
  | cons e rest ih =>
    have hrest : NoActiveSubscriber rest := fun x hx => h x (List.mem_cons_of_mem _ hx)
    intro x hx u hu
    unfold Store.set at hx
    split at hx
    · rcases List.mem_cons.mp hx with hx | hx
      · subst hx; simp at hu
      · exact hrest x hx u hu
    · rcases List.mem_cons.mp hx with hx | hx
      · subst hx; exact h _ (List.mem_cons_self _ _) u hu
      · exact ih hrest x hx u hu

theorem NoActiveSubscriber.expire (s : Store) (key : String) (secs : Int)
    (h : NoActiveSubscriber s) : NoActiveSubscriber (s.expire key secs) := by
  induction s with
  | nil => simpa [Store.expire] using h
  | cons e rest ih =>
    have hrest : NoActiveSubscriber rest := fun x hx => h x (List.mem_cons_of_mem _ hx)
    intro x hx u hu
    unfold Store.expire at hx
    split at hx
    · rcases List.mem_cons.mp hx with hx | hx
      · subst hx; exact h e (List.mem_cons_self _ _) u hu
      · exact hrest x hx u hu
    · rcases List.mem_cons.mp hx with hx | hx
      · subst hx; exact h _ (List.mem_cons_self _ _) u hu
      · exact ih hrest x hx u hu

/-- A read leaves the store and the provider trace as they were and returns, unless it
throws, the stored value. -/
theorem kvGet_spec (env : Env) (key : String) (w : World) :
    (kvGet env key w).2.store = w.store ∧ (kvGet env key w).2.sends = w.sends ∧
    ((kvGet env key w).1 = none ∨ (kvGet env key w).1 = some (w.store.get key)) := by
  unfold kvGet kvOp
  split <;> simp

theorem getAllSubscribersLoop_no_active (env : Env) (keys : List String) :
    ∀ (subscribers : List User) (w : World), NoActiveSubscriber w.store →
      ((getAllSubscribersLoop env keys subscribers w).1 = none ∨
        (getAllSubscribersLoop env keys subscribers w).1 = some subscribers) ∧
      (getAllSubscribersLoop env keys subscribers w).2.sends = w.sends := by
  induction keys with
  | nil => intro subscribers w _; simp [getAllSubscribersLoop]
  | cons key rest ih =>
    intro subscribers w hno
    obtain ⟨hs1, hd1, hv1⟩ := kvGet_spec env key w
    unfold getAllSubscribersLoop
    rcases h1 : kvGet env key w with ⟨r1, w1⟩
    rw [h1] at hs1 hd1 hv1
    simp only at hs1 hd1 hv1
    have hno1 : NoActiveSubscriber w1.store := by rw [hs1]; exact hno
    cases r1 with
    | none => simp [hd1]
    | some userId =>
      cases userId with
      | none =>
        simp only
        rw [← hd1]
        exact ih subscribers w1 hno1
      | some uid =>
        simp only
        split
        · obtain ⟨hs2, hd2, hv2⟩ := kvGet_spec env ("user:" ++ uid.template) w1
          rcases h2 : kvGet env ("user:" ++ uid.template) w1 with ⟨r2, w2⟩
          rw [h2] at hs2 hd2 hv2
          simp only at hs2 hd2 hv2
          have hno2 : NoActiveSubscriber w2.store := by rw [hs2]; exact hno1
          have hd12 : w2.sends = w.sends := by rw [hd2, hd1]
          split
          · next heq =>
            simp only [Prod.mk.injEq] at heq
            simp [← heq.2, hd12]
          · next user w2' heq =>
            simp only [Prod.mk.injEq] at heq
            obtain ⟨hr, hw⟩ := heq
            subst hw
            have hget : w1.store.get ("user:" ++ uid.template) = some (.user user) := by
              rcases hv2 with hv2 | hv2
              · rw [hr] at hv2; simp at hv2
              · rw [hr] at hv2; simpa using hv2.symm
            obtain ⟨e, he, hev⟩ := Store.get_mem _ _ _ hget
            have hina : user.status ≠ "active" := hno1 e he user hev
            have hb : (user.status == "active") = false := by simpa using hina
            simp only [hb, Bool.false_eq_true, if_false]
            rw [← hd12]
            exact ih subscribers w2 hno2
          · next heq =>
            rename_i w2' _
            simp only [Prod.mk.injEq] at heq
            obtain ⟨_, hw⟩ := heq
            subst hw
            rw [← hd12]
            exact ih subscribers w2 hno2
        · rw [← hd1]
          exact ih subscribers w1 hno1

theorem getAllSubscribers_no_active (env : Env) (w : World) (hno : NoActiveSubscriber w.store) :
    (getAllSubscribers env w).1 = [] ∧ (getAllSubscribers env w).2.sends = w.sends := by
  unfold getAllSubscribers
  have hk : (kvKeys env "subscriber:" w).2.store = w.store ∧
      (kvKeys env "subscriber:" w).2.sends = w.sends := by
    unfold kvKeys kvOp
    split <;> simp
  rcases h1 : kvKeys env "subscriber:" w with ⟨r1, w1⟩
  rw [h1] at hk
  simp only at hk
  cases r1 with
  | none => simp [hk.2]
  | some subscriberKeys =>
    simp only
    split
    · simp [hk.2]
    · have hno1 : NoActiveSubscriber w1.store := by rw [hk.1]; exact hno
      obtain ⟨hres, hsends⟩ := getAllSubscribersLoop_no_active env subscriberKeys [] w1 hno1
      rcases h2 : getAllSubscribersLoop env subscriberKeys [] w1 with ⟨r2, w2⟩
      rw [h2] at hres hsends
      simp only at hres hsends
      cases r2 with
      | none => simp [hsends, hk.2]
      | some subs =>
        rcases hres with hres | hres
        · simp at hres
        · simp only [Option.some.injEq] at hres
          simp [hres, hsends, hk.2]

/-- The rate limiter never touches the provider trace, and it adds no subscriber record. -/
theorem checkRateLimit_frame (env : Env) (now : Int) (key : String) (limit windowMs : Int)
    (w : World) (hno : NoActiveSubscriber w.store) :
    (checkRateLimit env now key limit windowMs w).2.sends = w.sends ∧
    NoActiveSubscriber (checkRateLimit env now key limit windowMs w).2.store := by
  by_cases h0 : env.kvFails w.kvOps = true
  · simpa [checkRateLimit, kvGet, kvOp, h0] using hno
  · cases hreq : requestsOf (w.store.get key) with
    | none => simpa [checkRateLimit, kvGet, kvOp, h0, hreq] using hno
    | some requests =>
      by_cases hl : limit ≤ ((requests.filter (fun ts => decide (ts > now - windowMs))).length : Int)
      · simpa [checkRateLimit, kvGet, kvOp, h0, hreq, hl] using hno
      · by_cases h1 : env.kvFails (w.kvOps + 1) = true
        · simpa [checkRateLimit, kvGet, kvSet, kvOp, h0, hreq, hl, h1] using hno
        · by_cases h2 : env.kvFails (w.kvOps + 2) = true
          · simpa [checkRateLimit, kvGet, kvSet, kvExpire, kvOp, h0, hreq, hl, h1, h2] using
              NoActiveSubscriber.set_log _ _ _ hno
          · simpa [checkRateLimit, kvGet, kvSet, kvExpire, kvOp, h0, hreq, hl, h1, h2] using
              NoActiveSubscriber.expire _ _ _ (NoActiveSubscriber.set_log _ _ _ hno)

/-- C10. A `POST` with a non-empty message and no `specificPhone`, with the provider
configuration present and admission granted, is answered 400 `NO_RECIPIENTS` when no record of
the store is an active subscriber, and the provider is not invoked: the trace of provider
requests is the one before the call.  This holds whatever the store operations do, fail or
not. -/
theorem handler_no_recipients (env : Env) (req : SmsRequest) (w : World) (body : SmsBody)
    (message sid token fromNumber : String)
    (hmethod : req.method = "POST")
    (hsid : env.twilioAccountSid = some sid) (hsid2 : sid ≠ "")
    (htoken : env.twilioAuthToken = some token) (htoken2 : token ≠ "")
    (hfrom : env.twilioPhoneNumber = some fromNumber) (hfrom2 : fromNumber ≠ "")
    (hbody : req.body = some body)
    (hmessage : body.message = some message) (hmessage2 : message ≠ "")
    (hspecific : truthyStr body.specificPhone = false)
    (hgranted : (admission env req w).1 = true)
    (hnone : ∀ e ∈ w.store, ∀ u : User, e.val = .user u → u.status ≠ "active") :
    (SendSms.handler env req w).1 =
      .failure 400 "NO_RECIPIENTS" "No subscribers found to send SMS to" ∧
    (SendSms.handler env req w).2.sends = w.sends := by
  have hadm : (admission env req w).2.sends = w.sends ∧
      NoActiveSubscriber (admission env req w).2.store := by
    unfold admission dateNow
    exact checkRateLimit_frame env _ _ _ _ _ hnone
  unfold SendSms.handler
  have hm1 : (req.method == "OPTIONS") = false := by rw [hmethod]; decide
  have hm2 : (req.method != "POST") = false := by rw [hmethod]; decide
  have hcfg : (sid == "" || token == "" || fromNumber == "") = false := by
    simp [hsid2, htoken2, hfrom2]
  have hmsg : (message == "") = false := by simpa using hmessage2
  simp only [hm1, hm2, hsid, htoken, hfrom, hcfg, hbody, hmessage, hmsg, Bool.false_eq_true,
    if_false]
  rcases hA : admission env req w with ⟨ok, w2⟩
  rw [hA] at hgranted hadm
  simp only at hgranted hadm
  subst hgranted
  simp only [Bool.not_true, Bool.false_eq_true, if_false]
  obtain ⟨hsubs, hsends⟩ := getAllSubscribers_no_active env w2 hadm.2
  unfold dispatch resolveRecipients
  simp only [hspecific, Bool.false_eq_true, if_false]
  rcases hG : getAllSubscribers env w2 with ⟨subs, w3⟩
  rw [hG] at hsubs hsends
  simp only at hsubs hsends
  subst hsubs
  simp [hsends, hadm.1]

/-- The witness of C10: a dispatch to all subscribers over a store whose only subscriber is
inactive. -/
theorem handler_no_recipients_witness :
    (SendSms.handler calmEnv ⟨"POST", some "1.2.3.4", none, some ⟨some "Hi!", false, none⟩⟩
        (worldOf inactiveStore)).1 =
      .failure 400 "NO_RECIPIENTS" "No subscribers found to send SMS to" ∧
    (SendSms.handler calmEnv ⟨"POST", some "1.2.3.4", none, some ⟨some "Hi!", false, none⟩⟩
        (worldOf inactiveStore)).2.sends = (worldOf inactiveStore).sends :=
  handler_no_recipients calmEnv ⟨"POST", some "1.2.3.4", none, some ⟨some "Hi!", false, none⟩⟩
    (worldOf inactiveStore) ⟨some "Hi!", false, none⟩ "Hi!" "AC0" "secret" "+15550000000"
    rfl rfl (by decide) rfl (by decide) rfl (by decide) rfl rfl (by decide) rfl (by decide)
    (by
      intro e he u hu
      simp only [worldOf, inactiveStore, List.mem_cons, List.mem_singleton, List.not_mem_nil,
        or_false] at he
      rcases he with he | he
      · subst he
        simp only [KVal.user.injEq] at hu
        subst hu
        decide
      · subst he
        simp at hu)
/-! ## The sender -/

theorem sendSingleSMS_valid (env : Env) (phone message fromNumber : String) (w : World)
    (hv : ValidPhone phone) :
    sendSingleSMS env phone message fromNumber w =
      (attemptResult phone (env.provider w.sends.length (sendRequest phone message fromNumber)),
       { w with sends := w.sends ++ [sendRequest phone message fromNumber] }) := by
  have hin : ¬ ((stripNonDigits phone).length < 10 ∨ (stripNonDigits phone).length > 15) := by
    unfold ValidPhone digitCount at hv; omega
  unfold sendSingleSMS
  simp only [hin, if_false]
  show (match env.provider w.sends.length (sendRequest phone message fromNumber) with
    | .ok sid status => _
    | .err msg code => _) = _
  cases env.provider w.sends.length (sendRequest phone message fromNumber) <;> rfl

theorem sendSingleSMS_invalid (env : Env) (phone message fromNumber : String) (w : World)
    (hv : ¬ ValidPhone phone) :
    sendSingleSMS env phone message fromNumber w =
      ({ success := false, phone := phone, messageId := none, status := none,
         error := some ("Invalid phone number length: " ++ toString (digitCount phone) ++
           " digits"),
         errorCode := none }, w) := by
  have hout : (stripNonDigits phone).length < 10 ∨ (stripNonDigits phone).length > 15 := by
    unfold ValidPhone digitCount at hv; omega
  simp [sendSingleSMS, hout, digitCount]

/-- One step of the retry loop, with the call of `sendSingleSMS` named. -/
theorem sendSMSWithRetryLoop_succ (env : Env) (phone message fromNumber : String)
    (maxRetries : Int) (fuel attempt : Nat) (w : World) :
    sendSMSWithRetryLoop env phone message fromNumber maxRetries (fuel + 1) attempt w =
      if (attempt : Int) ≤ maxRetries then
        if (sendSingleSMS env phone message fromNumber w).1.success then
          (some (sendSingleSMS env phone message fromNumber w).1,
           (sendSingleSMS env phone message fromNumber w).2)
        else if isNoRetryCode (sendSingleSMS env phone message fromNumber w).1.errorCode then
          (none, (sendSingleSMS env phone message fromNumber w).2)
        else
          sendSMSWithRetryLoop env phone message fromNumber maxRetries fuel (attempt + 1)
            (if (attempt : Int) < maxRetries then
              sleep (2 ^ attempt * 1000) (sendSingleSMS env phone message fromNumber w).2
             else (sendSingleSMS env phone message fromNumber w).2)
      else (none, w) := by
  rw [sendSMSWithRetryLoop]

/-- The only effect of `sendSingleSMS` on the world is at most one request to the provider. -/
theorem sendSingleSMS_world (env : Env) (phone message fromNumber : String) (w : World) :
    ∃ k, k ≤ 1 ∧ (sendSingleSMS env phone message fromNumber w).2 =
      { w with sends := w.sends ++ List.replicate k (sendRequest phone message fromNumber) } := by
  by_cases hv : ValidPhone phone
  · exact ⟨1, le_refl _, by rw [sendSingleSMS_valid env phone message fromNumber w hv]; rfl⟩
  · exact ⟨0, by omega, by rw [sendSingleSMS_invalid env phone message fromNumber w hv]; simp⟩

/-- The only effects of the retry loop on the world are requests to the provider, all equal,
and pauses. -/
theorem sendSMSWithRetryLoop_world (env : Env) (phone message fromNumber : String)
    (maxRetries : Int) :
    ∀ (fuel attempt : Nat) (w : World),
      ∃ k, k ≤ fuel ∧
        (sendSMSWithRetryLoop env phone message fromNumber maxRetries fuel attempt w).2.sends =
          w.sends ++ List.replicate k (sendRequest phone message fromNumber) ∧
        (sendSMSWithRetryLoop env phone message fromNumber maxRetries fuel attempt w).2.store =
          w.store ∧
        (sendSMSWithRetryLoop env phone message fromNumber maxRetries fuel attempt w).2.kvOps =
          w.kvOps ∧
        (sendSMSWithRetryLoop env phone message fromNumber maxRetries fuel attempt
          w).2.clockReads = w.clockReads ∧
        (sendSMSWithRetryLoop env phone message fromNumber maxRetries fuel attempt
          w).2.randReads = w.randReads := by
  intro fuel
  induction fuel with
  | zero => intro attempt w; exact ⟨0, le_refl _, by simp [sendSMSWithRetryLoop]⟩
  | succ fuel ih =>
    intro attempt w
    rw [sendSMSWithRetryLoop_succ]
    obtain ⟨k1, hk1, hw1⟩ := sendSingleSMS_world env phone message fromNumber w
    by_cases ha : (attempt : Int) ≤ maxRetries
    · simp only [ha, if_true]
      by_cases hs : (sendSingleSMS env phone message fromNumber w).1.success = true
      · simp only [hs, if_true]
        exact ⟨k1, by omega, by simp [hw1]⟩
      · simp only [hs, if_false]
        by_cases hc : isNoRetryCode (sendSingleSMS env phone message fromNumber w).1.errorCode
            = true
        · simp only [hc, if_true]
          exact ⟨k1, by omega, by simp [hw1]⟩
        · simp only [hc, if_false]
          obtain ⟨k2, hk2, h2⟩ := ih (attempt + 1)
            (if (attempt : Int) < maxRetries then
              sleep (2 ^ attempt * 1000) (sendSingleSMS env phone message fromNumber w).2
             else (sendSingleSMS env phone message fromNumber w).2)
          obtain ⟨h2a, h2b, h2c, h2d, h2e⟩ := h2
          refine ⟨k1 + k2, by omega, h2a.trans ?_, h2b.trans ?_, h2c.trans ?_, h2d.trans ?_,
            h2e.trans ?_⟩ <;>
          · rw [hw1]
            split_ifs <;> simp only [sleep, List.replicate_add, List.append_assoc]
    · simp only [ha, if_false]
      exact ⟨0, by omega, by simp⟩

/-- The only effects of `sendSMSWithRetry` on the world are requests to the provider, all
equal, and pauses. -/
theorem sendSMSWithRetry_world (env : Env) (phone message fromNumber : String)
    (maxRetries : Int) (w : World) :
    ∃ k, k ≤ maxRetries.toNat ∧
      (sendSMSWithRetry env phone message fromNumber maxRetries w).2.sends =
        w.sends ++ List.replicate k (sendRequest phone message fromNumber) ∧
      (sendSMSWithRetry env phone message fromNumber maxRetries w).2.store = w.store ∧
      (sendSMSWithRetry env phone message fromNumber maxRetries w).2.kvOps = w.kvOps ∧
      (sendSMSWithRetry env phone message fromNumber maxRetries w).2.clockReads =
        w.clockReads ∧
      (sendSMSWithRetry env phone message fromNumber maxRetries w).2.randReads =
        w.randReads := by
  obtain ⟨k, hk, h⟩ :=
    sendSMSWithRetryLoop_world env phone message fromNumber maxRetries maxRetries.toNat 1 w
  refine ⟨k, hk, ?_⟩
  unfold sendSMSWithRetry
  rcases hL : sendSMSWithRetryLoop env phone message fromNumber maxRetries maxRetries.toNat 1 w
    with ⟨r, w1⟩
  rw [hL] at h
  cases r <;> exact h

/-- The result of the retry loop, written without the world. -/
theorem sendSMSWithRetry_result (env : Env) (phone message fromNumber : String)
    (maxRetries : Int) (w : World) :
    (sendSMSWithRetry env phone message fromNumber maxRetries w).1 =
      match (sendSMSWithRetryLoop env phone message fromNumber maxRetries maxRetries.toNat 1
        w).1 with
      | some result => result
      | none => failedAfterRetries phone := by
  unfold sendSMSWithRetry
  rcases hL : sendSMSWithRetryLoop env phone message fromNumber maxRetries maxRetries.toNat 1 w
    with ⟨r, w1⟩
  cases r <;> rfl

theorem attemptResult_transient (phone : String) (reply : ProviderReply)
    (h : TransientReply reply) :
    (attemptResult phone reply).success = false ∧
    isNoRetryCode (attemptResult phone reply).errorCode = false := by
  obtain ⟨msg, code, hr, hc⟩ := h
  subst hr
  exact ⟨rfl, hc⟩

/-- If the first `k` attempts are rejected with transient codes and the next one is accepted,
the loop makes `k + 1` requests and returns the success. -/
theorem sendSMSWithRetryLoop_success_after (env : Env) (phone message fromNumber : String)
    (maxRetries : Int) (hv : ValidPhone phone) (sid status : String) :
    ∀ (k fuel attempt : Nat) (w : World), k < fuel → (attempt : Int) + k ≤ maxRetries →
      (∀ j, j < k → TransientReply
        (env.provider (w.sends.length + j) (sendRequest phone message fromNumber))) →
      env.provider (w.sends.length + k) (sendRequest phone message fromNumber) = .ok sid status →
      (sendSMSWithRetryLoop env phone message fromNumber maxRetries fuel attempt w).1 =
        some (attemptResult phone (.ok sid status)) ∧
      (sendSMSWithRetryLoop env phone message fromNumber maxRetries fuel attempt w).2.sends =
        w.sends ++ List.replicate (k + 1) (sendRequest phone message fromNumber) := by
  intro k
  induction k with
  | zero =>
    intro fuel attempt w hf ha _ hok
    obtain ⟨f, rfl⟩ : ∃ f, fuel = f + 1 := ⟨fuel - 1, by omega⟩
    have ha2 : (attempt : Int) ≤ maxRetries := by omega
    rw [sendSMSWithRetryLoop_succ, sendSingleSMS_valid env phone message fromNumber w hv]
    simp only [Nat.add_zero] at hok
    simp [ha2, hok, attemptResult]
  | succ k ih =>
    intro fuel attempt w hf ha hfail hok
    obtain ⟨f, rfl⟩ : ∃ f, fuel = f + 1 := ⟨fuel - 1, by omega⟩
    have ha2 : (attempt : Int) ≤ maxRetries := by omega
    have h0 := attemptResult_transient phone _ (hfail 0 (by omega))
    simp only [Nat.add_zero] at h0
    rw [sendSMSWithRetryLoop_succ, sendSingleSMS_valid env phone message fromNumber w hv]
    simp only [ha2, if_true, h0.1, h0.2, Bool.false_eq_true, if_false]
    have hlen : ∀ (w2 : World), w2.sends = w.sends ++ [sendRequest phone message fromNumber] →
        (sendSMSWithRetryLoop env phone message fromNumber maxRetries f (attempt + 1) w2).1 =
          some (attemptResult phone (.ok sid status)) ∧
        (sendSMSWithRetryLoop env phone message fromNumber maxRetries f (attempt + 1) w2).2.sends =
          w.sends ++ List.replicate (k + 1 + 1) (sendRequest phone message fromNumber) := by
      intro w2 hw2
      have hl : w2.sends.length = w.sends.length + 1 := by simp [hw2]
      obtain ⟨r1, r2⟩ := ih f (attempt + 1) w2 (by omega) (by push_cast; omega)
        (fun j hj => by
          have := hfail (j + 1) (by omega)
          rw [hl]
          rwa [show w.sends.length + (j + 1) = w.sends.length + 1 + j by omega] at this)
        (by
          rw [hl]
          rwa [show w.sends.length + (k + 1) = w.sends.length + 1 + k by omega] at hok)
      refine ⟨r1, ?_⟩
      rw [r2, hw2, List.append_assoc]
      rfl
    split_ifs
    · exact hlen _ rfl
    · exact hlen _ rfl

/-- If every attempt is rejected with a transient code, the loop makes as many requests as
the maximum allows and ends without a result. -/
theorem sendSMSWithRetryLoop_all_transient (env : Env) (phone message fromNumber : String)
    (maxRetries : Int) (hv : ValidPhone phone) :
    ∀ (fuel attempt : Nat) (w : World), (attempt : Int) + fuel = maxRetries + 1 →
      (∀ j, j < fuel → TransientReply
        (env.provider (w.sends.length + j) (sendRequest phone message fromNumber))) →
      (sendSMSWithRetryLoop env phone message fromNumber maxRetries fuel attempt w).1 = none ∧
      (sendSMSWithRetryLoop env phone message fromNumber maxRetries fuel attempt w).2.sends =
        w.sends ++ List.replicate fuel (sendRequest phone message fromNumber) := by
  intro fuel
  induction fuel with
  | zero => intro attempt w _ _; simp [sendSMSWithRetryLoop]
  | succ f ih =>
    intro attempt w ha hfail
    have ha2 : (attempt : Int) ≤ maxRetries := by push_cast at ha; omega
    have h0 := attemptResult_transient phone _ (hfail 0 (by omega))
    simp only [Nat.add_zero] at h0
    rw [sendSMSWithRetryLoop_succ, sendSingleSMS_valid env phone message fromNumber w hv]
    simp only [ha2, if_true, h0.1, h0.2, Bool.false_eq_true, if_false]
    have hlen : ∀ (w2 : World), w2.sends = w.sends ++ [sendRequest phone message fromNumber] →
        (sendSMSWithRetryLoop env phone message fromNumber maxRetries f (attempt + 1) w2).1 =
          none ∧
        (sendSMSWithRetryLoop env phone message fromNumber maxRetries f (attempt + 1) w2).2.sends =
          w.sends ++ List.replicate (f + 1) (sendRequest phone message fromNumber) := by
      intro w2 hw2
      have hl : w2.sends.length = w.sends.length + 1 := by simp [hw2]
      obtain ⟨r1, r2⟩ := ih (attempt + 1) w2 (by push_cast at ha ⊢; omega)
        (fun j hj => by
          have := hfail (j + 1) (by omega)
          rw [hl]
          rwa [show w.sends.length + (j + 1) = w.sends.length + 1 + j by omega] at this)
      refine ⟨r1, ?_⟩
      rw [r2, hw2, List.append_assoc, List.replicate_succ]
      rfl
    split_ifs
    · exact hlen _ rfl
    · exact hlen _ rfl

/-- The result of the retry loop depends on the environment only through the replies to its
own requests: two runs in which the `j`-th request of the loop gets the same reply return the
same result and make the same number of requests, whatever was sent before. -/
theorem sendSMSWithRetryLoop_congr (env1 env2 : Env) (phone message fromNumber : String)
    (maxRetries : Int) :
    ∀ (fuel attempt : Nat) (w1 w2 : World),
      (∀ j, env1.provider (w1.sends.length + j) (sendRequest phone message fromNumber) =
        env2.provider (w2.sends.length + j) (sendRequest phone message fromNumber)) →
      (sendSMSWithRetryLoop env1 phone message fromNumber maxRetries fuel attempt w1).1 =
        (sendSMSWithRetryLoop env2 phone message fromNumber maxRetries fuel attempt w2).1 ∧
      ∃ k,
        (sendSMSWithRetryLoop env1 phone message fromNumber maxRetries fuel attempt w1).2.sends =
          w1.sends ++ List.replicate k (sendRequest phone message fromNumber) ∧
        (sendSMSWithRetryLoop env2 phone message fromNumber maxRetries fuel attempt w2).2.sends =
          w2.sends ++ List.replicate k (sendRequest phone message fromNumber) := by
  intro fuel
  induction fuel with
  | zero => intro attempt w1 w2 _; exact ⟨by simp [sendSMSWithRetryLoop], 0, by
      simp [sendSMSWithRetryLoop]⟩
  | succ f ih =>
    intro attempt w1 w2 hagree
    rw [sendSMSWithRetryLoop_succ, sendSMSWithRetryLoop_succ]
    by_cases ha : (attempt : Int) ≤ maxRetries
    · simp only [ha, if_true]
      by_cases hv : ValidPhone phone
      · rw [sendSingleSMS_valid env1 phone message fromNumber w1 hv,
          sendSingleSMS_valid env2 phone message fromNumber w2 hv]
        have h0 := hagree 0
        simp only [Nat.add_zero] at h0
        simp only [h0]
        have hrec : ∀ (v1 v2 : World),
            v1.sends = w1.sends ++ [sendRequest phone message fromNumber] →
            v2.sends = w2.sends ++ [sendRequest phone message fromNumber] →
            (sendSMSWithRetryLoop env1 phone message fromNumber maxRetries f (attempt + 1) v1).1 =
              (sendSMSWithRetryLoop env2 phone message fromNumber maxRetries f (attempt + 1)
                v2).1 ∧
            ∃ k,
              (sendSMSWithRetryLoop env1 phone message fromNumber maxRetries f (attempt + 1)
                v1).2.sends = w1.sends ++ List.replicate k (sendRequest phone message fromNumber) ∧
              (sendSMSWithRetryLoop env2 phone message fromNumber maxRetries f (attempt + 1)
                v2).2.sends =
                  w2.sends ++ List.replicate k (sendRequest phone message fromNumber) := by
          intro v1 v2 h1 h2
          obtain ⟨r, k, s1, s2⟩ := ih (attempt + 1) v1 v2 (by
            intro j
            have := hagree (j + 1)
            rw [h1, h2, List.length_append, List.length_append]
            simpa [Nat.add_assoc, Nat.add_comm 1 j] using this)
          refine ⟨r, k + 1, ?_, ?_⟩
          · rw [s1, h1, List.append_assoc]; rfl
          · rw [s2, h2, List.append_assoc]; rfl
        split_ifs
        · exact ⟨rfl, 1, rfl, rfl⟩
        · exact ⟨rfl, 1, rfl, rfl⟩
        · exact hrec _ _ rfl rfl
        · exact hrec _ _ rfl rfl
      · rw [sendSingleSMS_invalid env1 phone message fromNumber w1 hv,
          sendSingleSMS_invalid env2 phone message fromNumber w2 hv]
        simp only [Bool.false_eq_true, if_false, isNoRetryCode]
        split_ifs
        · exact ih _ _ _ hagree
        · exact ih _ _ _ hagree
    · rw [if_neg ha, if_neg ha]
      exact ⟨rfl, 0, by simp, by simp⟩

theorem sendSMSWithRetry_congr (env1 env2 : Env) (phone message fromNumber : String)
    (maxRetries : Int) (w1 w2 : World)
    (hagree : ∀ j, env1.provider (w1.sends.length + j) (sendRequest phone message fromNumber) =
      env2.provider (w2.sends.length + j) (sendRequest phone message fromNumber)) :
    (sendSMSWithRetry env1 phone message fromNumber maxRetries w1).1 =
      (sendSMSWithRetry env2 phone message fromNumber maxRetries w2).1 ∧
    ∃ k,
      (sendSMSWithRetry env1 phone message fromNumber maxRetries w1).2.sends =
        w1.sends ++ List.replicate k (sendRequest phone message fromNumber) ∧
      (sendSMSWithRetry env2 phone message fromNumber maxRetries w2).2.sends =
        w2.sends ++ List.replicate k (sendRequest phone message fromNumber) := by
  obtain ⟨r, k, s1, s2⟩ :=
    sendSMSWithRetryLoop_congr env1 env2 phone message fromNumber maxRetries maxRetries.toNat 1
      w1 w2 hagree
  refine ⟨by rw [sendSMSWithRetry_result, sendSMSWithRetry_result, r], k, ?_, ?_⟩
  · unfold sendSMSWithRetry
    rcases hL : sendSMSWithRetryLoop env1 phone message fromNumber maxRetries maxRetries.toNat 1
      w1 with ⟨x, v⟩
    rw [hL] at s1
    cases x <;> exact s1
  · unfold sendSMSWithRetry
    rcases hL : sendSMSWithRetryLoop env2 phone message fromNumber maxRetries maxRetries.toNat 1
      w2 with ⟨x, v⟩
    rw [hL] at s2
    cases x <;> exact s2

/-! ## The batch loop -/

theorem SameButSleeps.same (w : World) : SameButSleeps w w := ⟨rfl, rfl, rfl, rfl, rfl⟩

theorem SameButSleeps.chain {a b c : World} (h1 : SameButSleeps a b) (h2 : SameButSleeps b c) :
    SameButSleeps a c :=
  ⟨h1.1.trans h2.1, h1.2.1.trans h2.2.1, h1.2.2.1.trans h2.2.2.1,
   h1.2.2.2.1.trans h2.2.2.2.1, h1.2.2.2.2.trans h2.2.2.2.2⟩

theorem SameButSleeps.flip {a b : World} (h : SameButSleeps a b) : SameButSleeps b a :=
  ⟨h.1.symm, h.2.1.symm, h.2.2.1.symm, h.2.2.2.1.symm, h.2.2.2.2.symm⟩

theorem SameButSleeps.sleep (ms : Int) (w : World) : SameButSleeps (sleep ms w) w :=
  ⟨rfl, rfl, rfl, rfl, rfl⟩

/-- The result for one recipient does not depend on the pauses made so far. -/
theorem sendToRecipient_sameButSleeps (env : Env) (message fromNumber : String)
    (testMode : Bool) (recipient : Recipient) (w w2 : World) (h : SameButSleeps w w2) :
    (sendToRecipient env message fromNumber testMode recipient w).1 =
      (sendToRecipient env message fromNumber testMode recipient w2).1 ∧
    SameButSleeps (sendToRecipient env message fromNumber testMode recipient w).2
      (sendToRecipient env message fromNumber testMode recipient w2).2 := by
  obtain ⟨hs, hk, hd, hc, hr⟩ := h
  unfold sendToRecipient
  cases testMode with
  | true =>
    simp only [if_true, dateNow]
    refine ⟨by rw [hc, hr], hs, hk, hd, ?_, ?_⟩
    · show w.clockReads + 1 = w2.clockReads + 1
      rw [hc]
    · show w.randReads + 1 = w2.randReads + 1
      rw [hr]
  | false =>
    simp only [Bool.false_eq_true, if_false]
    obtain ⟨r, k, s1, s2⟩ := sendSMSWithRetry_congr env env recipient.phone
      (replaceName message (if recipient.name != "" then recipient.name else "Friend"))
      fromNumber defaultMaxRetries w w2 (by intro j; rw [hd])
    obtain ⟨_, _, _, a1, a2, a3, a4⟩ := sendSMSWithRetry_world env recipient.phone
      (replaceName message (if recipient.name != "" then recipient.name else "Friend"))
      fromNumber defaultMaxRetries w
    obtain ⟨_, _, _, b1, b2, b3, b4⟩ := sendSMSWithRetry_world env recipient.phone
      (replaceName message (if recipient.name != "" then recipient.name else "Friend"))
      fromNumber defaultMaxRetries w2
    exact ⟨r, by rw [a1, b1, hs], by rw [a2, b2, hk], by rw [s1, s2, hd], by rw [a3, b3, hc],
      by rw [a4, b4, hr]⟩

theorem sendBatch_sameButSleeps (env : Env) (message fromNumber : String) (testMode : Bool) :
    ∀ (recipients : List Recipient) (w w2 : World), SameButSleeps w w2 →
      (sendBatch env message fromNumber testMode recipients w).1 =
        (sendBatch env message fromNumber testMode recipients w2).1 ∧
      SameButSleeps (sendBatch env message fromNumber testMode recipients w).2
        (sendBatch env message fromNumber testMode recipients w2).2 := by
  intro recipients
  induction recipients with
  | nil => intro w w2 h; exact ⟨rfl, h⟩
  | cons r rest ih =>
    intro w w2 h
    obtain ⟨h1, h2⟩ := sendToRecipient_sameButSleeps env message fromNumber testMode r w w2 h
    obtain ⟨h3, h4⟩ := ih _ _ h2
    simp only [sendBatch]
    exact ⟨by rw [h1, h3], h4⟩

/-- Sending to a list in one pass is sending to its first part and then to the rest. -/
theorem sendBatch_append (env : Env) (message fromNumber : String) (testMode : Bool) :
    ∀ (xs ys : List Recipient) (w : World),
      sendBatch env message fromNumber testMode (xs ++ ys) w =
        ((sendBatch env message fromNumber testMode xs w).1 ++
          (sendBatch env message fromNumber testMode ys
            (sendBatch env message fromNumber testMode xs w).2).1,
         (sendBatch env message fromNumber testMode ys
            (sendBatch env message fromNumber testMode xs w).2).2) := by
  intro xs
  induction xs with
  | nil => intro ys w; simp [sendBatch]
  | cons x rest ih =>
    intro ys w
    show sendBatch env message fromNumber testMode (x :: (rest ++ ys)) w = _
    simp only [sendBatch]
    rw [ih]
    rfl

theorem sendBatch_length (env : Env) (message fromNumber : String) (testMode : Bool) :
    ∀ (recipients : List Recipient) (w : World),
      (sendBatch env message fromNumber testMode recipients w).1.length = recipients.length := by
  intro recipients
  induction recipients with
  | nil => intro w; rfl
  | cons r rest ih => intro w; simp [sendBatch, ih]

/-- One round of the batch loop, with the call of `sendBatch` named. -/
theorem batchLoop_succ (env : Env) (message fromNumber : String) (testMode : Bool)
    (recipients : List Recipient) (fuel i : Nat) (acc : Tally) (w : World) :
    batchLoop env message fromNumber testMode recipients (fuel + 1) i acc w =
      if i < recipients.length then
        batchLoop env message fromNumber testMode recipients fuel (i + batchSize)
          { results := acc.results ++
              (sendBatch env message fromNumber testMode ((recipients.drop i).take batchSize) w).1,
            successCount := acc.successCount +
              ((sendBatch env message fromNumber testMode
                ((recipients.drop i).take batchSize) w).1.filter (fun r => r.success)).length,
            failureCount := acc.failureCount +
              ((sendBatch env message fromNumber testMode
                ((recipients.drop i).take batchSize) w).1.filter (fun r => !r.success)).length }
          (if i + batchSize < recipients.length then
            sleep 1000
              (sendBatch env message fromNumber testMode ((recipients.drop i).take batchSize) w).2
           else
            (sendBatch env message fromNumber testMode ((recipients.drop i).take batchSize) w).2)
      else (acc, w) := by
  rw [batchLoop]

/-- The batch loop returns the results of one pass over the recipients from `i` on, in their
order, counts the successes and the failures among them, and leaves the world of that pass,
but for the pauses. -/
theorem batchLoop_sendBatch (env : Env) (message fromNumber : String) (testMode : Bool)
    (recipients : List Recipient) :
    ∀ (fuel i : Nat) (acc : Tally) (w w2 : World), SameButSleeps w w2 →
      recipients.length ≤ i + fuel →
      (batchLoop env message fromNumber testMode recipients fuel i acc w).1.results =
        acc.results ++ (sendBatch env message fromNumber testMode (recipients.drop i) w2).1 ∧
      (batchLoop env message fromNumber testMode recipients fuel i acc w).1.successCount =
        acc.successCount + ((sendBatch env message fromNumber testMode (recipients.drop i)
          w2).1.filter (fun r => r.success)).length ∧
      (batchLoop env message fromNumber testMode recipients fuel i acc w).1.failureCount =
        acc.failureCount + ((sendBatch env message fromNumber testMode (recipients.drop i)
          w2).1.filter (fun r => !r.success)).length ∧
      SameButSleeps (batchLoop env message fromNumber testMode recipients fuel i acc w).2
        (sendBatch env message fromNumber testMode (recipients.drop i) w2).2 := by
  intro fuel
  induction fuel with
  | zero =>
    intro i acc w w2 h hle
    have hd : recipients.drop i = [] := List.drop_eq_nil_of_le (by omega)
    rw [hd]
    simp [batchLoop, sendBatch, h]
  | succ fuel ih =>
    intro i acc w w2 h hle
    rw [batchLoop_succ]
    by_cases hi : i < recipients.length
    · rw [if_pos hi]
      have hsplit : recipients.drop i =
          (recipients.drop i).take batchSize ++ recipients.drop (i + batchSize) := by
        rw [← List.drop_drop, List.take_append_drop]
      obtain ⟨hb1, hb2⟩ := sendBatch_sameButSleeps env message fromNumber testMode
        ((recipients.drop i).take batchSize) w w2 h
      have hrel : SameButSleeps
          (if i + batchSize < recipients.length then
            sleep 1000
              (sendBatch env message fromNumber testMode ((recipients.drop i).take batchSize) w).2
           else
            (sendBatch env message fromNumber testMode ((recipients.drop i).take batchSize) w).2)
          (sendBatch env message fromNumber testMode ((recipients.drop i).take batchSize)
            w2).2 := by
        split_ifs
        · exact (SameButSleeps.sleep _ _).chain hb2
        · exact hb2
      obtain ⟨r1, r2, r3, r4⟩ := ih (i + batchSize) _ _ _ hrel (by
        have : batchSize = 5 := rfl
        omega)
      have happ := sendBatch_append env message fromNumber testMode
        ((recipients.drop i).take batchSize) (recipients.drop (i + batchSize)) w2
      rw [← hsplit] at happ
      refine ⟨?_, ?_, ?_, ?_⟩
      · rw [r1, happ, hb1]
        simp only [List.append_assoc]
      · rw [r2, happ, hb1]
        simp only [List.filter_append, List.length_append, Nat.add_assoc]
      · rw [r3, happ, hb1]
        simp only [List.filter_append, List.length_append, Nat.add_assoc]
      · rw [happ]
        exact r4
    · rw [if_neg hi]
      have hd : recipients.drop i = [] := List.drop_eq_nil_of_le (by omega)
      rw [hd]
      simp [sendBatch, h]

/-! ## The dispatch handler -/

theorem Store.get_set_ne (s : Store) (key key2 : String) (v : KVal) (h : key2 ≠ key) :
    (Store.set s key v).get key2 = s.get key2 := by
  induction s with
  | nil =>
    have h2 : ¬ key = key2 := fun e => h e.symm
    simp [Store.set, Store.get, List.find?_cons, h2]
  | cons e rest ih =>
    unfold Store.set
    by_cases hk : e.key = key
    · have h2 : ¬ key = key2 := fun e => h e.symm
      simp [hk, Store.get, List.find?_cons, h2]
    · simp only [beq_iff_eq, hk, if_false]
      by_cases hk2 : e.key = key2
      · simp [Store.get, List.find?_cons, hk2]
      · have := ih
        simp only [Store.get] at this ⊢
        simp [List.find?_cons, hk2, this]

/-- The rate limiter leaves every other key of the store as it was. -/
theorem checkRateLimit_get_other (env : Env) (now : Int) (key key2 : String)
    (limit windowMs : Int) (w : World) (h : key2 ≠ key) :
    (checkRateLimit env now key limit windowMs w).2.store.get key2 = w.store.get key2 := by
  by_cases h0 : env.kvFails w.kvOps = true
  · simp [checkRateLimit, kvGet, kvOp, h0]
  · cases hreq : requestsOf (w.store.get key) with
    | none => simp [checkRateLimit, kvGet, kvOp, h0, hreq]
    | some requests =>
      by_cases hl : limit ≤ ((requests.filter (fun ts => decide (ts > now - windowMs))).length : Int)
      · simp [checkRateLimit, kvGet, kvOp, h0, hreq, hl]
      · by_cases h1 : env.kvFails (w.kvOps + 1) = true
        · simp [checkRateLimit, kvGet, kvSet, kvOp, h0, hreq, hl, h1]
        · by_cases h2 : env.kvFails (w.kvOps + 2) = true
          · simp [checkRateLimit, kvGet, kvSet, kvExpire, kvOp, h0, hreq, hl, h1, h2,
              Store.get_set_ne _ _ _ _ h]
          · simp [checkRateLimit, kvGet, kvSet, kvExpire, kvOp, h0, hreq, hl, h1, h2,
              Store.get_set_ne _ _ _ _ h, Store.get_expire]

/-- A denial by the rate limiter costs one read of the store and changes nothing else. -/
theorem checkRateLimit_denied_world (env : Env) (now : Int) (key : String)
    (limit windowMs : Int) (w : World)
    (h : (checkRateLimit env now key limit windowMs w).1 = false) :
    (checkRateLimit env now key limit windowMs w).2 = { w with kvOps := w.kvOps + 1 } := by
  revert h
  by_cases h0 : env.kvFails w.kvOps = true
  · simp [checkRateLimit, kvGet, kvOp, h0]
  · cases hreq : requestsOf (w.store.get key) with
    | none => simp [checkRateLimit, kvGet, kvOp, h0, hreq]
    | some requests =>
      by_cases hl : limit ≤ ((requests.filter (fun ts => decide (ts > now - windowMs))).length : Int)
      · simp [checkRateLimit, kvGet, kvOp, h0, hreq, hl]
      · by_cases h1 : env.kvFails (w.kvOps + 1) = true
        · simp [checkRateLimit, kvGet, kvSet, kvOp, h0, hreq, hl, h1]
        · by_cases h2 : env.kvFails (w.kvOps + 2) = true
          · simp [checkRateLimit, kvGet, kvSet, kvExpire, kvOp, h0, hreq, hl, h1, h2]
          · simp [checkRateLimit, kvGet, kvSet, kvExpire, kvOp, h0, hreq, hl, h1, h2]

theorem checkRateLimit_sends (env : Env) (now : Int) (key : String)
    (limit windowMs : Int) (w : World) :
    (checkRateLimit env now key limit windowMs w).2.sends = w.sends := by
  by_cases h0 : env.kvFails w.kvOps = true
  · simp [checkRateLimit, kvGet, kvOp, h0]
  · cases hreq : requestsOf (w.store.get key) with
    | none => simp [checkRateLimit, kvGet, kvOp, h0, hreq]
    | some requests =>
      by_cases hl : limit ≤ ((requests.filter (fun ts => decide (ts > now - windowMs))).length : Int)
      · simp [checkRateLimit, kvGet, kvOp, h0, hreq, hl]
      · by_cases h1 : env.kvFails (w.kvOps + 1) = true
        · simp [checkRateLimit, kvGet, kvSet, kvOp, h0, hreq, hl, h1]
        · by_cases h2 : env.kvFails (w.kvOps + 2) = true
          · simp [checkRateLimit, kvGet, kvSet, kvExpire, kvOp, h0, hreq, hl, h1, h2]
          · simp [checkRateLimit, kvGet, kvSet, kvExpire, kvOp, h0, hreq, hl, h1, h2]

/-- A request that reaches the rate limiter and is admitted is answered by `dispatch`. -/
theorem handler_granted (env : Env) (req : SmsRequest) (w : World) (body : SmsBody)
    (message fromNumber : String) (hreq : ReachesLimiter env req body message fromNumber)
    (hgranted : (admission env req w).1 = true) :
    SendSms.handler env req w =
      dispatch env message fromNumber body.testMode body.specificPhone
        (admission env req w).2 := by
  obtain ⟨hmethod, ⟨sid, token, hsid, hsid2, htoken, htoken2⟩, hfrom, hfrom2, hbody, hmessage,
    hmessage2⟩ := hreq
  unfold SendSms.handler
  have hm1 : (req.method == "OPTIONS") = false := by rw [hmethod]; decide
  have hm2 : (req.method != "POST") = false := by rw [hmethod]; decide
  have hcfg : (sid == "" || token == "" || fromNumber == "") = false := by
    simp [hsid2, htoken2, hfrom2]
  have hmsg : (message == "") = false := by simpa using hmessage2
  simp only [hm1, hm2, hsid, htoken, hfrom, hcfg, hbody, hmessage, hmsg, Bool.false_eq_true,
    if_false]
  rcases hA : admission env req w with ⟨ok, w2⟩
  rw [hA] at hgranted
  simp only at hgranted
  subst hgranted
  simp

/-- A request that reaches the rate limiter and is denied is answered 429. -/
theorem handler_denied (env : Env) (req : SmsRequest) (w : World) (body : SmsBody)
    (message fromNumber : String) (hreq : ReachesLimiter env req body message fromNumber)
    (hdenied : (admission env req w).1 = false) :
    SendSms.handler env req w =
      (.failure 429 "RATE_LIMIT_EXCEEDED"
        "Too many SMS requests. Please wait before trying again.", (admission env req w).2) := by
  obtain ⟨hmethod, ⟨sid, token, hsid, hsid2, htoken, htoken2⟩, hfrom, hfrom2, hbody, hmessage,
    hmessage2⟩ := hreq
  unfold SendSms.handler
  have hm1 : (req.method == "OPTIONS") = false := by rw [hmethod]; decide
  have hm2 : (req.method != "POST") = false := by rw [hmethod]; decide
  have hcfg : (sid == "" || token == "" || fromNumber == "") = false := by
    simp [hsid2, htoken2, hfrom2]
  have hmsg : (message == "") = false := by simpa using hmessage2
  simp only [hm1, hm2, hsid, htoken, hfrom, hcfg, hbody, hmessage, hmsg, Bool.false_eq_true,
    if_false]
  rcases hA : admission env req w with ⟨ok, w2⟩
  rw [hA] at hdenied
  simp only at hdenied
  subst hdenied
  simp

/-- A key that begins with `user:` is not a key of the rate limiter. -/
theorem rateLimitKey_ne_user (req : SmsRequest) (key : String)
    (h : "user:".data.isPrefixOf key.data = true) : key ≠ rateLimitKey req := by
  intro he
  subst he
  simp [rateLimitKey, String.data_append] at h

/-- C11. A request that reaches the rate limiter and is denied is answered 429
`RATE_LIMIT_EXCEEDED`.  The denial costs one store operation, the read of the caller's own
log: no later operation reads the subscribers, the trace of provider requests is the one
before the call, and the contents of the store are unchanged. -/
theorem handler_rate_limited (env : Env) (req : SmsRequest) (w : World) (body : SmsBody)
    (message fromNumber : String) (hreq : ReachesLimiter env req body message fromNumber)
    (hdenied : (admission env req w).1 = false) :
    (SendSms.handler env req w).1 =
      .failure 429 "RATE_LIMIT_EXCEEDED"
        "Too many SMS requests. Please wait before trying again." ∧
    (SendSms.handler env req w).2.kvOps = w.kvOps + 1 ∧
    (SendSms.handler env req w).2.sends = w.sends ∧
    (SendSms.handler env req w).2.store = w.store := by
  rw [handler_denied env req w body message fromNumber hreq hdenied]
  have hw : (admission env req w).2 =
      { w with kvOps := w.kvOps + 1, clockReads := w.clockReads + 1 } := by
    unfold admission dateNow at hdenied ⊢
    rw [checkRateLimit_denied_world _ _ _ _ _ _ hdenied]
  rw [hw]
  exact ⟨rfl, rfl, rfl, rfl⟩

theorem OnlyReads.self (w : World) : OnlyReads w w := ⟨rfl, rfl, rfl, rfl, rfl⟩

theorem OnlyReads.next {a b c : World} (h1 : OnlyReads a b) (h2 : OnlyReads b c) :
    OnlyReads a c :=
  ⟨h2.1.trans h1.1, h2.2.1.trans h1.2.1, h2.2.2.1.trans h1.2.2.1,
   h2.2.2.2.1.trans h1.2.2.2.1, h2.2.2.2.2.trans h1.2.2.2.2⟩

theorem kvGet_onlyReads (env : Env) (key : String) (w : World) :
    OnlyReads w (kvGet env key w).2 := by
  unfold kvGet kvOp
  split <;> exact ⟨rfl, rfl, rfl, rfl, rfl⟩

theorem kvKeys_onlyReads (env : Env) (start : String) (w : World) :
    OnlyReads w (kvKeys env start w).2 := by
  unfold kvKeys kvOp
  split <;> exact ⟨rfl, rfl, rfl, rfl, rfl⟩

theorem getAllSubscribersLoop_onlyReads (env : Env) (keys : List String) :
    ∀ (subscribers : List User) (w : World),
      OnlyReads w (getAllSubscribersLoop env keys subscribers w).2 := by
  induction keys with
  | nil => intro subscribers w; exact OnlyReads.self w
  | cons key rest ih =>
    intro subscribers w
    have h1 := kvGet_onlyReads env key w
    unfold getAllSubscribersLoop
    rcases hg : kvGet env key w with ⟨r1, w1⟩
    rw [hg] at h1
    cases r1 with
    | none => exact h1
    | some userId =>
      cases userId with
      | none => exact h1.next (ih subscribers w1)
      | some uid =>
        simp only
        split
        · have h2 := kvGet_onlyReads env ("user:" ++ uid.template) w1
          rcases hg2 : kvGet env ("user:" ++ uid.template) w1 with ⟨r2, w2⟩
          rw [hg2] at h2
          split
          · next heq =>
            simp only [Prod.mk.injEq] at heq
            rw [← heq.2]
            exact h1.next h2
          · next user w2x heq =>
            simp only [Prod.mk.injEq] at heq
            rw [← heq.2]
            split
            · exact (h1.next h2).next (ih _ w2)
            · exact (h1.next h2).next (ih _ w2)
          · next heq =>
            rename_i w2x _
            simp only [Prod.mk.injEq] at heq
            rw [← heq.2]
            exact (h1.next h2).next (ih _ w2)
        · exact h1.next (ih subscribers w1)

theorem getAllSubscribers_onlyReads (env : Env) (w : World) :
    OnlyReads w (getAllSubscribers env w).2 := by
  unfold getAllSubscribers
  have h1 := kvKeys_onlyReads env "subscriber:" w
  rcases hk : kvKeys env "subscriber:" w with ⟨r1, w1⟩
  rw [hk] at h1
  cases r1 with
  | none => exact h1
  | some subscriberKeys =>
    simp only
    split
    · exact h1
    · have h2 := getAllSubscribersLoop_onlyReads env subscriberKeys [] w1
      rcases hl : getAllSubscribersLoop env subscriberKeys [] w1 with ⟨r2, w2⟩
      rw [hl] at h2
      cases r2 <;> exact h1.next h2

theorem resolveRecipients_onlyReads (env : Env) (specificPhone : Option String) (w : World) :
    OnlyReads w (resolveRecipients env specificPhone w).2 := by
  unfold resolveRecipients
  split
  · exact OnlyReads.self w
  · exact getAllSubscribers_onlyReads env w

/-- The answer of `dispatch` to a non-empty list of recipients: the 200 summary, with the
results of one pass over the recipients in their order. -/
theorem dispatch_response (env : Env) (message fromNumber : String) (testMode : Bool)
    (specificPhone : Option String) (w : World)
    (hne : (resolveRecipients env specificPhone w).1 ≠ []) :
    ∃ stamp, (dispatch env message fromNumber testMode specificPhone w).1 =
      .sent 200
        ("SMS sent successfully to " ++
          toString ((sendBatch env message fromNumber testMode
            (resolveRecipients env specificPhone w).1
            (resolveRecipients env specificPhone w).2).1.filter (fun r => r.success)).length ++
          " recipient(s)")
        { totalSent := ((sendBatch env message fromNumber testMode
            (resolveRecipients env specificPhone w).1
            (resolveRecipients env specificPhone w).2).1.filter (fun r => r.success)).length,
          totalFailed := ((sendBatch env message fromNumber testMode
            (resolveRecipients env specificPhone w).1
            (resolveRecipients env specificPhone w).2).1.filter (fun r => !r.success)).length,
          totalRecipients := (resolveRecipients env specificPhone w).1.length,
          testMode := testMode,
          results := (sendBatch env message fromNumber testMode
            (resolveRecipients env specificPhone w).1
            (resolveRecipients env specificPhone w).2).1.map reportResult,
          timestamp := stamp } := by
  unfold dispatch
  rcases hR : resolveRecipients env specificPhone w with ⟨recipients, w1⟩
  rw [hR] at hne
  simp only at hne ⊢
  have hlen : ¬ recipients.length = 0 := by
    intro h; exact hne (List.length_eq_zero.mp h)
  simp only [hlen, if_false]
  obtain ⟨r1, r2, r3, _⟩ := batchLoop_sendBatch env message fromNumber testMode recipients
    recipients.length 0 { results := [], successCount := 0, failureCount := 0 } w1 w1
    (SameButSleeps.same w1) (by omega)
  simp only [List.drop_zero, List.nil_append, Nat.zero_add] at r1 r2 r3
  simp only [isoNow, r1, r2, r3]
  exact ⟨_, rfl⟩

/-! ## Test mode -/

theorem sendBatch_test (env : Env) (message fromNumber : String) :
    ∀ (recipients : List Recipient) (w : World),
      (sendBatch env message fromNumber true recipients w).1.map reportResult =
        recipients.map testReport ∧
      ((sendBatch env message fromNumber true recipients w).1.filter
        (fun r => r.success)).length = recipients.length ∧
      ((sendBatch env message fromNumber true recipients w).1.filter
        (fun r => !r.success)).length = 0 ∧
      (sendBatch env message fromNumber true recipients w).2.store = w.store ∧
      (sendBatch env message fromNumber true recipients w).2.sends = w.sends := by
  intro recipients
  induction recipients with
  | nil => intro w; simp [sendBatch]
  | cons r rest ih =>
    intro w
    obtain ⟨h1, h2, h3, h4, h5⟩ := ih (sendToRecipient env message fromNumber true r w).2
    simp only [sendBatch, List.map_cons, h1]
    have hr : reportResult (sendToRecipient env message fromNumber true r w).1 = testReport r := by
      simp [sendToRecipient, dateNow, reportResult, testReport, truthyStr, templateStr]
    have hs : (sendToRecipient env message fromNumber true r w).1.success = true := by
      simp [sendToRecipient, dateNow]
    have hw : (sendToRecipient env message fromNumber true r w).2.store = w.store ∧
        (sendToRecipient env message fromNumber true r w).2.sends = w.sends := by
      simp [sendToRecipient, dateNow]
    refine ⟨by rw [hr], ?_, ?_, by rw [h4, hw.1], by rw [h5, hw.2]⟩
    · simp [List.filter_cons, hs, h2]
    · simp [List.filter_cons, hs, h3]

/-- In test mode `dispatch` leaves the store and the trace of provider requests as they
were. -/
theorem dispatch_test_world (env : Env) (message fromNumber : String)
    (specificPhone : Option String) (w : World) :
    (dispatch env message fromNumber true specificPhone w).2.store = w.store ∧
    (dispatch env message fromNumber true specificPhone w).2.sends = w.sends := by
  have hro := resolveRecipients_onlyReads env specificPhone w
  unfold dispatch
  rcases hR : resolveRecipients env specificPhone w with ⟨recipients, w1⟩
  rw [hR] at hro
  simp only
  split
  · exact ⟨hro.1, hro.2.1⟩
  · obtain ⟨_, _, _, r4⟩ := batchLoop_sendBatch env message fromNumber true recipients
      recipients.length 0 { results := [], successCount := 0, failureCount := 0 } w1 w1
      (SameButSleeps.same w1) (by omega)
    obtain ⟨_, _, _, t4, t5⟩ := sendBatch_test env message fromNumber recipients w1
    simp only [List.drop_zero] at r4
    simp only [Bool.not_true, Bool.false_and, Bool.false_eq_true, if_false, isoNow]
    exact ⟨by rw [r4.1, t4, hro.1], by rw [r4.2.2.1, t5, hro.2.1]⟩

/-- C12. An admitted request in test mode with at least one recipient is answered with the
200 summary that lists, for each recipient in order, a result with `success = true` and
status `test_sent`, with `totalSent` the number of recipients and `totalFailed = 0`.  The
provider is not invoked, and every record under a `user:` key is the one before the call (the
only change to the store is the caller's rate-limit log). -/
theorem handler_test_mode (env : Env) (req : SmsRequest) (w : World) (body : SmsBody)
    (message fromNumber : String) (hreq : ReachesLimiter env req body message fromNumber)
    (htest : body.testMode = true) (hgranted : (admission env req w).1 = true)
    (hne : (resolveRecipients env body.specificPhone (admission env req w).2).1 ≠ []) :
    (∃ stamp, (SendSms.handler env req w).1 =
      .sent 200
        ("SMS sent successfully to " ++
          toString (resolveRecipients env body.specificPhone (admission env req w).2).1.length ++
          " recipient(s)")
        { totalSent := (resolveRecipients env body.specificPhone (admission env req w).2).1.length,
          totalFailed := 0,
          totalRecipients :=
            (resolveRecipients env body.specificPhone (admission env req w).2).1.length,
          testMode := true,
          results :=
            (resolveRecipients env body.specificPhone (admission env req w).2).1.map testReport,
          timestamp := stamp }) ∧
    (SendSms.handler env req w).2.sends = w.sends ∧
    (∀ key : String, "user:".data.isPrefixOf key.data = true →
      (SendSms.handler env req w).2.store.get key = w.store.get key) := by
  rw [handler_granted env req w body message fromNumber hreq hgranted, htest]
  obtain ⟨stamp, hresp⟩ := dispatch_response env message fromNumber true body.specificPhone
    (admission env req w).2 hne
  obtain ⟨t1, t2, t3, _, _⟩ := sendBatch_test env message fromNumber
    (resolveRecipients env body.specificPhone (admission env req w).2).1
    (resolveRecipients env body.specificPhone (admission env req w).2).2
  obtain ⟨ws, wd⟩ := dispatch_test_world env message fromNumber body.specificPhone
    (admission env req w).2
  refine ⟨⟨stamp, ?_⟩, ?_, ?_⟩
  · rw [hresp, t1, t2, t3]
  · rw [wd]
    unfold admission dateNow
    rw [checkRateLimit_sends]
  · intro key hkey
    rw [ws]
    unfold admission dateNow
    rw [checkRateLimit_get_other _ _ _ _ _ _ _ (rateLimitKey_ne_user req key hkey)]

/-! ## One result per recipient -/

/-- The loop returns a result only for an accepted request. -/
theorem sendSMSWithRetryLoop_some (env : Env) (phone message fromNumber : String)
    (maxRetries : Int) :
    ∀ (fuel attempt : Nat) (w : World) (result : DeliveryResult),
      (sendSMSWithRetryLoop env phone message fromNumber maxRetries fuel attempt w).1 =
        some result →
      ∃ sid status, result = attemptResult phone (.ok sid status) := by
  intro fuel
  induction fuel with
  | zero => intro attempt w result h; simp [sendSMSWithRetryLoop] at h
  | succ f ih =>
    intro attempt w result h
    rw [sendSMSWithRetryLoop_succ] at h
    by_cases ha : (attempt : Int) ≤ maxRetries
    · rw [if_pos ha] at h
      by_cases hs : (sendSingleSMS env phone message fromNumber w).1.success = true
      · rw [if_pos hs] at h
        simp only [Option.some.injEq] at h
        subst h
        by_cases hv : ValidPhone phone
        · rw [sendSingleSMS_valid env phone message fromNumber w hv] at hs ⊢
          cases hp : env.provider w.sends.length (sendRequest phone message fromNumber) with
          | ok sid status => exact ⟨sid, status, rfl⟩
          | err msg code => rw [hp] at hs; simp [attemptResult] at hs
        · rw [sendSingleSMS_invalid env phone message fromNumber w hv] at hs
          simp at hs
      · rw [if_neg hs] at h
        by_cases hc : isNoRetryCode (sendSingleSMS env phone message fromNumber w).1.errorCode
            = true
        · rw [if_pos hc] at h; simp at h
        · rw [if_neg hc] at h
          exact ih _ _ _ h
    · rw [if_neg ha] at h; simp at h

/-- The two shapes of the result of `sendSMSWithRetry`: the success built from an accepted
request, or the fixed failure. -/
theorem sendSMSWithRetry_cases (env : Env) (phone message fromNumber : String)
    (maxRetries : Int) (w : World) :
    (sendSMSWithRetry env phone message fromNumber maxRetries w).1 = failedAfterRetries phone ∨
    ∃ sid status, (sendSMSWithRetry env phone message fromNumber maxRetries w).1 =
      attemptResult phone (.ok sid status) := by
  rw [sendSMSWithRetry_result]
  cases h : (sendSMSWithRetryLoop env phone message fromNumber maxRetries maxRetries.toNat 1
    w).1 with
  | none => left; rfl
  | some result =>
    right
    exact sendSMSWithRetryLoop_some env phone message fromNumber maxRetries _ _ _ _ h

theorem sendBatch_outcomes (env : Env) (message fromNumber : String) (testMode : Bool) :
    ∀ (recipients : List Recipient) (w : World),
      List.Forall₂
        (fun r res => ∃ v : World, res = (sendToRecipient env message fromNumber testMode r v).1)
        recipients (sendBatch env message fromNumber testMode recipients w).1 := by
  intro recipients
  induction recipients with
  | nil => intro w; exact List.Forall₂.nil
  | cons r rest ih =>
    intro w
    simp only [sendBatch]
    exact List.Forall₂.cons ⟨w, rfl⟩ (ih _)

/-- A 200 summary is the answer to a request that reached the rate limiter and was
admitted. -/
theorem handler_sent_inv (env : Env) (req : SmsRequest) (w : World) (status : Nat)
    (text : String) (data : SmsData)
    (h : (SendSms.handler env req w).1 = .sent status text data) :
    ∃ body message fromNumber, ReachesLimiter env req body message fromNumber ∧
      (admission env req w).1 = true := by
  unfold SendSms.handler at h
  split at h
  · simp at h
  · split at h
    · simp at h
    · rename_i hopt hpost
      split at h
      · rename_i sid token fromNumber hsid htoken hfrom
        split at h
        · simp at h
        · rename_i hcfg
          split at h
          · simp at h
          · rename_i body hbody
            split at h
            · simp at h
            · rename_i message hmessage
              split at h
              · simp at h
              · rename_i hmsg
                refine ⟨body, message, fromNumber, ⟨?_, ⟨sid, token, hsid, ?_, htoken, ?_⟩,
                  hfrom, ?_, hbody, hmessage, ?_⟩, ?_⟩
                · simpa using hpost
                · intro e; apply hcfg; simp [e]
                · intro e; apply hcfg; simp [e]
                · intro e; apply hcfg; simp [e]
                · intro e; apply hmsg; simp [e]
                · rcases hA : admission env req w with ⟨ok, w2⟩
                  rw [hA] at h
                  simp only at h
                  cases ok with
                  | true => rfl
                  | false => simp at h
      · simp at h

/-- A 200 summary is built from a non-empty list of recipients. -/
theorem dispatch_sent_recipients (env : Env) (message fromNumber : String) (testMode : Bool)
    (specificPhone : Option String) (w : World) (status : Nat) (text : String) (data : SmsData)
    (h : (dispatch env message fromNumber testMode specificPhone w).1 = .sent status text data) :
    (resolveRecipients env specificPhone w).1 ≠ [] := by
  intro he
  unfold dispatch at h
  rcases hR : resolveRecipients env specificPhone w with ⟨recipients, w1⟩
  rw [hR] at h he
  simp only at he
  subst he
  simp at h

/-- C17. In every 200 summary, in test mode or live and whatever the provider answers, the
list of results has as many entries as the list of recipients, and its `i`-th entry reports
the result that the send to the `i`-th recipient returned: the results are those of one pass
over the recipients, in their order. -/
theorem handler_one_result_per_recipient (env : Env) (req : SmsRequest) (w : World)
    (status : Nat) (text : String) (data : SmsData)
    (h200 : (SendSms.handler env req w).1 = .sent status text data) :
    ∃ body message fromNumber,
      req.body = some body ∧ body.message = some message ∧
      env.twilioPhoneNumber = some fromNumber ∧
      data.results.length =
        (resolveRecipients env body.specificPhone (admission env req w).2).1.length ∧
      data.totalRecipients =
        (resolveRecipients env body.specificPhone (admission env req w).2).1.length ∧
      ∃ results : List DeliveryResult,
        data.results = results.map reportResult ∧
        results = (sendBatch env message fromNumber body.testMode
          (resolveRecipients env body.specificPhone (admission env req w).2).1
          (resolveRecipients env body.specificPhone (admission env req w).2).2).1 ∧
        List.Forall₂
          (fun r res => ∃ v : World,
            res = (sendToRecipient env message fromNumber body.testMode r v).1)
          (resolveRecipients env body.specificPhone (admission env req w).2).1 results := by
  obtain ⟨body, message, fromNumber, hreq, hgranted⟩ :=
    handler_sent_inv env req w status text data h200
  rw [handler_granted env req w body message fromNumber hreq hgranted] at h200
  have hne := dispatch_sent_recipients env message fromNumber body.testMode body.specificPhone
    _ status text data h200
  obtain ⟨stamp, hresp⟩ := dispatch_response env message fromNumber body.testMode
    body.specificPhone (admission env req w).2 hne
  rw [hresp] at h200
  simp only [SmsResponse.sent.injEq] at h200
  obtain ⟨_, _, hdata⟩ := h200
  subst hdata
  refine ⟨body, message, fromNumber, hreq.2.2.2.2.1, hreq.2.2.2.2.2.1, hreq.2.2.1, ?_, rfl,
    _, rfl, rfl, sendBatch_outcomes env message fromNumber body.testMode _ _⟩
  simp [sendBatch_length]

/-! ## Concrete runs -/

/-- The witness of C11: the fourth request of a caller within a second. -/
theorem handler_rate_limited_witness :
    (SendSms.handler calmEnv (dispatchRequest "Hi!" false none) busyWorld).1 =
      .failure 429 "RATE_LIMIT_EXCEEDED"
        "Too many SMS requests. Please wait before trying again." ∧
    (SendSms.handler calmEnv (dispatchRequest "Hi!" false none) busyWorld).2.kvOps =
      busyWorld.kvOps + 1 ∧
    (SendSms.handler calmEnv (dispatchRequest "Hi!" false none) busyWorld).2.sends =
      busyWorld.sends ∧
    (SendSms.handler calmEnv (dispatchRequest "Hi!" false none) busyWorld).2.store =
      busyWorld.store :=
  handler_rate_limited calmEnv (dispatchRequest "Hi!" false none) busyWorld
    { message := some "Hi!", testMode := false, specificPhone := none } "Hi!" "+15550000000"
    ⟨rfl, ⟨"AC0", "secret", rfl, by decide, rfl, by decide⟩, rfl, by decide, rfl, rfl,
      by decide⟩
    (by decide)

/-- The witness of C12: a test dispatch to the one subscriber Ann. -/
theorem handler_test_mode_witness :
    (SendSms.handler calmEnv (dispatchRequest "Hi!" true none) annWorld).2.sends =
      annWorld.sends :=
  (handler_test_mode calmEnv (dispatchRequest "Hi!" true none) annWorld
    { message := some "Hi!", testMode := true, specificPhone := none } "Hi!" "+15550000000"
    ⟨rfl, ⟨"AC0", "secret", rfl, by decide, rfl, by decide⟩, rfl, by decide, rfl, rfl,
      by decide⟩
    rfl (by decide) (by decide)).2.1

/-- C13 (the code at the failing input). The provider rejects every request for
`+15551234567` with the code 21211, supplied as a number: with `maxRetries = 2`,
`sendSMSWithRetry` does not stop after the first attempt but makes two requests, pausing 2000
ms between them.  With the same code supplied as a string it makes one request and does not
pause. -/
theorem sendSMSWithRetry_numeric_code_retried :
    (sendSMSWithRetry numericRejectEnv "+15551234567" "Hi" "+15550000000" 2
      emptyWorld).2.sends.length = 2 ∧
    (sendSMSWithRetry numericRejectEnv "+15551234567" "Hi" "+15550000000" 2
      emptyWorld).2.sleeps = [2000] ∧
    (sendSMSWithRetry numericRejectEnv "+15551234567" "Hi" "+15550000000" 2
      emptyWorld).1.success = false ∧
    (sendSMSWithRetry stringRejectEnv "+15551234567" "Hi" "+15550000000" 2
      emptyWorld).2.sends.length = 1 ∧
    (sendSMSWithRetry stringRejectEnv "+15551234567" "Hi" "+15550000000" 2
      emptyWorld).2.sleeps = [] := by
  decide

/-- C18 (the code at the failing input). Jo signed up with the German mobile number
`+49 151 12345678`, stored as `+4915112345678`.  The 200 summary of a live dispatch reports
the phone in full: the mask pattern only matches `+1` followed by ten digits. -/
theorem handler_reports_unmasked_phone :
    (SendSms.handler calmEnv (dispatchRequest "Hi!" false none) joWorld).1.results =
      [{ phone := "+4915112345678", success := true, status := "queued", error := none }] ∧
    maskPhone "+4915112345678" = "+4915112345678" ∧
    maskPhone "+15551234567" = "+1***4567" := by
  decide

/-! ## Retries -/

/-- C14. For a phone within the length bound and `maxRetries = n`: if the first `k - 1`
requests are rejected with codes that the loop does not take for permanent and the `k`-th,
`k ≤ n`, is accepted, `sendSMSWithRetry` makes exactly `k` requests to the provider and
returns the success built from the accepted one; if all of the first `n` requests are
rejected with such codes it makes exactly `n` requests and returns a result with
`success = false`. -/
theorem sendSMSWithRetry_retries_transient (env : Env) (phone message fromNumber : String)
    (n : Nat) (w : World) (hv : ValidPhone phone) :
    (∀ (k : Nat) (sid status : String), 1 ≤ k → k ≤ n →
      (∀ j, j < k - 1 → TransientReply
        (env.provider (w.sends.length + j) (sendRequest phone message fromNumber))) →
      env.provider (w.sends.length + (k - 1)) (sendRequest phone message fromNumber) =
        .ok sid status →
      (sendSMSWithRetry env phone message fromNumber n w).2.sends =
        w.sends ++ List.replicate k (sendRequest phone message fromNumber) ∧
      (sendSMSWithRetry env phone message fromNumber n w).1 =
        { success := true, phone := sendDestination phone, messageId := some sid,
          status := some status, error := none, errorCode := none }) ∧
    ((∀ j, j < n → TransientReply
        (env.provider (w.sends.length + j) (sendRequest phone message fromNumber))) →
      (sendSMSWithRetry env phone message fromNumber n w).2.sends =
        w.sends ++ List.replicate n (sendRequest phone message fromNumber) ∧
      (sendSMSWithRetry env phone message fromNumber n w).1.success = false) := by
  constructor
  · intro k sid status hk1 hkn hfail hok
    obtain ⟨r1, r2⟩ := sendSMSWithRetryLoop_success_after env phone message fromNumber n hv
      sid status (k - 1) (n : Int).toNat 1 w (by simp; omega) (by push_cast; omega) hfail hok
    have hk : k - 1 + 1 = k := by omega
    rw [hk] at r2
    unfold sendSMSWithRetry
    rcases hL : sendSMSWithRetryLoop env phone message fromNumber n (n : Int).toNat 1 w
      with ⟨x, v⟩
    rw [hL] at r1 r2
    simp only at r1 r2
    subst r1
    exact ⟨r2, rfl⟩
  · intro hfail
    obtain ⟨r1, r2⟩ := sendSMSWithRetryLoop_all_transient env phone message fromNumber n hv
      (n : Int).toNat 1 w (by simp; omega) (by simpa using hfail)
    unfold sendSMSWithRetry
    rcases hL : sendSMSWithRetryLoop env phone message fromNumber n (n : Int).toNat 1 w
      with ⟨x, v⟩
    rw [hL] at r1 r2
    simp only [Int.toNat_ofNat] at r1 r2
    subst r1
    exact ⟨r2, rfl⟩

/-- The witness of C14: the first request is rejected with the transient code 20503 and the
second is accepted; with up to two attempts, two requests are made. -/
theorem sendSMSWithRetry_retries_transient_witness :
    (sendSMSWithRetry flakyEnv "+15551234567" "Hi" "+15550000000" (2 : Nat) emptyWorld).2.sends =
      emptyWorld.sends ++ List.replicate 2 (sendRequest "+15551234567" "Hi" "+15550000000") ∧
    (sendSMSWithRetry flakyEnv "+15551234567" "Hi" "+15550000000" (2 : Nat) emptyWorld).1 =
      { success := true, phone := sendDestination "+15551234567", messageId := some "SM1",
        status := some "queued", error := none, errorCode := none } :=
  (sendSMSWithRetry_retries_transient flakyEnv "+15551234567" "Hi" "+15550000000" 2 emptyWorld
    (by decide)).1 2 "SM1" "queued" (by decide) (by decide)
    (fun j hj => by
      have h0 : j = 0 := by omega
      subst h0
      exact ⟨"Service unavailable", some (.num 20503), rfl, rfl⟩)
    rfl

/-- The witness of C17: the live dispatch to the one subscriber Ann. -/
theorem handler_one_result_per_recipient_witness :
    ∃ body message fromNumber,
      (dispatchRequest "Hi!" false none).body = some body ∧ body.message = some message ∧
      calmEnv.twilioPhoneNumber = some fromNumber ∧
      [({ phone := "+1***4567", success := true, status := "queued", error := none } :
          ReportedResult)].length =
        (resolveRecipients calmEnv body.specificPhone
          (admission calmEnv (dispatchRequest "Hi!" false none) annWorld).2).1.length ∧
      1 =
        (resolveRecipients calmEnv body.specificPhone
          (admission calmEnv (dispatchRequest "Hi!" false none) annWorld).2).1.length ∧
      ∃ results : List DeliveryResult,
        [({ phone := "+1***4567", success := true, status := "queued", error := none } :
          ReportedResult)] = results.map reportResult ∧
        results = (sendBatch calmEnv message fromNumber body.testMode
          (resolveRecipients calmEnv body.specificPhone
            (admission calmEnv (dispatchRequest "Hi!" false none) annWorld).2).1
          (resolveRecipients calmEnv body.specificPhone
            (admission calmEnv (dispatchRequest "Hi!" false none) annWorld).2).2).1 ∧
        List.Forall₂
          (fun r res => ∃ v : World,
            res = (sendToRecipient calmEnv message fromNumber body.testMode r v).1)
          (resolveRecipients calmEnv body.specificPhone
            (admission calmEnv (dispatchRequest "Hi!" false none) annWorld).2).1 results :=
  handler_one_result_per_recipient calmEnv (dispatchRequest "Hi!" false none) annWorld 200
    "SMS sent successfully to 1 recipient(s)"
    { totalSent := 1, totalFailed := 0, totalRecipients := 1, testMode := false,
      results := [{ phone := "+1***4567", success := true, status := "queued", error := none }],
      timestamp := "T1700000000005" }
    (by decide)

/-! ## Signup -/

theorem phone_key_ne_user_key (a b : String) : "phone:" ++ a ≠ "user:" ++ b := by
  intro h
  have := congrArg String.data h
  simp [String.data_append] at this

theorem phone_key_ne_subscriber_key (a b : String) : "phone:" ++ a ≠ "subscriber:" ++ b := by
  intro h
  have := congrArg String.data h
  simp [String.data_append] at this

theorem user_key_ne_subscriber_key (a b : String) : "user:" ++ a ≠ "subscriber:" ++ b := by
  intro h
  have := congrArg String.data h
  simp [String.data_append] at this

theorem user_key_injective (a b : String) (h : "user:" ++ a = "user:" ++ b) : a = b := by
  have := congrArg String.data h
  simp only [String.data_append, List.append_cancel_left_eq] at this
  exact String.ext this

/-- A signup that is answered 200 made its three writes: the record under the phone key and
under the user key, and the index entry. -/
theorem storeSubscriber_registered (env : Env) (body : SubscribeBody)
    (name formattedPhone : String) (w : World) (text : String) (data : SignupData)
    (h : (storeSubscriber env body name formattedPhone w).1 = .registered 200 text data) :
    ∃ user : User, user.phone = formattedPhone ∧ user.name = jsTrim name ∧
      user.status = "active" ∧ user.notificationsSent = 0 ∧ user.id = data.userId ∧
      (storeSubscriber env body name formattedPhone w).2.store =
        ((w.store.set ("phone:" ++ formattedPhone) (.user user)).set ("user:" ++ user.id)
          (.user user)).set ("subscriber:" ++ user.id) (.str user.id) := by
  revert h
  by_cases ht : truthyStr body.timestamp = true <;>
  by_cases h1 : env.kvFails w.kvOps = true <;>
  by_cases h2 : env.kvFails (w.kvOps + 1) = true <;>
  by_cases h3 : env.kvFails (w.kvOps + 1 + 1) = true <;>
  by_cases h4 : env.kvFails (w.kvOps + 1 + 1 + 1) = true <;>
  simp [storeSubscriber, dateNow, isoNow, kvSet, kvKeys, kvOp, subscribeInternalError, ht, h1,
    h2, h3, h4] <;>
  · intro _ hd
    subst hd
    exact ⟨_, rfl, rfl, rfl, rfl, rfl, rfl⟩

/-- The normalised phone depends on the digits of the raw phone only. -/
theorem formatPhoneNumber_of_same_digits (a b : String)
    (h : stripNonDigits a = stripNonDigits b) : formatPhoneNumber a = formatPhoneNumber b := by
  rcases formatPhoneNumber_cases a with ⟨ha, la⟩ | ⟨ha, la⟩ <;>
  rcases formatPhoneNumber_cases b with ⟨hb, lb⟩ | ⟨hb, lb⟩
  · rw [ha, hb, h]
  · rw [h] at la; exact absurd la lb
  · rw [h] at la; exact absurd lb la
  · rw [ha, hb, h]

/-- A signup that is answered 200 carried a non-empty name and a valid phone that was not yet
registered, and left the three writes of `storeSubscriber` in the store. -/
theorem signup_registered (env : Env) (body : SubscribeBody) (w : World) (text : String)
    (data : SignupData) (h : (signup env body w).1 = .registered 200 text data) :
    ∃ (name phone : String) (user : User),
      body.name = some name ∧ body.phone = some phone ∧ name ≠ "" ∧
      validatePhoneNumber (some phone) = true ∧
      truthyVal (w.store.get ("phone:" ++ formatPhoneNumber phone)) = false ∧
      user.phone = formatPhoneNumber phone ∧ user.name = jsTrim name ∧
      user.status = "active" ∧ user.notificationsSent = 0 ∧ user.id = data.userId ∧
      (signup env body w).2.store =
        ((w.store.set ("phone:" ++ formatPhoneNumber phone) (.user user)).set
          ("user:" ++ user.id) (.user user)).set ("subscriber:" ++ user.id) (.str user.id) := by
  unfold signup at h ⊢
  cases hn : body.name with
  | none => rw [hn] at h; simp at h
  | some name =>
    cases hp : body.phone with
    | none => rw [hn, hp] at h; simp at h
    | some phone =>
      rw [hn, hp] at h
      simp only at h ⊢
      by_cases hc : (name == "" || phone == "") = true
      · rw [if_pos hc] at h; simp at h
      · rw [if_neg hc] at h ⊢
        by_cases hv : (!validatePhoneNumber (some phone)) = true
        · rw [if_pos hv] at h; simp at h
        · rw [if_neg hv] at h ⊢
          by_cases he : (!validateEmail body.email) = true
          · rw [if_pos he] at h; simp at h
          · rw [if_neg he] at h ⊢
            try simp only at h
            try simp only
            have hg := kvGet_spec env ("phone:" ++ formatPhoneNumber phone) w
            rcases hG : kvGet env ("phone:" ++ formatPhoneNumber phone) w with ⟨r, w1⟩
            rw [hG] at h hg
            simp only at h hg ⊢
            cases r with
            | none => exact absurd h (by simp [subscribeInternalError])
            | some existing =>
              simp only at h ⊢
              by_cases hx : truthyVal existing = true
              · rw [if_pos hx] at h; simp at h
              · rw [if_neg hx] at h ⊢
                obtain ⟨user, u1, u2, u3, u4, u5, u6⟩ :=
                  storeSubscriber_registered env body name (formatPhoneNumber phone) w1 text data h
                have hex : existing = w.store.get ("phone:" ++ formatPhoneNumber phone) := by
                  rcases hg.2.2 with h0 | h0
                  · simp at h0
                  · simpa using h0
                refine ⟨name, phone, user, rfl, rfl, ?_, ?_, ?_, u1, u2, u3, u4, u5, ?_⟩
                · intro e; apply hc; simp [e]
                · simpa using hv
                · rw [← hex]; simpa using hx
                · rw [u6, hg.1]

/-- C15. After a signup with the phone `p` that was answered 200, a signup with a phone `q`
that has the same normalised form (a valid phone, with a non-empty name and an absent or
well-formed email, so that the request gets as far as the duplicate check, and with the read
of the store succeeding) is answered 409 `DUPLICATE_PHONE` and leaves the store as it was.
Two phones with the same digits have the same normalised form. -/
theorem signup_duplicate_phone_rejected (env : Env) (body1 body2 : SubscribeBody) (w : World)
    (p q name2 text : String) (data : SignupData)
    (hp : body1.phone = some p) (hq : body2.phone = some q)
    (hname2 : body2.name = some name2) (hnonempty : name2 ≠ "")
    (hvalid : validatePhoneNumber (some q) = true)
    (hemail : validateEmail body2.email = true)
    (hsame : formatPhoneNumber p = formatPhoneNumber q)
    (hfirst : (signup env body1 w).1 = .registered 200 text data)
    (hread : env.kvFails (signup env body1 w).2.kvOps = false) :
    (signup env body2 (signup env body1 w).2).1 =
      .failure 409 "DUPLICATE_PHONE"
        "This phone number is already registered for notifications!" ∧
    (signup env body2 (signup env body1 w).2).2.store = (signup env body1 w).2.store ∧
    (∀ a b : String, stripNonDigits a = stripNonDigits b →
      formatPhoneNumber a = formatPhoneNumber b) := by
  obtain ⟨name1, p1, user, _, hp1, _, _, _, _, _, _, _, _, hstore⟩ :=
    signup_registered env body1 w text data hfirst
  have hpp : p1 = p := by rw [hp] at hp1; exact (Option.some.inj hp1).symm
  subst hpp
  have hget : (signup env body1 w).2.store.get ("phone:" ++ formatPhoneNumber q) =
      some (.user user) := by
    rw [hstore, ← hsame,
      Store.get_set_ne _ _ _ _ (phone_key_ne_subscriber_key _ _),
      Store.get_set_ne _ _ _ _ (phone_key_ne_user_key _ _), Store.get_set_self]
  have hc : (name2 == "" || q == "") = false := by
    have hq2 : q ≠ "" := ((validatePhoneNumber_iff q).mp hvalid).1
    simp [hnonempty, hq2]
  generalize (signup env body1 w).2 = v at hread hget ⊢
  refine ⟨?_, ?_, formatPhoneNumber_of_same_digits⟩
  · simp [signup, hname2, hq, hc, hvalid, hemail, kvGet, kvOp, hread, hget, truthyVal]
  · simp [signup, hname2, hq, hc, hvalid, hemail, kvGet, kvOp, hread, hget, truthyVal]

/-- The witness of C15: Ann signs up with `5551234567` and then with `(555) 123-4567`. -/
theorem signup_duplicate_phone_rejected_witness :
    (signup calmEnv (signupBody "Ann" "(555) 123-4567")
      (signup calmEnv (signupBody "Ann" "5551234567") emptyWorld).2).1 =
      .failure 409 "DUPLICATE_PHONE"
        "This phone number is already registered for notifications!" :=
  (signup_duplicate_phone_rejected calmEnv (signupBody "Ann" "5551234567")
    (signupBody "Ann" "(555) 123-4567") emptyWorld "5551234567" "(555) 123-4567" "Ann"
    "Successfully registered for birthday notifications!"
    { userId := "user_1700000000000_k3j9x0q2a", name := "Ann", phone := "+15551234567",
      totalSubscribers := 1, registeredAt := "T1700000000001" }
    rfl rfl rfl (by decide) (by decide) (by decide) (by decide) (by decide) rfl).1

/-! ## Personalisation -/

theorem expandReplacement_cons_ne (matched before after : List Char) (c : Char)
    (rest : List Char) (hc : c ≠ '$') :
    expandReplacement matched before after (c :: rest) =
      c :: expandReplacement matched before after rest := by
  cases rest with
  | nil => simp [expandReplacement]
  | cons d rest => simp [expandReplacement, hc]

theorem expandReplacement_no_dollar (matched before after : List Char) :
    ∀ (replacement : List Char), '$' ∉ replacement →
      expandReplacement matched before after replacement = replacement := by
  intro replacement
  induction replacement with
  | nil => intro _; simp [expandReplacement]
  | cons c rest ih =>
    intro h
    have hc : c ≠ '$' := fun e => h (by simp [e])
    have hr : '$' ∉ rest := fun e => h (List.mem_cons_of_mem _ e)
    rw [expandReplacement_cons_ne _ _ _ _ _ hc, ih hr]

/-- A text without the placeholder, followed by nothing or by the placeholder, does not begin
with the placeholder. -/
theorem not_placeholder_head (s X : List Char) (hs : s ≠ [])
    (hfree : ¬ namePlaceholder <:+: s) (hX : X = [] ∨ ∃ Y, X = namePlaceholder ++ Y) :
    namePlaceholder.isPrefixOf (s ++ X) = false := by
  rcases s with _ | ⟨c1, _ | ⟨c2, _ | ⟨c3, _ | ⟨c4, _ | ⟨c5, _ | ⟨c6, rest⟩⟩⟩⟩⟩⟩
  · exact absurd rfl hs
  all_goals first
    | (rcases hX with rfl | ⟨Y, rfl⟩ <;>
        simp [namePlaceholder, List.isPrefixOf] <;> done)
    | skip
  · by_contra hp
    apply hfree
    have hp2 : namePlaceholder.isPrefixOf (c1 :: c2 :: c3 :: c4 :: c5 :: c6 :: rest) = true := by
      simp [namePlaceholder, List.isPrefixOf] at hp ⊢
      exact hp
    exact (List.isPrefixOf_iff_prefix.mp hp2).isInfix

theorem replaceNameFrom_nil (replacement : List Char) (fuel : Nat) (before : List Char) :
    replaceNameFrom replacement fuel before [] = [] := by
  cases fuel with
  | zero => rfl
  | succ f => simp [replaceNameFrom, namePlaceholder, List.isPrefixOf]

theorem replaceNameFrom_placeholder (replacement : List Char) (hd : '$' ∉ replacement)
    (fuel : Nat) (before Y : List Char) :
    replaceNameFrom replacement (fuel + 1) before (namePlaceholder ++ Y) =
      replacement ++ replaceNameFrom replacement fuel (before ++ namePlaceholder) Y := by
  have hp : namePlaceholder.isPrefixOf (namePlaceholder ++ Y) = true :=
    List.isPrefixOf_iff_prefix.mpr (List.prefix_append _ _)
  simp only [replaceNameFrom, hp, if_true, List.drop_left,
    expandReplacement_no_dollar _ _ _ _ hd]

/-- The scan passes over a text without the placeholder unchanged. -/
theorem replaceNameFrom_part (replacement : List Char) :
    ∀ (p : List Char) (fuel : Nat) (before X : List Char), ¬ namePlaceholder <:+: p →
      (X = [] ∨ ∃ Y, X = namePlaceholder ++ Y) → p.length ≤ fuel →
      replaceNameFrom replacement fuel before (p ++ X) =
        p ++ replaceNameFrom replacement (fuel - p.length) (before ++ p) X := by
  intro p
  induction p with
  | nil => intro fuel before X _ _ _; simp
  | cons c rest ih =>
    intro fuel before X hfree hX hlen
    obtain ⟨f, rfl⟩ : ∃ f, fuel = f + 1 := ⟨fuel - 1, by simp at hlen; omega⟩
    have hfree2 : ¬ namePlaceholder <:+: rest := fun h =>
      hfree (h.trans (List.suffix_cons c rest).isInfix)
    have hhead := not_placeholder_head (c :: rest) X (by simp) hfree hX
    have hhead2 : namePlaceholder.isPrefixOf (c :: (rest ++ X)) = false := hhead
    simp only [List.cons_append, replaceNameFrom, hhead2, Bool.false_eq_true, if_false]
    rw [ih f (before ++ [c]) X hfree2 hX (by simp at hlen; omega)]
    simp

/-- On a template given as parts joined by the placeholder, the parts themselves without it,
the replacement by a text without `$` joins the same parts by that text. -/
theorem replaceNameFrom_intercalate (replacement : List Char) (hd : '$' ∉ replacement) :
    ∀ (parts : List (List Char)) (fuel : Nat) (before : List Char),
      (∀ p ∈ parts, ¬ namePlaceholder <:+: p) →
      (List.intercalate namePlaceholder parts).length < fuel →
      replaceNameFrom replacement fuel before (List.intercalate namePlaceholder parts) =
        List.intercalate replacement parts := by
  intro parts
  induction parts with
  | nil => intro fuel before _ _; simp [List.intercalate, replaceNameFrom_nil]
  | cons p rest ih =>
    intro fuel before hfree hlen
    cases rest with
    | nil =>
      have h1 : List.intercalate namePlaceholder [p] = p := by
        simp [List.intercalate, List.intersperse]
      have h2 : List.intercalate replacement [p] = p := by
        simp [List.intercalate, List.intersperse]
      rw [h1] at hlen ⊢
      rw [h2]
      have := replaceNameFrom_part replacement p fuel before [] (hfree p (by simp))
        (Or.inl rfl) (by omega)
      simpa [replaceNameFrom_nil] using this
    | cons q rest =>
      have h1 : List.intercalate namePlaceholder (p :: q :: rest) =
          p ++ (namePlaceholder ++ List.intercalate namePlaceholder (q :: rest)) := by
        simp [List.intercalate, List.intersperse]
      have h2 : List.intercalate replacement (p :: q :: rest) =
          p ++ (replacement ++ List.intercalate replacement (q :: rest)) := by
        simp [List.intercalate, List.intersperse]
      rw [h1] at hlen ⊢
      rw [h2]
      have hl6 : namePlaceholder.length = 6 := rfl
      simp only [List.length_append, hl6] at hlen
      rw [replaceNameFrom_part replacement p fuel before _ (hfree p (by simp))
        (Or.inr ⟨_, rfl⟩) (by omega)]
      obtain ⟨f, hf⟩ : ∃ f, fuel - p.length = f + 1 := ⟨fuel - p.length - 1, by omega⟩
      rw [hf, replaceNameFrom_placeholder replacement hd,
        ih f _ (fun x hx => hfree x (List.mem_cons_of_mem _ hx)) (by omega)]

/-- The statement of `replaceNameFrom_intercalate` for `replaceName`. -/
theorem replaceName_parts (message name : String) (parts : List (List Char))
    (hparts : message.data = List.intercalate namePlaceholder parts)
    (hfree : ∀ p ∈ parts, ¬ namePlaceholder <:+: p) (hd : '$' ∉ name.data) :
    replaceName message name = ⟨List.intercalate name.data parts⟩ := by
  have hlen : (List.intercalate namePlaceholder parts).length < message.length + 1 := by
    rw [← hparts]
    show message.data.length < message.data.length + 1
    omega
  unfold replaceName
  rw [hparts, replaceNameFrom_intercalate name.data hd parts _ _ hfree hlen]

/-- C16 (the general sentence fails for an empty name). A subscriber who signed up with a
name of two blanks is stored with the empty name; the dispatch of `Hi {name}!` does not send
`Hi !` to this recipient but `Hi Friend!`. -/
theorem dispatch_empty_name_sends_friend :
    (getAllSubscribers calmEnv blankNameWorld).1.map (fun u => (u.name, u.phone)) =
      [("", "+15551234567")] ∧
    (SendSms.handler calmEnv (dispatchRequest "Hi \x7bname\x7d!" false none)
      blankNameWorld).2.sends =
      [{ body := "Hi Friend!", sender := "+15550000000", dest := "+15551234567" }] := by
  decide

/-- C16 (amended). From an empty store, the signup of Ann with the phone `5551234567`
stores a subscriber with the phone `+15551234567`, and a following live dispatch of
`Hi {name}!` to all subscribers, with a provider that accepts the message, makes exactly one
request: to `+15551234567`, with the body `Hi Ann!`.  In general, for a recipient whose name
contains no `$`, every request made for the recipient carries the template with every
occurrence of `{name}` replaced by the name, or by `Friend` when the name is empty, and the
parts between the occurrences unchanged. -/
theorem dispatch_personalizes (env : Env) (message fromNumber : String) (r : Recipient)
    (w : World) (parts : List (List Char))
    (hparts : message.data = List.intercalate namePlaceholder parts)
    (hfree : ∀ p ∈ parts, ¬ namePlaceholder <:+: p)
    (hd : '$' ∉ r.name.data) :
    (getAllSubscribers calmEnv annWorld).1.map (fun u => (u.name, u.phone)) =
      [("Ann", "+15551234567")] ∧
    (SendSms.handler calmEnv (dispatchRequest "Hi \x7bname\x7d!" false none) annWorld).2.sends =
      [{ body := "Hi Ann!", sender := "+15550000000", dest := "+15551234567" }] ∧
    (∀ q ∈ (sendToRecipient env message fromNumber false r w).2.sends,
      q ∈ w.sends ∨ q.body = ⟨List.intercalate (shownName r).data parts⟩) := by
  refine ⟨by decide, by decide, ?_⟩
  intro q hq
  have hshown : (if r.name != "" then r.name else "Friend") = shownName r := by
    unfold shownName
    by_cases hn : r.name = "" <;> simp [hn]
  have hd2 : '$' ∉ (shownName r).data := by
    unfold shownName
    by_cases hn : r.name = ""
    · simp [hn]
    · simpa [hn] using hd
  unfold sendToRecipient at hq
  simp only [Bool.false_eq_true, if_false, hshown] at hq
  obtain ⟨k, _, hs, _⟩ := sendSMSWithRetry_world env r.phone
    (replaceName message (shownName r)) fromNumber defaultMaxRetries w
  rw [hs, List.mem_append] at hq
  rcases hq with hq | hq
  · exact Or.inl hq
  · right
    rw [List.eq_of_mem_replicate hq]
    exact replaceName_parts message (shownName r) parts hparts hfree hd2

/-- The witness of C16: a template with two occurrences of the placeholder; the request
made for Ann carries `Hi Ann! Bye Ann.`. -/
theorem dispatch_personalizes_witness :
    ({ body := "Hi Ann! Bye Ann.", sender := "+15550000000", dest := "+15551234567" } : SendReq) ∈
      (sendToRecipient calmEnv "Hi \x7bname\x7d! Bye \x7bname\x7d." "+15550000000" false
        { phone := "+15551234567", name := "Ann", id := none } emptyWorld).2.sends ∧
    (({ body := "Hi Ann! Bye Ann.", sender := "+15550000000", dest := "+15551234567" } : SendReq) ∈
        emptyWorld.sends ∨
      ({ body := "Hi Ann! Bye Ann.", sender := "+15550000000",
         dest := "+15551234567" } : SendReq).body =
        ⟨List.intercalate
          (shownName { phone := "+15551234567", name := "Ann", id := none }).data
          ["Hi ".data, "! Bye ".data, ".".data]⟩) :=
  ⟨by decide,
   (dispatch_personalizes calmEnv "Hi \x7bname\x7d! Bye \x7bname\x7d." "+15550000000"
    { phone := "+15551234567", name := "Ann", id := none } emptyWorld
    ["Hi ".data, "! Bye ".data, ".".data] (by decide) (by decide) (by decide)).2.2
    { body := "Hi Ann! Bye Ann.", sender := "+15550000000", dest := "+15551234567" }
    (by decide)⟩

/-! ## Reconciliation -/

theorem sendDestination_plus (phone : String) (h : startsWithChar phone '+' = true) :
    sendDestination phone = phone := by
  simp [sendDestination, h]

/-- A successful live result for a phone that begins with `+` reports that phone. -/
theorem sendToRecipient_success_phone (env : Env) (message fromNumber : String)
    (r : Recipient) (w : World) (hplus : startsWithChar r.phone '+' = true)
    (hs : (sendToRecipient env message fromNumber false r w).1.success = true) :
    (sendToRecipient env message fromNumber false r w).1.phone = r.phone := by
  unfold sendToRecipient at hs ⊢
  simp only [Bool.false_eq_true, if_false] at hs ⊢
  rcases sendSMSWithRetry_cases env r.phone
    (replaceName message (if r.name != "" then r.name else "Friend")) fromNumber
    defaultMaxRetries w with h | ⟨sid, status, h⟩
  · rw [h] at hs; simp [failedAfterRetries] at hs
  · rw [h]; simp [attemptResult, sendDestination_plus r.phone hplus]

/-- A live pass changes nothing in the store. -/
theorem sendBatch_live_store (env : Env) (message fromNumber : String) :
    ∀ (recipients : List Recipient) (w : World),
      (sendBatch env message fromNumber false recipients w).2.store = w.store := by
  intro recipients
  induction recipients with
  | nil => intro w; rfl
  | cons r rest ih =>
    intro w
    simp only [sendBatch]
    rw [ih]
    unfold sendToRecipient
    simp only [Bool.false_eq_true, if_false]
    obtain ⟨_, _, _, h, _⟩ := sendSMSWithRetry_world env r.phone
      (replaceName message (if r.name != "" then r.name else "Friend")) fromNumber
      defaultMaxRetries w
    exact h

/-- With a working store, the update of a stored record adds one to its counter and sets the
time of the delivery. -/
theorem recordDelivery_ok (env : Env) (hstore : ∀ n, env.kvFails n = false) (id : String)
    (w : World) (u : User) (hget : w.store.get ("user:" ++ id) = some (.user u)) :
    (recordDelivery env id w).store =
      w.store.set ("user:" ++ id)
        (.user (u.delivered (env.toISOString (env.clock w.clockReads)))) := by
  have hsent : (if u.notificationsSent = 0 then 0 else u.notificationsSent) + 1 =
      u.notificationsSent + 1 := by
    split_ifs with hz
    · rw [hz]
    · rfl
  simp [recordDelivery, kvGet, kvSet, kvOp, isoNow, hstore, hget, hsent, User.delivered]

/-- With pairwise distinct phones, the search of the recipients by phone finds the
subscriber's own entry. -/
theorem find_recipient (u : User) :
    ∀ (subs : List User), u ∈ subs → (subs.map (fun s => s.phone)).Nodup →
      (subs.map toRecipient).find? (fun r => r.phone == u.phone) = some (toRecipient u) := by
  intro subs
  induction subs with
  | nil => intro h; simp at h
  | cons x rest ih =>
    intro hmem hnd
    simp only [List.map_cons, List.nodup_cons] at hnd
    by_cases hx : x.phone = u.phone
    · have hxu : u = x := by
        rcases List.mem_cons.mp hmem with h | h
        · exact h
        · exfalso
          apply hnd.1
          rw [hx]
          exact List.mem_map_of_mem _ h
      subst hxu
      simp [List.find?_cons, toRecipient]
    · have hne : u ≠ x := fun e => hx (by rw [e])
      have hmem2 : u ∈ rest := by
        rcases List.mem_cons.mp hmem with h | h
        · exact absurd h hne
        · exact h
      have hb : ((toRecipient x).phone == u.phone) = false := by
        simpa [toRecipient] using hx
      simp only [List.map_cons, List.find?_cons, hb]
      exact ih hmem2 hnd.2

/-- One round of the reconciliation loop for a successful result. -/
theorem reconcile_cons_success (env : Env) (subs : List User) (specificPhone : Option String)
    (hspec : truthyStr specificPhone = false) (u : User) (hmem : u ∈ subs)
    (hphones : (subs.map (fun s => s.phone)).Nodup) (hid : u.id ≠ "")
    (res : DeliveryResult) (rest : List DeliveryResult) (w : World)
    (hs : res.success = true) (hphone : res.phone = u.phone) :
    reconcile env (subs.map toRecipient) specificPhone (res :: rest) w =
      reconcile env (subs.map toRecipient) specificPhone rest (recordDelivery env u.id w) := by
  have hb : (u.id != "") = true := by simpa using hid
  rw [reconcile]
  simp only [hs, hspec, Bool.not_false, Bool.and_self, if_true, hphone,
    find_recipient u subs hmem hphones, toRecipient, hb]

/-- One round of the reconciliation loop for a failed result. -/
theorem reconcile_cons_failure (env : Env) (recipients : List Recipient)
    (specificPhone : Option String) (res : DeliveryResult) (rest : List DeliveryResult)
    (w : World) (hs : res.success = false) :
    reconcile env recipients specificPhone (res :: rest) w =
      reconcile env recipients specificPhone rest w := by
  rw [reconcile]
  simp [hs]

/-- With a working store, pairwise distinct phones and identifiers and every record under its
user key: after the reconciliation loop the record of each subscriber with a successful result
has one more delivery, the record of each subscriber with a failed result is as it was, and
so is every other key of the store. -/
theorem reconcile_spec (env : Env) (hstore : ∀ n, env.kvFails n = false) (subs : List User)
    (specificPhone : Option String) (hspec : truthyStr specificPhone = false)
    (hphones : (subs.map (fun s => s.phone)).Nodup) (hid : ∀ u ∈ subs, u.id ≠ "")
    (us : List User) (ress : List DeliveryResult)
    (hres : List.Forall₂ (fun u res => res.success = true → res.phone = u.phone) us ress) :
    ∀ (w : World), (∀ u ∈ us, u ∈ subs) → (us.map (fun s => s.id)).Nodup →
      (∀ u ∈ us, w.store.get ("user:" ++ u.id) = some (.user u)) →
      List.Forall₂
        (fun u res =>
          (res.success = true → ∃ stamp,
            (reconcile env (subs.map toRecipient) specificPhone ress w).store.get
              ("user:" ++ u.id) = some (.user (u.delivered stamp))) ∧
          (res.success = false →
            (reconcile env (subs.map toRecipient) specificPhone ress w).store.get
              ("user:" ++ u.id) = some (.user u)))
        us ress ∧
      (∀ key : String, (∀ u ∈ us, key ≠ "user:" ++ u.id) →
        (reconcile env (subs.map toRecipient) specificPhone ress w).store.get key =
          w.store.get key) := by
  induction hres with
  | nil => intro w _ _ _; exact ⟨List.Forall₂.nil, fun _ _ => rfl⟩
  | @cons u res us ress hhead _ ih =>
    intro w hmem hnd hrec
    simp only [List.map_cons, List.nodup_cons] at hnd
    have hmem2 : ∀ x ∈ us, x ∈ subs := fun x hx => hmem x (List.mem_cons_of_mem _ hx)
    have hkey : ∀ x ∈ us, "user:" ++ u.id ≠ "user:" ++ x.id := by
      intro x hx e
      apply hnd.1
      rw [user_key_injective _ _ e]
      exact List.mem_map_of_mem (fun s => s.id) hx
    by_cases hs : res.success = true
    · have hstep := reconcile_cons_success env subs specificPhone hspec u
        (hmem u (List.mem_cons_self _ _)) hphones (hid u (hmem u (List.mem_cons_self _ _)))
        res ress w hs (hhead hs)
      have hw := recordDelivery_ok env hstore u.id w u (hrec u (List.mem_cons_self _ _))
      obtain ⟨t1, t2⟩ := ih (recordDelivery env u.id w) hmem2 hnd.2 (by
        intro x hx
        rw [hw, Store.get_set_ne _ _ _ _ (fun e => hkey x hx e.symm)]
        exact hrec x (List.mem_cons_of_mem _ hx))
      rw [hstep]
      refine ⟨List.Forall₂.cons
        ⟨fun _ => ⟨env.toISOString (env.clock w.clockReads), ?_⟩, fun hf => ?_⟩ t1, ?_⟩
      · rw [t2 _ hkey, hw, Store.get_set_self]
      · rw [hs] at hf; exact absurd hf (by simp)
      · intro key hk
        rw [t2 key (fun x hx => hk x (List.mem_cons_of_mem _ hx)), hw,
          Store.get_set_ne _ _ _ _ (hk u (List.mem_cons_self _ _))]
    · have hsf : res.success = false := by simpa using hs
      have hstep := reconcile_cons_failure env (subs.map toRecipient) specificPhone res ress w
        hsf
      obtain ⟨t1, t2⟩ := ih w hmem2 hnd.2
        (fun x hx => hrec x (List.mem_cons_of_mem _ hx))
      rw [hstep]
      refine ⟨List.Forall₂.cons ⟨fun ht => absurd ht hs, fun _ => ?_⟩ t1, ?_⟩
      · rw [t2 _ hkey]
        exact hrec u (List.mem_cons_self _ _)
      · intro key hk
        exact t2 key (fun x hx => hk x (List.mem_cons_of_mem _ hx))

theorem reconcile_all_failed (env : Env) (recipients : List Recipient)
    (specificPhone : Option String) :
    ∀ (ress : List DeliveryResult) (w : World), (∀ res ∈ ress, res.success = false) →
      reconcile env recipients specificPhone ress w = w := by
  intro ress
  induction ress with
  | nil => intro w _; rfl
  | cons res rest ih =>
    intro w h
    rw [reconcile_cons_failure env recipients specificPhone res rest w
      (h res (List.mem_cons_self _ _))]
    exact ih w (fun x hx => h x (List.mem_cons_of_mem _ hx))

/-- In a live pass over subscribers whose phones begin with `+`, a successful result reports
the phone of its subscriber. -/
theorem sendBatch_success_phone (env : Env) (message fromNumber : String) :
    ∀ (us : List User) (w : World), (∀ u ∈ us, startsWithChar u.phone '+' = true) →
      List.Forall₂ (fun u res => res.success = true → res.phone = u.phone) us
        (sendBatch env message fromNumber false (us.map toRecipient) w).1 := by
  intro us
  induction us with
  | nil => intro w _; exact List.Forall₂.nil
  | cons u rest ih =>
    intro w h
    simp only [List.map_cons, sendBatch]
    exact List.Forall₂.cons
      (fun hs => sendToRecipient_success_phone env message fromNumber (toRecipient u) w
        (h u (List.mem_cons_self _ _)) hs)
      (ih _ (fun x hx => h x (List.mem_cons_of_mem _ hx)))

/-- The statement of C19 for `dispatch`, from the world after admission. -/
theorem dispatch_reconciles (env : Env) (message fromNumber : String)
    (specificPhone : Option String) (v : World)
    (hspec : truthyStr specificPhone = false) (hstore : ∀ n, env.kvFails n = false)
    (hrec : ∀ u ∈ (getAllSubscribers env v).1,
      v.store.get ("user:" ++ u.id) = some (.user u))
    (hid : ∀ u ∈ (getAllSubscribers env v).1, u.id ≠ "")
    (hplus : ∀ u ∈ (getAllSubscribers env v).1, startsWithChar u.phone '+' = true)
    (hphones : ((getAllSubscribers env v).1.map (fun s => s.phone)).Nodup) :
    ∃ results : List DeliveryResult,
      (dispatch env message fromNumber false specificPhone v).1.results =
        results.map reportResult ∧
      List.Forall₂
        (fun u res =>
          (res.success = true → ∃ stamp,
            (dispatch env message fromNumber false specificPhone v).2.store.get
              ("user:" ++ u.id) = some (.user (u.delivered stamp))) ∧
          (res.success = false →
            (dispatch env message fromNumber false specificPhone v).2.store.get
              ("user:" ++ u.id) = some (.user u)))
        (getAllSubscribers env v).1 results := by
  have hro := getAllSubscribers_onlyReads env v
  have hR : resolveRecipients env specificPhone v =
      ((getAllSubscribers env v).1.map toRecipient, (getAllSubscribers env v).2) := by
    unfold resolveRecipients
    simp only [hspec, Bool.false_eq_true, if_false]
    rfl
  generalize hsubs : (getAllSubscribers env v).1 = subs at hrec hid hplus hphones hR ⊢
  generalize hv1 : (getAllSubscribers env v).2 = v1 at hro hR
  unfold dispatch
  rw [hR]
  simp only
  by_cases hlen : (subs.map toRecipient).length = 0
  · rw [if_pos hlen]
    have he : subs = [] := by simpa using hlen
    subst he
    exact ⟨[], rfl, List.Forall₂.nil⟩
  · rw [if_neg hlen]
    obtain ⟨r1, r2, _, r4⟩ := batchLoop_sendBatch env message fromNumber false
      (subs.map toRecipient) (subs.map toRecipient).length 0
      { results := [], successCount := 0, failureCount := 0 } v1 v1
      (SameButSleeps.same v1) (by omega)
    simp only [List.drop_zero, List.nil_append, Nat.zero_add] at r1 r2 r4
    generalize batchLoop env message fromNumber false (subs.map toRecipient)
      (subs.map toRecipient).length 0
      { results := [], successCount := 0, failureCount := 0 } v1 = B at r1 r2 r4 ⊢
    have hBstore : B.2.store = v.store := by
      rw [r4.1, sendBatch_live_store, hro.1]
    have hrecB : ∀ u ∈ subs, B.2.store.get ("user:" ++ u.id) = some (.user u) := by
      intro u hu; rw [hBstore]; exact hrec u hu
    have hres : List.Forall₂ (fun u res => res.success = true → res.phone = u.phone) subs
        B.1.results := by
      rw [r1]; exact sendBatch_success_phone env message fromNumber subs v1 hplus
    have hinj : ∀ x ∈ subs, ∀ y ∈ subs, x.id = y.id → x = y := by
      intro x hx y hy e
      have h1 := hrec x hx
      rw [e, hrec y hy] at h1
      simp only [Option.some.injEq, KVal.user.injEq] at h1
      exact h1.symm
    have hids : (subs.map (fun s => s.id)).Nodup :=
      List.Nodup.map_on hinj (List.Nodup.of_map _ hphones)
    obtain ⟨t1, _⟩ := reconcile_spec env hstore subs specificPhone hspec hphones hid subs
      B.1.results hres B.2 (fun _ h => h) hids hrecB
    have hfinal : (if (!false && decide (B.1.successCount > 0)) = true then
          reconcile env (subs.map toRecipient) specificPhone B.1.results B.2
        else B.2) =
        reconcile env (subs.map toRecipient) specificPhone B.1.results B.2 := by
      by_cases hc : B.1.successCount > 0
      · simp [hc]
      · have hz : (B.1.results.filter (fun r => r.success)).length = 0 := by
          rw [r1, ← r2]; omega
        have hall : ∀ res ∈ B.1.results, res.success = false := by
          intro res hres
          have := List.length_eq_zero.mp hz
          have hn : res ∉ B.1.results.filter (fun r => r.success) := by rw [this]; simp
          simpa [List.mem_filter, hres] using hn
        simp [hc, reconcile_all_failed env _ specificPhone _ _ hall]
    rw [hfinal]
    exact ⟨B.1.results, rfl, t1⟩

/-- C19. A live dispatch to all subscribers, with a working store, over subscribers as
signup creates them (each record stored under its user key, with a non-empty identifier and
a phone that begins with `+`, the phones pairwise distinct): the record of every subscriber
whose result is a success has `notificationsSent` one higher than before and
`lastNotificationSent` set, and the record of every subscriber whose result is a failure is
unchanged; so no counter is lower than before. -/
theorem handler_reconciles (env : Env) (req : SmsRequest) (w : World) (body : SmsBody)
    (message fromNumber : String) (hreq : ReachesLimiter env req body message fromNumber)
    (hlive : body.testMode = false) (hspec : truthyStr body.specificPhone = false)
    (hgranted : (admission env req w).1 = true) (hstore : ∀ n, env.kvFails n = false)
    (hrec : ∀ u ∈ (getAllSubscribers env (admission env req w).2).1,
      w.store.get ("user:" ++ u.id) = some (.user u))
    (hid : ∀ u ∈ (getAllSubscribers env (admission env req w).2).1, u.id ≠ "")
    (hplus : ∀ u ∈ (getAllSubscribers env (admission env req w).2).1,
      startsWithChar u.phone '+' = true)
    (hphones : ((getAllSubscribers env (admission env req w).2).1.map
      (fun s => s.phone)).Nodup) :
    ∃ results : List DeliveryResult,
      (SendSms.handler env req w).1.results = results.map reportResult ∧
      List.Forall₂
        (fun u res =>
          (res.success = true → ∃ stamp,
            (SendSms.handler env req w).2.store.get ("user:" ++ u.id) =
              some (.user { u with notificationsSent := u.notificationsSent + 1,
                                   lastNotificationSent := some stamp })) ∧
          (res.success = false →
            (SendSms.handler env req w).2.store.get ("user:" ++ u.id) = some (.user u)) ∧
          (∃ after : User,
            (SendSms.handler env req w).2.store.get ("user:" ++ u.id) = some (.user after) ∧
            u.notificationsSent ≤ after.notificationsSent))
        (getAllSubscribers env (admission env req w).2).1 results := by
  rw [handler_granted env req w body message fromNumber hreq hgranted, hlive]
  have hrec2 : ∀ u ∈ (getAllSubscribers env (admission env req w).2).1,
      (admission env req w).2.store.get ("user:" ++ u.id) = some (.user u) := by
    intro u hu
    have hk : ("user:" ++ u.id) ≠ rateLimitKey req :=
      rateLimitKey_ne_user req _ (by simp [String.data_append])
    rw [← hrec u hu]
    unfold admission dateNow
    exact checkRateLimit_get_other _ _ _ _ _ _ _ hk
  obtain ⟨results, h1, h2⟩ := dispatch_reconciles env message fromNumber body.specificPhone
    (admission env req w).2 hspec hstore hrec2 hid hplus hphones
  refine ⟨results, h1, h2.imp ?_⟩
  intro u res ⟨ha, hb⟩
  refine ⟨ha, hb, ?_⟩
  cases hs : res.success with
  | true =>
    obtain ⟨stamp, hst⟩ := ha hs
    exact ⟨_, hst, by simp [User.delivered]⟩
  | false => exact ⟨u, hb hs, le_refl _⟩

/-- The witness of C19: Ann and Bob are subscribed; the provider rejects the requests for
Ann and accepts the one for Bob. -/
theorem handler_reconciles_witness :
    ∃ results : List DeliveryResult,
      (SendSms.handler { steadyEnv with provider := rejectAnn }
        (dispatchRequest "Hi!" false none) twoWorld).1.results = results.map reportResult ∧
      List.Forall₂
        (fun u res =>
          (res.success = true → ∃ stamp,
            (SendSms.handler { steadyEnv with provider := rejectAnn }
              (dispatchRequest "Hi!" false none) twoWorld).2.store.get ("user:" ++ u.id) =
              some (.user { u with notificationsSent := u.notificationsSent + 1,
                                   lastNotificationSent := some stamp })) ∧
          (res.success = false →
            (SendSms.handler { steadyEnv with provider := rejectAnn }
              (dispatchRequest "Hi!" false none) twoWorld).2.store.get ("user:" ++ u.id) =
              some (.user u)) ∧
          (∃ after : User,
            (SendSms.handler { steadyEnv with provider := rejectAnn }
              (dispatchRequest "Hi!" false none) twoWorld).2.store.get ("user:" ++ u.id) =
              some (.user after) ∧
            u.notificationsSent ≤ after.notificationsSent))
        (getAllSubscribers { steadyEnv with provider := rejectAnn }
          (admission { steadyEnv with provider := rejectAnn }
            (dispatchRequest "Hi!" false none) twoWorld).2).1 results :=
  handler_reconciles { steadyEnv with provider := rejectAnn }
    (dispatchRequest "Hi!" false none) twoWorld
    { message := some "Hi!", testMode := false, specificPhone := none } "Hi!" "+15550000000"
    ⟨rfl, ⟨"AC0", "secret", rfl, by decide, rfl, by decide⟩, rfl, by decide, rfl, rfl,
      by decide⟩
    rfl rfl (by decide) (fun _ => rfl) (by decide) (by decide) (by decide) (by decide)

/-! ## The tallies of the summary -/

theorem filter_success_map_reportResult (results : List DeliveryResult) :
    ((results.map reportResult).filter (fun r => r.success)).length =
      (results.filter (fun r => r.success)).length ∧
    ((results.map reportResult).filter (fun r => !r.success)).length =
      (results.filter (fun r => !r.success)).length := by
  induction results with
  | nil => simp
  | cons r rest ih =>
    obtain ⟨ih1, ih2⟩ := ih
    have hs : (reportResult r).success = r.success := rfl
    constructor
    · simp only [List.map_cons, List.filter_cons, hs]
      by_cases h : r.success = true <;> simp [h, ih1]
    · simp only [List.map_cons, List.filter_cons, hs]
      by_cases h : r.success = true <;> simp [h, ih2]

theorem filter_success_add (results : List DeliveryResult) :
    (results.filter (fun r => r.success)).length +
      (results.filter (fun r => !r.success)).length = results.length := by
  induction results with
  | nil => simp
  | cons r rest ih =>
    simp only [List.filter_cons, List.length_cons]
    by_cases h : r.success = true <;> simp [h] <;> omega

/-- C28. In every 200 summary the counts tally the results: `totalSent` is the number of
reported results with `success = true`, `totalFailed` the number with `success = false`, and
their sum is `totalRecipients`, the length of the list of results. -/
theorem handler_counts_tally (env : Env) (req : SmsRequest) (w : World)
    (status : Nat) (text : String) (data : SmsData)
    (h200 : (SendSms.handler env req w).1 = .sent status text data) :
    status = 200 ∧
    data.totalSent = (data.results.filter (fun r => r.success)).length ∧
    data.totalFailed = (data.results.filter (fun r => !r.success)).length ∧
    data.totalSent + data.totalFailed = data.totalRecipients ∧
    data.totalRecipients = data.results.length := by
  obtain ⟨body, message, fromNumber, hreq, hgranted⟩ :=
    handler_sent_inv env req w status text data h200
  rw [handler_granted env req w body message fromNumber hreq hgranted] at h200
  have hne := dispatch_sent_recipients env message fromNumber body.testMode body.specificPhone
    _ status text data h200
  obtain ⟨stamp, hresp⟩ := dispatch_response env message fromNumber body.testMode
    body.specificPhone (admission env req w).2 hne
  rw [hresp] at h200
  simp only [SmsResponse.sent.injEq] at h200
  obtain ⟨hstatus, _, hdata⟩ := h200
  subst hdata
  obtain ⟨f1, f2⟩ := filter_success_map_reportResult
    (sendBatch env message fromNumber body.testMode
      (resolveRecipients env body.specificPhone (admission env req w).2).1
      (resolveRecipients env body.specificPhone (admission env req w).2).2).1
  have f3 := filter_success_add
    (sendBatch env message fromNumber body.testMode
      (resolveRecipients env body.specificPhone (admission env req w).2).1
      (resolveRecipients env body.specificPhone (admission env req w).2).2).1
  have f4 := sendBatch_length env message fromNumber body.testMode
      (resolveRecipients env body.specificPhone (admission env req w).2).1
      (resolveRecipients env body.specificPhone (admission env req w).2).2
  refine ⟨hstatus.symm, f1.symm, f2.symm, ?_, ?_⟩
  · show _ + _ = List.length _
    rw [f3, f4]
  · show List.length _ = List.length _
    rw [List.length_map, f4]

/-- The witness of C28: Ann's requests are rejected and Bob's is accepted. -/
theorem handler_counts_tally_witness :
    (200 : Nat) = 200 ∧
    1 = ([({ phone := "+1***4567", success := false, status := "failed",
              error := some "Failed after retries" } : ReportedResult),
          { phone := "+1***6543", success := true, status := "queued", error := none }].filter
          (fun r => r.success)).length ∧
    1 = ([({ phone := "+1***4567", success := false, status := "failed",
              error := some "Failed after retries" } : ReportedResult),
          { phone := "+1***6543", success := true, status := "queued", error := none }].filter
          (fun r => !r.success)).length ∧
    1 + 1 = 2 ∧
    2 = [({ phone := "+1***4567", success := false, status := "failed",
              error := some "Failed after retries" } : ReportedResult),
          { phone := "+1***6543", success := true, status := "queued", error := none }].length :=
  handler_counts_tally { steadyEnv with provider := rejectAnn }
    (dispatchRequest "Hi!" false none) twoWorld 200
    "SMS sent successfully to 1 recipient(s)"
    { totalSent := 1, totalFailed := 1, totalRecipients := 2, testMode := false,
      results := [{ phone := "+1***4567", success := false, status := "failed",
                    error := some "Failed after retries" },
                  { phone := "+1***6543", success := true, status := "queued", error := none }],
      timestamp := "T1700000000008" }
    (by decide)

/-! ## The result of a failed send -/

/-- C26 (the claim fails). The provider rejects both requests with the message
`Invalid 'To' Phone Number` and the code 21211: the single attempt reports both, the result of
`sendSMSWithRetry` reports `Failed after retries` and no code. -/
theorem sendSMSWithRetry_drops_provider_error :
    (sendSingleSMS numericRejectEnv "+15551234567" "Hi" "+15550000000" emptyWorld).1.error =
      some "Invalid 'To' Phone Number" ∧
    (sendSingleSMS numericRejectEnv "+15551234567" "Hi" "+15550000000"
      emptyWorld).1.errorCode = some (.num 21211) ∧
    (sendSMSWithRetry numericRejectEnv "+15551234567" "Hi" "+15550000000" 2 emptyWorld).1.error =
      some "Failed after retries" ∧
    (sendSMSWithRetry numericRejectEnv "+15551234567" "Hi" "+15550000000" 2
      emptyWorld).1.errorCode = none := by
  decide

/-- C26 (amended). A result of `sendSMSWithRetry` with `success = false` is the fixed object
`{success: false, phone, error: 'Failed after retries'}`, for every provider, number of
retries and phone: it carries neither the message nor the code of the provider.  The result
of a single attempt, `sendSingleSMS`, carries both. -/
theorem sendSMSWithRetry_failure_generic (env : Env) (phone message fromNumber : String)
    (maxRetries : Int) (w : World)
    (hfail : (sendSMSWithRetry env phone message fromNumber maxRetries w).1.success = false) :
    (sendSMSWithRetry env phone message fromNumber maxRetries w).1 =
      { success := false, phone := phone, messageId := none, status := none,
        error := some "Failed after retries", errorCode := none } ∧
    (∀ msg code, ValidPhone phone →
      env.provider w.sends.length (sendRequest phone message fromNumber) = .err msg code →
      (sendSingleSMS env phone message fromNumber w).1 =
        { success := false, phone := phone, messageId := none, status := none,
          error := some msg, errorCode := code }) := by
  constructor
  · rcases sendSMSWithRetry_cases env phone message fromNumber maxRetries w with h | ⟨s, t, h⟩
    · rw [h]; rfl
    · rw [h] at hfail
      simp [attemptResult] at hfail
  · intro msg code hv hp
    rw [sendSingleSMS_valid env phone message fromNumber w hv, hp]
    rfl

/-- The witness of C26: the provider rejects every request with the code 21211. -/
theorem sendSMSWithRetry_failure_generic_witness :
    (sendSMSWithRetry numericRejectEnv "+15551234567" "Hi" "+15550000000" 2 emptyWorld).1 =
      { success := false, phone := "+15551234567", messageId := none, status := none,
        error := some "Failed after retries", errorCode := none } :=
  (sendSMSWithRetry_failure_generic numericRejectEnv "+15551234567" "Hi" "+15550000000" 2
    emptyWorld (by decide)).1

/-! ## Backoff -/

theorem retryAttempts_succ (env : Env) (phone message fromNumber : String)
    (maxRetries : Int) (fuel attempt : Nat) (w : World) :
    retryAttempts env phone message fromNumber maxRetries (fuel + 1) attempt w =
      if (attempt : Int) ≤ maxRetries then
        if (sendSingleSMS env phone message fromNumber w).1.success then 1
        else if isNoRetryCode (sendSingleSMS env phone message fromNumber w).1.errorCode then 1
        else
          1 + retryAttempts env phone message fromNumber maxRetries fuel (attempt + 1)
            (if (attempt : Int) < maxRetries then
              sleep (2 ^ attempt * 1000) (sendSingleSMS env phone message fromNumber w).2
             else (sendSingleSMS env phone message fromNumber w).2)
      else 0 := by
  rw [retryAttempts]

theorem backoffDelays_succ (attempt count : Nat) :
    backoffDelays attempt (count + 1) =
      (2 ^ attempt * 1000 : Int) :: backoffDelays (attempt + 1) count := by
  unfold backoffDelays
  rw [List.range_succ_eq_map, List.map_cons, List.map_map]
  congr 1
  apply List.map_congr_left
  intro i _
  simp only [Function.comp, Nat.add_zero]
  congr 2
  omega

theorem backoffDelays_sum (count : Nat) :
    (backoffDelays 1 count).sum = (2 ^ (count + 1) - 2) * 1000 := by
  induction count with
  | zero => simp [backoffDelays]
  | succ c ih =>
    unfold backoffDelays at ih ⊢
    rw [List.range_succ, List.map_append, List.sum_append, ih]
    simp only [List.map_cons, List.map_nil, List.sum_cons, List.sum_nil]
    ring

/-- If every attempt fails and is not taken for permanent, the loop calls `sendSingleSMS` as
often as the maximum allows, pauses `2 ^ attempt * 1000` ms after every attempt but the last,
and ends without a result. -/
theorem sendSMSWithRetryLoop_backoff (env : Env) (phone message fromNumber : String)
    (maxRetries : Int) :
    ∀ (fuel attempt : Nat) (w : World), (attempt : Int) + fuel = maxRetries + 1 →
      (∀ v : World, w.sends.length ≤ v.sends.length → v.sends.length < w.sends.length + fuel →
        (sendSingleSMS env phone message fromNumber v).1.success = false ∧
        isNoRetryCode (sendSingleSMS env phone message fromNumber v).1.errorCode = false) →
      (sendSMSWithRetryLoop env phone message fromNumber maxRetries fuel attempt w).1 = none ∧
      (sendSMSWithRetryLoop env phone message fromNumber maxRetries fuel attempt w).2.sleeps =
        w.sleeps ++ backoffDelays attempt (fuel - 1) ∧
      retryAttempts env phone message fromNumber maxRetries fuel attempt w = fuel := by
  intro fuel
  induction fuel with
  | zero => intro attempt w _ _; simp [sendSMSWithRetryLoop, retryAttempts, backoffDelays]
  | succ f ih =>
    intro attempt w ha hfail
    have ha2 : (attempt : Int) ≤ maxRetries := by push_cast at ha; omega
    obtain ⟨h1, h2⟩ := hfail w (le_refl _) (by omega)
    obtain ⟨k, hk, hw1⟩ := sendSingleSMS_world env phone message fromNumber w
    rw [sendSMSWithRetryLoop_succ, retryAttempts_succ]
    simp only [ha2, if_true, h1, h2, Bool.false_eq_true, if_false]
    have hstep : ∀ (w2 : World), w2.sends = (sendSingleSMS env phone message fromNumber w).2.sends →
        (sendSMSWithRetryLoop env phone message fromNumber maxRetries f (attempt + 1) w2).1 =
          none ∧
        (sendSMSWithRetryLoop env phone message fromNumber maxRetries f (attempt + 1)
          w2).2.sleeps = w2.sleeps ++ backoffDelays (attempt + 1) (f - 1) ∧
        retryAttempts env phone message fromNumber maxRetries f (attempt + 1) w2 = f := by
      intro w2 hw2
      have hl : w2.sends.length = w.sends.length + k := by rw [hw2, hw1]; simp
      exact ih (attempt + 1) w2 (by push_cast at ha ⊢; omega)
        (fun v hv1 hv2 => hfail v (by omega) (by omega))
    by_cases hlt : (attempt : Int) < maxRetries
    · simp only [hlt, if_true]
      obtain ⟨r1, r2, r3⟩ := hstep (sleep (2 ^ attempt * 1000)
        (sendSingleSMS env phone message fromNumber w).2) rfl
      refine ⟨r1, ?_, by omega⟩
      obtain ⟨g, rfl⟩ : ∃ g, f = g + 1 := ⟨f - 1, by push_cast at ha; omega⟩
      rw [r2, hw1]
      simp only [sleep, Nat.add_sub_cancel, List.append_assoc, List.singleton_append]
      rw [backoffDelays_succ]
    · simp only [hlt, if_false]
      obtain ⟨r1, r2, r3⟩ := hstep (sendSingleSMS env phone message fromNumber w).2 rfl
      refine ⟨r1, ?_, by omega⟩
      have hf0 : f = 0 := by push_cast at ha; omega
      subst hf0
      rw [r2, hw1]
      simp [backoffDelays]

/-- C25. When all `n ≥ 1` attempts of `sendSMSWithRetry` are rejected with codes that the
loop does not take for permanent, the pauses of the run are, in order, `2 ^ k * 1000` ms for
`k = 1, …, n - 1`: one after each failed attempt but the last, none after the last.  Their sum
is `(2 ^ n - 2) * 1000` ms; for the default `n = 2` the one pause is 2000 ms. -/
theorem sendSMSWithRetry_backoff (env : Env) (phone message fromNumber : String)
    (n : Nat) (w : World) (hn : 1 ≤ n) (hv : ValidPhone phone)
    (hfail : ∀ j, j < n → TransientReply
      (env.provider (w.sends.length + j) (sendRequest phone message fromNumber))) :
    (sendSMSWithRetry env phone message fromNumber n w).2.sleeps =
      w.sleeps ++ (List.range (n - 1)).map (fun i => (2 ^ (1 + i) * 1000 : Int)) ∧
    ((List.range (n - 1)).map (fun i => (2 ^ (1 + i) * 1000 : Int))).sum =
      (2 ^ n - 2) * 1000 ∧
    retryAttempts env phone message fromNumber n n 1 w = n ∧
    (sendSMSWithRetry env phone message fromNumber n w).1.success = false ∧
    (n = 2 → (sendSMSWithRetry env phone message fromNumber defaultMaxRetries w).2.sleeps =
      w.sleeps ++ [2000]) := by
  have hall : ∀ v : World, w.sends.length ≤ v.sends.length → v.sends.length < w.sends.length + n →
      (sendSingleSMS env phone message fromNumber v).1.success = false ∧
      isNoRetryCode (sendSingleSMS env phone message fromNumber v).1.errorCode = false := by
    intro v h1 h2
    rw [sendSingleSMS_valid env phone message fromNumber v hv]
    have := hfail (v.sends.length - w.sends.length) (by omega)
    rw [show w.sends.length + (v.sends.length - w.sends.length) = v.sends.length by omega]
      at this
    exact attemptResult_transient phone _ this
  obtain ⟨r1, r2, r3⟩ := sendSMSWithRetryLoop_backoff env phone message fromNumber n n 1 w
    (by push_cast; omega) hall
  have hsleeps : (sendSMSWithRetry env phone message fromNumber n w).2.sleeps =
      w.sleeps ++ (List.range (n - 1)).map (fun i => (2 ^ (1 + i) * 1000 : Int)) := by
    unfold sendSMSWithRetry
    simp only [Int.toNat_ofNat]
    rcases hL : sendSMSWithRetryLoop env phone message fromNumber n n 1 w with ⟨x, v⟩
    rw [hL] at r1 r2
    simp only at r1 r2
    subst r1
    exact r2
  have hres : (sendSMSWithRetry env phone message fromNumber n w).1.success = false := by
    rw [sendSMSWithRetry_result]
    simp only [Int.toNat_ofNat, r1]
    rfl
  refine ⟨hsleeps, ?_, r3, hres, ?_⟩
  · have := backoffDelays_sum (n - 1)
    rw [show n - 1 + 1 = n by omega] at this
    exact this
  · intro h2
    subst h2
    exact hsleeps

/-- The witness of C25: two attempts, both rejected with the transient code 20503. -/
theorem sendSMSWithRetry_backoff_witness :
    (sendSMSWithRetry { calmEnv with provider := rejectAnn } "+15551234567" "Hi" "+15550000000"
      (2 : Nat) emptyWorld).2.sleeps = [2000] :=
  (sendSMSWithRetry_backoff { calmEnv with provider := rejectAnn } "+15551234567" "Hi"
    "+15550000000" 2 emptyWorld (by decide) (by decide)
    (fun _ _ => ⟨"Service unavailable", some (.num 20503), rfl, rfl⟩)).1

/-! ## A phone that fails the length check -/

theorem sendSMSWithRetryLoop_invalid_sends (env : Env) (phone message fromNumber : String)
    (maxRetries : Int) (hv : ¬ ValidPhone phone) :
    ∀ (fuel attempt : Nat) (w : World),
      (sendSMSWithRetryLoop env phone message fromNumber maxRetries fuel attempt w).2.sends =
        w.sends := by
  intro fuel
  induction fuel with
  | zero => intro attempt w; rfl
  | succ f ih =>
    intro attempt w
    rw [sendSMSWithRetryLoop_succ, sendSingleSMS_invalid env phone message fromNumber w hv]
    simp only [Bool.false_eq_true, if_false, isNoRetryCode]
    split_ifs
    · rw [ih]; rfl
    · rw [ih]
    · rfl

/-- C30. For a phone whose digit count is outside 10 to 15 and `maxRetries = n`,
`sendSMSWithRetry` calls `sendSingleSMS` in all `n` iterations and pauses the full backoff
between them, makes no request to the provider and changes nothing else, and returns
`{success: false, phone, error: 'Failed after retries'}`.  With `maxRetries = m ≤ 0` the loop
body does not run: no attempt, no pause, the same result. -/
theorem sendSMSWithRetry_invalid_phone (env : Env) (phone message fromNumber : String)
    (n : Nat) (m : Int) (w : World) (hv : ¬ ValidPhone phone) (hm : m ≤ 0) :
    retryAttempts env phone message fromNumber n n 1 w = n ∧
    (sendSMSWithRetry env phone message fromNumber n w).2 =
      { w with sleeps :=
          w.sleeps ++ (List.range (n - 1)).map (fun i => (2 ^ (1 + i) * 1000 : Int)) } ∧
    (sendSMSWithRetry env phone message fromNumber n w).2.sends = w.sends ∧
    (sendSMSWithRetry env phone message fromNumber n w).1 =
      { success := false, phone := phone, messageId := none, status := none,
        error := some "Failed after retries", errorCode := none } ∧
    (sendSingleSMS env phone message fromNumber w).1.errorCode = none ∧
    retryAttempts env phone message fromNumber m m.toNat 1 w = 0 ∧
    sendSMSWithRetry env phone message fromNumber m w =
      ({ success := false, phone := phone, messageId := none, status := none,
         error := some "Failed after retries", errorCode := none }, w) := by
  have hall : ∀ v : World, w.sends.length ≤ v.sends.length → v.sends.length < w.sends.length + n →
      (sendSingleSMS env phone message fromNumber v).1.success = false ∧
      isNoRetryCode (sendSingleSMS env phone message fromNumber v).1.errorCode = false := by
    intro v _ _
    rw [sendSingleSMS_invalid env phone message fromNumber v hv]
    exact ⟨rfl, rfl⟩
  obtain ⟨r1, r2, r3⟩ := sendSMSWithRetryLoop_backoff env phone message fromNumber n n 1 w
    (by push_cast; omega) hall
  obtain ⟨k, _, hs, hstore, hkv, hclock, hrand⟩ :=
    sendSMSWithRetryLoop_world env phone message fromNumber n n 1 w
  have hm0 : m.toNat = 0 := by omega
  have hsends := sendSMSWithRetryLoop_invalid_sends env phone message fromNumber n hv n 1 w
  have hw : (sendSMSWithRetry env phone message fromNumber n w).2 =
      (sendSMSWithRetryLoop env phone message fromNumber n n 1 w).2 := by
    unfold sendSMSWithRetry
    simp only [Int.toNat_ofNat]
    rcases hL : sendSMSWithRetryLoop env phone message fromNumber n n 1 w with ⟨x, v⟩
    cases x <;> rfl
  refine ⟨r3, ?_, ?_, ?_, ?_, ?_, ?_⟩
  · rw [hw]
    rcases hL : (sendSMSWithRetryLoop env phone message fromNumber n n 1 w).2 with
      ⟨s1, s2, s3, s4, s5, s6⟩
    rw [hL] at hsends hstore hkv hclock hrand r2
    simp only at hsends hstore hkv hclock hrand r2
    subst hsends hstore hkv hclock hrand r2
    rfl
  · rw [hw]; exact hsends
  · rw [sendSMSWithRetry_result]
    simp only [Int.toNat_ofNat, r1]
    rfl
  · rw [sendSingleSMS_invalid env phone message fromNumber w hv]
  · rw [hm0]; rfl
  · unfold sendSMSWithRetry
    rw [hm0]
    rfl

/-- The witness of C30: the phone `5551` with three attempts, and with none. -/
theorem sendSMSWithRetry_invalid_phone_witness :
    retryAttempts calmEnv "5551" "Hi" "+15550000000" (3 : Nat) 3 1 emptyWorld = 3 ∧
    (sendSMSWithRetry calmEnv "5551" "Hi" "+15550000000" (3 : Nat) emptyWorld).2 =
      { emptyWorld with sleeps := [2000, 4000] } :=
  ⟨(sendSMSWithRetry_invalid_phone calmEnv "5551" "Hi" "+15550000000" 3 0 emptyWorld
      (by decide) (by decide)).1,
   (sendSMSWithRetry_invalid_phone calmEnv "5551" "Hi" "+15550000000" 3 0 emptyWorld
      (by decide) (by decide)).2.1⟩

/-! ## A dispatch to one given phone -/

/-- The send to one recipient, in test mode or live, makes no store operation. -/
theorem sendToRecipient_kv (env : Env) (message fromNumber : String) (testMode : Bool)
    (r : Recipient) (w : World) :
    (sendToRecipient env message fromNumber testMode r w).2.store = w.store ∧
    (sendToRecipient env message fromNumber testMode r w).2.kvOps = w.kvOps := by
  cases testMode with
  | true => simp [sendToRecipient, dateNow]
  | false =>
    unfold sendToRecipient
    simp only [Bool.false_eq_true, if_false]
    obtain ⟨_, _, _, h1, h2, _⟩ := sendSMSWithRetry_world env r.phone
      (replaceName message (if r.name != "" then r.name else "Friend")) fromNumber
      defaultMaxRetries w
    exact ⟨h1, h2⟩

theorem sendBatch_kv (env : Env) (message fromNumber : String) (testMode : Bool) :
    ∀ (recipients : List Recipient) (w : World),
      (sendBatch env message fromNumber testMode recipients w).2.store = w.store ∧
      (sendBatch env message fromNumber testMode recipients w).2.kvOps = w.kvOps := by
  intro recipients
  induction recipients with
  | nil => intro w; exact ⟨rfl, rfl⟩
  | cons r rest ih =>
    intro w
    obtain ⟨h1, h2⟩ := sendToRecipient_kv env message fromNumber testMode r w
    obtain ⟨i1, i2⟩ := ih (sendToRecipient env message fromNumber testMode r w).2
    simp only [sendBatch]
    exact ⟨i1.trans h1, i2.trans h2⟩

/-- With a `specificPhone` the reconciliation loop updates nothing. -/
theorem reconcile_specific (env : Env) (recipients : List Recipient)
    (specificPhone : Option String) (h : truthyStr specificPhone = true) :
    ∀ (results : List DeliveryResult) (w : World),
      reconcile env recipients specificPhone results w = w := by
  intro results
  induction results with
  | nil => intro w; rfl
  | cons res rest ih =>
    intro w
    simp [reconcile, h, ih]

/-- A dispatch to a `specificPhone` makes no store operation. -/
theorem dispatch_specific_world (env : Env) (message fromNumber : String) (testMode : Bool)
    (specificPhone : Option String) (w : World) (h : truthyStr specificPhone = true) :
    (dispatch env message fromNumber testMode specificPhone w).2.store = w.store ∧
    (dispatch env message fromNumber testMode specificPhone w).2.kvOps = w.kvOps := by
  unfold dispatch
  have hR : resolveRecipients env specificPhone w =
      ([{ phone := templateStr specificPhone, name := "Test User", id := none }], w) := by
    simp [resolveRecipients, h]
  rw [hR]
  simp only [List.length_singleton, one_ne_zero, if_false]
  obtain ⟨_, _, _, r4⟩ := batchLoop_sendBatch env message fromNumber testMode
    [{ phone := templateStr specificPhone, name := "Test User", id := none }] 1 0
    { results := [], successCount := 0, failureCount := 0 } w w
    (SameButSleeps.same w) (by simp)
  obtain ⟨s1, s2⟩ := sendBatch_kv env message fromNumber testMode
    [{ phone := templateStr specificPhone, name := "Test User", id := none }] w
  simp only [List.drop_zero] at r4
  simp only [reconcile_specific env _ specificPhone h, ite_self, isoNow]
  exact ⟨r4.1.trans s1, r4.2.1.trans s2⟩

/-- C23. An admitted request with a `specificPhone` (a non-empty string) has exactly one
recipient, that phone with the name `Test User`, resolved without a store operation.  The
answer is the 200 summary with `totalRecipients = 1` and the one result of the send to that
recipient.  After admission the handler makes no store operation at all, in test mode or
live, whatever the outcome of the send: the store is the one admission left, and every
record under a `user:` key is the one before the call, also the record of a subscriber with
that phone. -/
theorem handler_specific_phone (env : Env) (req : SmsRequest) (w : World) (body : SmsBody)
    (message fromNumber p : String) (hreq : ReachesLimiter env req body message fromNumber)
    (hgranted : (admission env req w).1 = true)
    (hp : body.specificPhone = some p) (hne : p ≠ "") :
    resolveRecipients env body.specificPhone (admission env req w).2 =
      ([{ phone := p, name := "Test User", id := none }], (admission env req w).2) ∧
    (∃ stamp, (SendSms.handler env req w).1 =
      .sent 200
        ("SMS sent successfully to " ++
          toString ([(sendToRecipient env message fromNumber body.testMode
            { phone := p, name := "Test User", id := none } (admission env req w).2).1].filter
            (fun r => r.success)).length ++ " recipient(s)")
        { totalSent := ([(sendToRecipient env message fromNumber body.testMode
            { phone := p, name := "Test User", id := none } (admission env req w).2).1].filter
            (fun r => r.success)).length,
          totalFailed := ([(sendToRecipient env message fromNumber body.testMode
            { phone := p, name := "Test User", id := none } (admission env req w).2).1].filter
            (fun r => !r.success)).length,
          totalRecipients := 1,
          testMode := body.testMode,
          results := [reportResult (sendToRecipient env message fromNumber body.testMode
            { phone := p, name := "Test User", id := none } (admission env req w).2).1],
          timestamp := stamp }) ∧
    (SendSms.handler env req w).2.store = (admission env req w).2.store ∧
    (SendSms.handler env req w).2.kvOps = (admission env req w).2.kvOps ∧
    (∀ key : String, "user:".data.isPrefixOf key.data = true →
      (SendSms.handler env req w).2.store.get key = w.store.get key) := by
  have ht : truthyStr body.specificPhone = true := by simp [hp, truthyStr, hne]
  have hR : resolveRecipients env body.specificPhone (admission env req w).2 =
      ([{ phone := p, name := "Test User", id := none }], (admission env req w).2) := by
    rw [hp] at ht ⊢
    simp [resolveRecipients, ht, templateStr]
  rw [handler_granted env req w body message fromNumber hreq hgranted]
  obtain ⟨stamp, hresp⟩ := dispatch_response env message fromNumber body.testMode
    body.specificPhone (admission env req w).2 (by rw [hR]; simp)
  obtain ⟨ws, wk⟩ := dispatch_specific_world env message fromNumber body.testMode
    body.specificPhone (admission env req w).2 ht
  refine ⟨hR, ⟨stamp, ?_⟩, ws, wk, ?_⟩
  · rw [hresp, hR]
    rfl
  · intro key hkey
    rw [ws]
    unfold admission dateNow
    rw [checkRateLimit_get_other _ _ _ _ _ _ _ (rateLimitKey_ne_user req key hkey)]

/-- The witness of C23: a live dispatch to the phone of the subscriber Ann, accepted by the
provider; Ann's record is the one before the call. -/
theorem handler_specific_phone_witness :
    (SendSms.handler calmEnv (dispatchRequest "Hi!" false (some "+15551234567")) annWorld).1 =
      .sent 200 "SMS sent successfully to 1 recipient(s)"
        { totalSent := 1, totalFailed := 0, totalRecipients := 1, testMode := false,
          results := [{ phone := "+1***4567", success := true, status := "queued",
                        error := none }],
          timestamp := "T1700000000004" } ∧
    (SendSms.handler calmEnv (dispatchRequest "Hi!" false (some "+15551234567"))
        annWorld).2.store.get "user:user_1700000000000_k3j9x0q2a" =
      annWorld.store.get "user:user_1700000000000_k3j9x0q2a" :=
  ⟨by decide,
   (handler_specific_phone calmEnv (dispatchRequest "Hi!" false (some "+15551234567")) annWorld
    { message := some "Hi!", testMode := false, specificPhone := some "+15551234567" }
    "Hi!" "+15550000000" "+15551234567"
    ⟨rfl, ⟨"AC0", "secret", rfl, by decide, rfl, by decide⟩, rfl, by decide, rfl, rfl,
      by decide⟩
    (by decide) rfl (by decide)).2.2.2.2 "user:user_1700000000000_k3j9x0q2a" (by decide)⟩

/-! ## The size of the rate-limit log -/

/-- What a call of `checkRateLimit` can do to the store: nothing, or the write of the recent
entries with `now` appended (with or without the expiry), the latter only when the recent
entries are fewer than the limit. -/
theorem checkRateLimit_store_cases (env : Env) (now : Int) (key : String)
    (limit windowMs : Int) (w : World) :
    (checkRateLimit env now key limit windowMs w).2.store = w.store ∨
    ∃ requests, requestsOf (w.store.get key) = some requests ∧
      ((recentOf now windowMs requests).length : Int) < limit ∧
      (checkRateLimit env now key limit windowMs w).1 = true ∧
      ((checkRateLimit env now key limit windowMs w).2.store =
          w.store.set key (.log (recentOf now windowMs requests ++ [now])) ∨
       (checkRateLimit env now key limit windowMs w).2.store =
          (w.store.set key (.log (recentOf now windowMs requests ++ [now]))).expire key
            (ceilSeconds windowMs)) := by
  by_cases h0 : env.kvFails w.kvOps = true
  · left; simp [checkRateLimit, kvGet, kvOp, h0]
  · cases hreq : requestsOf (w.store.get key) with
    | none => left; simp [checkRateLimit, kvGet, kvOp, h0, hreq]
    | some requests =>
      by_cases hl : limit ≤ ((requests.filter (fun ts => decide (ts > now - windowMs))).length : Int)
      · left; simp [checkRateLimit, kvGet, kvOp, h0, hreq, hl]
      · by_cases h1 : env.kvFails (w.kvOps + 1) = true
        · left; simp [checkRateLimit, kvGet, kvSet, kvOp, h0, hreq, hl, h1]
        · right
          refine ⟨requests, rfl, by unfold recentOf; omega, ?_, ?_⟩
          · by_cases h2 : env.kvFails (w.kvOps + 2) = true
            · simp [checkRateLimit, kvGet, kvSet, kvExpire, kvOp, h0, hreq, hl, h1, h2]
            · simp [checkRateLimit, kvGet, kvSet, kvExpire, kvOp, h0, hreq, hl, h1, h2]
          · by_cases h2 : env.kvFails (w.kvOps + 2) = true
            · left
              simp [checkRateLimit, kvGet, kvSet, kvExpire, kvOp, h0, hreq, hl, h1, h2, recentOf]
            · right
              simp [checkRateLimit, kvGet, kvSet, kvExpire, kvOp, h0, hreq, hl, h1, h2, recentOf]

/-- One call of `checkRateLimit` leaves the log under its key as it was or stores a log of
at most `limit` entries, each later than `now - windowMs` or `now` itself. -/
theorem checkRateLimit_log_cases (env : Env) (now : Int) (key : String)
    (limit windowMs : Int) (w : World) :
    (checkRateLimit env now key limit windowMs w).2.store.get key = w.store.get key ∨
    ∃ log, (checkRateLimit env now key limit windowMs w).2.store.get key = some (.log log) ∧
      (log.length : Int) ≤ limit ∧ (∀ t ∈ log, t > now - windowMs ∨ t = now) ∧
      (checkRateLimit env now key limit windowMs w).1 = true := by
  rcases checkRateLimit_store_cases env now key limit windowMs w with h | ⟨requests, _, hlt, ht, h⟩
  · left; rw [h]
  · right
    refine ⟨recentOf now windowMs requests ++ [now], ?_, ?_, ?_, ht⟩
    · rcases h with h | h
      · rw [h, Store.get_set_self]
      · rw [h, Store.get_expire, Store.get_set_self]
    · simp only [List.length_append, List.length_singleton]
      push_cast
      omega
    · intro t ht2
      rcases List.mem_append.mp ht2 with h3 | h3
      · left
        unfold recentOf at h3
        simpa using (List.mem_filter.mp h3).2
      · right
        simpa using h3

theorem checkRateLimitAll_logWithin (env : Env) (key : String) (limit : Int) :
    ∀ (calls : List (Int × Int)) (w : World), LogWithin w.store key limit →
      LogWithin (checkRateLimitAll env key limit calls w).store key limit := by
  intro calls
  induction calls with
  | nil => intro w h; exact h
  | cons c rest ih =>
    intro w h
    obtain ⟨now, windowMs⟩ := c
    simp only [checkRateLimitAll]
    apply ih
    rcases checkRateLimit_log_cases env now key limit windowMs w with h1 | ⟨log, h1, h2, _, _⟩
    · unfold LogWithin at h ⊢
      rw [h1]
      exact h
    · exact Or.inr ⟨log, h1, h2⟩

/-- C29. A call of `checkRateLimit` with a window `windowMs > 0` that admits and persists
stores a log of at most `limit` entries, every one of them later than `now - windowMs`; a call
that does not persist leaves the log as it was.  Hence, from a key that holds nothing or the
empty log, after any sequence of calls with the limit `limit ≥ 1` (whatever the clock, the
windows and the failures of the store) the key holds nothing or a log of at most `limit`
timestamps. -/
theorem checkRateLimit_log_bounded (env : Env) (now : Int) (key : String)
    (limit windowMs : Int) (w : World) (calls : List (Int × Int))
    (hlimit : 1 ≤ limit) (hwin : 0 < windowMs)
    (hempty : w.store.get key = none ∨ w.store.get key = some (.log [])) :
    (∀ v : World,
      (checkRateLimit env now key limit windowMs v).2.store.get key = v.store.get key ∨
      ∃ log, (checkRateLimit env now key limit windowMs v).2.store.get key = some (.log log) ∧
        (log.length : Int) ≤ limit ∧ (∀ t ∈ log, t > now - windowMs) ∧
        (checkRateLimit env now key limit windowMs v).1 = true) ∧
    (∀ v : World, env.kvFails v.kvOps = false → env.kvFails (v.kvOps + 1) = false →
      ∀ requests, requestsOf (v.store.get key) = some requests →
      ((recentOf now windowMs requests).length : Int) < limit →
      ∃ log, (checkRateLimit env now key limit windowMs v).2.store.get key = some (.log log) ∧
        (log.length : Int) ≤ limit ∧ (∀ t ∈ log, t > now - windowMs)) ∧
    ((checkRateLimitAll env key limit calls w).store.get key = none ∨
      ∃ log, (checkRateLimitAll env key limit calls w).store.get key = some (.log log) ∧
        (log.length : Int) ≤ limit) := by
  have hone : ∀ v : World,
      (checkRateLimit env now key limit windowMs v).2.store.get key = v.store.get key ∨
      ∃ log, (checkRateLimit env now key limit windowMs v).2.store.get key = some (.log log) ∧
        (log.length : Int) ≤ limit ∧ (∀ t ∈ log, t > now - windowMs) ∧
        (checkRateLimit env now key limit windowMs v).1 = true := by
    intro v
    rcases checkRateLimit_log_cases env now key limit windowMs v with h | ⟨log, h1, h2, h3, h4⟩
    · exact Or.inl h
    · refine Or.inr ⟨log, h1, h2, ?_, h4⟩
      intro t ht
      rcases h3 t ht with h5 | h5
      · exact h5
      · rw [h5]; omega
  refine ⟨hone, ?_, ?_⟩
  · intro v h0 h1 requests hreq hlt
    have hl : ¬ limit ≤ ((requests.filter (fun ts => decide (ts > now - windowMs))).length : Int) := by
      unfold recentOf at hlt; omega
    have hget : (checkRateLimit env now key limit windowMs v).2.store.get key =
        some (.log (recentOf now windowMs requests ++ [now])) := by
      by_cases h2 : env.kvFails (v.kvOps + 2) = true
      · simp [checkRateLimit, kvGet, kvSet, kvExpire, kvOp, h0, hreq, hl, h1, h2, recentOf,
          Store.get_set_self]
      · simp [checkRateLimit, kvGet, kvSet, kvExpire, kvOp, h0, hreq, hl, h1, h2, recentOf,
          Store.get_set_self, Store.get_expire]
    refine ⟨_, hget, ?_, ?_⟩
    · simp only [List.length_append, List.length_singleton]
      push_cast
      omega
    · intro t ht
      rcases List.mem_append.mp ht with h3 | h3
      · unfold recentOf at h3
        simpa using (List.mem_filter.mp h3).2
      · have : t = now := by simpa using h3
        rw [this]; omega
  · apply checkRateLimitAll_logWithin
    rcases hempty with h | h
    · exact Or.inl h
    · exact Or.inr ⟨[], h, by simpa using (by omega : (0 : Int) ≤ limit)⟩

/-- The witness of C29: five calls within a second with the limit 3; the log then holds the
first three readings of the clock. -/
theorem checkRateLimit_log_bounded_witness :
    (checkRateLimitAll calmEnv "k" 3
        [(1000, 60000), (1001, 60000), (1002, 60000), (1003, 60000), (1004, 60000)]
        emptyWorld).store.get "k" = some (.log [1000, 1001, 1002]) ∧
    ((checkRateLimitAll calmEnv "k" 3
        [(1000, 60000), (1001, 60000), (1002, 60000), (1003, 60000), (1004, 60000)]
        emptyWorld).store.get "k" = none ∨
      ∃ log, (checkRateLimitAll calmEnv "k" 3
          [(1000, 60000), (1001, 60000), (1002, 60000), (1003, 60000), (1004, 60000)]
          emptyWorld).store.get "k" = some (.log log) ∧ (log.length : Int) ≤ 3) :=
  ⟨by decide,
   (checkRateLimit_log_bounded calmEnv 1000 "k" 3 60000 emptyWorld
    [(1000, 60000), (1001, 60000), (1002, 60000), (1003, 60000), (1004, 60000)]
    (by decide) (by decide) (Or.inl rfl)).2.2⟩

/-! ## The list of active subscribers -/

/-- One iteration of the loop of `getAllSubscribers`: it makes one or two reads; if one of
them fails the loop ends with the error, otherwise it goes on with the record the key leads
to added, if there is an active one. -/
theorem getAllSubscribersLoop_cons (env : Env) (key : String) (rest : List String)
    (acc : List User) (w : World) :
    ∃ k, 1 ≤ k ∧
      ((getAllSubscribersLoop env (key :: rest) acc w =
          (none, { w with kvOps := w.kvOps + k }) ∧
        env.kvFails (w.kvOps + (k - 1)) = true) ∨
       ((∀ n, w.kvOps ≤ n → n < w.kvOps + k → env.kvFails n = false) ∧
        getAllSubscribersLoop env (key :: rest) acc w =
          getAllSubscribersLoop env rest (acc ++ (activeAt w.store key).toList)
            { w with kvOps := w.kvOps + k })) := by
  by_cases h0 : env.kvFails w.kvOps = true
  · exact ⟨1, le_refl _, Or.inl ⟨by simp [getAllSubscribersLoop, kvGet, kvOp, h0], by simpa using h0⟩⟩
  · have h0f : env.kvFails w.kvOps = false := by simpa using h0
    have hone : ∀ n, w.kvOps ≤ n → n < w.kvOps + 1 → env.kvFails n = false := by
      intro n h1 h2
      have : n = w.kvOps := by omega
      rw [this]; exact h0f
    cases hget : w.store.get key with
    | none =>
      refine ⟨1, le_refl _, Or.inr ⟨hone, ?_⟩⟩
      simp [getAllSubscribersLoop, kvGet, kvOp, h0f, hget, activeAt]
    | some uid =>
      by_cases ht : truthyVal (some uid) = true
      · by_cases h1 : env.kvFails (w.kvOps + 1) = true
        · exact ⟨2, by omega, Or.inl
            ⟨by simp [getAllSubscribersLoop, kvGet, kvOp, h0f, hget, ht, h1], by simpa using h1⟩⟩
        · have h1f : env.kvFails (w.kvOps + 1) = false := by simpa using h1
          have htwo : ∀ n, w.kvOps ≤ n → n < w.kvOps + 2 → env.kvFails n = false := by
            intro n h2 h3
            have : n = w.kvOps ∨ n = w.kvOps + 1 := by omega
            rcases this with e | e <;> rw [e] <;> assumption
          refine ⟨2, by omega, Or.inr ⟨htwo, ?_⟩⟩
          cases hrec : w.store.get ("user:" ++ uid.template) with
          | none =>
            simp [getAllSubscribersLoop, kvGet, kvOp, h0f, hget, ht, h1f, hrec, activeAt]
          | some v =>
            cases v with
            | log ts =>
              simp [getAllSubscribersLoop, kvGet, kvOp, h0f, hget, ht, h1f, hrec, activeAt]
            | str s =>
              simp [getAllSubscribersLoop, kvGet, kvOp, h0f, hget, ht, h1f, hrec, activeAt]
            | user u =>
              by_cases hs : u.status = "active"
              · simp [getAllSubscribersLoop, kvGet, kvOp, h0f, hget, ht, h1f, hrec, activeAt, hs]
              · simp [getAllSubscribersLoop, kvGet, kvOp, h0f, hget, ht, h1f, hrec, activeAt, hs]
      · refine ⟨1, le_refl _, Or.inr ⟨hone, ?_⟩⟩
        simp [getAllSubscribersLoop, kvGet, kvOp, h0f, hget, ht, activeAt]

/-- The loop of `getAllSubscribers` over the index keys: the store is only read; either a
read fails and the loop ends with the error, or every read succeeds and the loop returns the
records the keys lead to, in the order of the keys. -/
theorem getAllSubscribersLoop_spec (env : Env) :
    ∀ (keys : List String) (acc : List User) (w : World),
      w.kvOps ≤ (getAllSubscribersLoop env keys acc w).2.kvOps ∧
      (((getAllSubscribersLoop env keys acc w).1 = none ∧
        ∃ n, w.kvOps ≤ n ∧ n < (getAllSubscribersLoop env keys acc w).2.kvOps ∧
          env.kvFails n = true) ∨
       ((getAllSubscribersLoop env keys acc w).1 = some (acc ++ keys.filterMap (activeAt w.store)) ∧
        ∀ n, w.kvOps ≤ n → n < (getAllSubscribersLoop env keys acc w).2.kvOps →
          env.kvFails n = false)) := by
  intro keys
  induction keys with
  | nil =>
    intro acc w
    refine ⟨le_refl _, Or.inr ⟨by simp [getAllSubscribersLoop], ?_⟩⟩
    intro n h1 h2
    simp only [getAllSubscribersLoop] at h2
    omega
  | cons key rest ih =>
    intro acc w
    obtain ⟨k, hk, h⟩ := getAllSubscribersLoop_cons env key rest acc w
    rcases h with ⟨he, hf⟩ | ⟨hok, he⟩
    · rw [he]
      refine ⟨by simp, Or.inl ⟨rfl, w.kvOps + (k - 1), by omega, ?_, hf⟩⟩
      simp only
      omega
    · rw [he]
      obtain ⟨i1, i2⟩ := ih (acc ++ (activeAt w.store key).toList)
        { w with kvOps := w.kvOps + k }
      simp only at i1 i2
      refine ⟨by omega, ?_⟩
      rcases i2 with ⟨j1, n, j2, j3, j4⟩ | ⟨j1, j2⟩
      · exact Or.inl ⟨j1, n, by omega, j3, j4⟩
      · refine Or.inr ⟨?_, ?_⟩
        · rw [j1, List.filterMap_cons]
          cases activeAt w.store key <;> simp
        · intro n h1 h2
          by_cases hn : n < w.kvOps + k
          · exact hok n h1 hn
          · exact j2 n (by omega) h2

/-- C27. The function `getAllSubscribers` only reads the store.  If every read it makes
succeeds, its result is the list of the specification: the keys `subscriber:*` in
enumeration order, each resolved through the id it holds to the record under `user:<id>`,
kept if the record exists and has the status `active` and skipped otherwise.  If a read
fails the result is the empty list. -/
theorem getAllSubscribers_lists_active (env : Env) (w : World) :
    ((∀ n, w.kvOps ≤ n → n < (getAllSubscribers env w).2.kvOps → env.kvFails n = false) →
      (getAllSubscribers env w).1 = listActive w.store) ∧
    ((∃ n, w.kvOps ≤ n ∧ n < (getAllSubscribers env w).2.kvOps ∧ env.kvFails n = true) →
      (getAllSubscribers env w).1 = []) ∧
    (getAllSubscribers env w).2.store = w.store ∧
    w.kvOps < (getAllSubscribers env w).2.kvOps := by
  by_cases h0 : env.kvFails w.kvOps = true
  · have hg : getAllSubscribers env w = ([], { w with kvOps := w.kvOps + 1 }) := by
      simp [getAllSubscribers, kvKeys, kvOp, h0]
    rw [hg]
    refine ⟨?_, fun _ => rfl, rfl, by simp⟩
    intro hall
    have := hall w.kvOps (le_refl _) (by simp)
    rw [h0] at this
    exact absurd this (by simp)
  · have h0f : env.kvFails w.kvOps = false := by simpa using h0
    by_cases hlen : (w.store.keys "subscriber:").length = 0
    · have hg : getAllSubscribers env w = ([], { w with kvOps := w.kvOps + 1 }) := by
        simp [getAllSubscribers, kvKeys, kvOp, h0f, hlen]
      have hnil : w.store.keys "subscriber:" = [] := List.length_eq_zero.mp hlen
      rw [hg]
      exact ⟨fun _ => by simp [listActive, hnil], fun _ => rfl, rfl, by simp⟩
    · obtain ⟨l1, l2⟩ := getAllSubscribersLoop_spec env (w.store.keys "subscriber:") []
        { w with kvOps := w.kvOps + 1 }
      have hro := getAllSubscribersLoop_onlyReads env (w.store.keys "subscriber:") []
        { w with kvOps := w.kvOps + 1 }
      have hg : getAllSubscribers env w =
          (match (getAllSubscribersLoop env (w.store.keys "subscriber:") []
              { w with kvOps := w.kvOps + 1 }).1 with
            | none => []
            | some subscribers => subscribers,
           (getAllSubscribersLoop env (w.store.keys "subscriber:") []
              { w with kvOps := w.kvOps + 1 }).2) := by
        simp only [getAllSubscribers, kvKeys, kvOp, h0f, hlen, Bool.false_eq_true, if_false, id]
        rcases getAllSubscribersLoop env (w.store.keys "subscriber:") []
          { w with kvOps := w.kvOps + 1 } with ⟨r, v⟩
        cases r <;> rfl
      rw [hg]
      simp only at l1 l2 ⊢
      refine ⟨?_, ?_, hro.1, by omega⟩
      · intro hall
        rcases l2 with ⟨_, n, j2, j3, j4⟩ | ⟨j1, _⟩
        · have := hall n (by omega) j3
          rw [j4] at this
          exact absurd this (by simp)
        · rw [j1]
          simp [listActive]
      · rintro ⟨n, h1, h2, h3⟩
        rcases l2 with ⟨j1, _⟩ | ⟨_, j2⟩
        · rw [j1]
        · by_cases hn : n = w.kvOps
          · rw [hn, h0f] at h3
            exact absurd h3 (by simp)
          · have := j2 n (by omega) h2
            rw [this] at h3
            exact absurd h3 (by simp)

/-! ## Batches -/

theorem batchSlices_succ (recipients : List Recipient) (fuel i : Nat) :
    batchSlices recipients (fuel + 1) i =
      if i < recipients.length then
        ((recipients.drop i).take batchSize) :: batchSlices recipients fuel (i + batchSize)
      else [] := by
  rw [batchSlices]

theorem batchSlices_done (recipients : List Recipient) (fuel i : Nat)
    (h : recipients.length ≤ i) : batchSlices recipients fuel i = [] := by
  cases fuel with
  | zero => rfl
  | succ f => rw [batchSlices_succ, if_neg (by omega)]

/-- The batches are the consecutive slices of five: the `k`-th is the recipients from
`i + 5 k` on, five of them or as many as are left. -/
theorem batchSlices_eq_range (recipients : List Recipient) :
    ∀ (fuel i : Nat), recipients.length ≤ i + fuel →
      batchSlices recipients fuel i =
        (List.range ((recipients.length - i + 4) / 5)).map
          (fun k => (recipients.drop (i + 5 * k)).take 5) := by
  intro fuel
  induction fuel with
  | zero =>
    intro i h
    have : (recipients.length - i + 4) / 5 = 0 := by omega
    simp [batchSlices, this]
  | succ f ih =>
    intro i h
    rw [batchSlices_succ]
    by_cases hi : i < recipients.length
    · rw [if_pos hi, ih (i + batchSize) (by unfold batchSize; omega)]
      have hc : (recipients.length - i + 4) / 5 =
          (recipients.length - (i + batchSize) + 4) / 5 + 1 := by unfold batchSize; omega
      rw [hc, List.range_succ_eq_map, List.map_cons, List.map_map]
      congr 1
      apply List.map_congr_left
      intro k _
      simp only [Function.comp, batchSize]
      congr 2
      omega
    · rw [if_neg hi]
      have : (recipients.length - i + 4) / 5 = 0 := by omega
      simp [this]

theorem batchSlices_join (recipients : List Recipient) :
    ∀ (fuel i : Nat), recipients.length ≤ i + fuel →
      (batchSlices recipients fuel i).flatten = recipients.drop i := by
  intro fuel
  induction fuel with
  | zero =>
    intro i h
    simp only [batchSlices, List.flatten_nil]
    exact (List.drop_eq_nil_of_le (by omega)).symm
  | succ f ih =>
    intro i h
    rw [batchSlices_succ]
    by_cases hi : i < recipients.length
    · rw [if_pos hi, List.flatten_cons, ih (i + batchSize) (by unfold batchSize; omega),
        ← List.drop_drop, List.take_append_drop]
    · rw [if_neg hi]
      simp only [List.flatten_nil]
      exact (List.drop_eq_nil_of_le (by omega)).symm

/-- The batch loop of the handler does what the specification says of the batches it takes:
it sends each batch as a whole and pauses one second after every batch but the last. -/
theorem batchLoop_runBatches (env : Env) (message fromNumber : String) (testMode : Bool)
    (recipients : List Recipient) :
    ∀ (fuel i : Nat) (acc : Tally) (w : World), recipients.length ≤ i + fuel →
      batchLoop env message fromNumber testMode recipients fuel i acc w =
        runBatches env message fromNumber testMode (batchSlices recipients fuel i) acc w := by
  intro fuel
  induction fuel with
  | zero => intro i acc w _; rfl
  | succ f ih =>
    intro i acc w h
    rw [batchLoop_succ, batchSlices_succ]
    by_cases hi : i < recipients.length
    · rw [if_pos hi, if_pos hi]
      by_cases hmore : i + batchSize < recipients.length
      · rw [if_pos hmore, ih _ _ _ (by unfold batchSize at hmore ⊢; omega)]
        obtain ⟨g, rfl⟩ : ∃ g, f = g + 1 := ⟨f - 1, by unfold batchSize at hmore; omega⟩
        rw [batchSlices_succ, if_pos hmore]
        rfl
      · rw [if_neg hmore, batchSlices_done recipients f (i + batchSize) (by omega)]
        cases f with
        | zero => rfl
        | succ g => rw [batchLoop_succ, if_neg hmore]; rfl
    · rw [if_neg hi, if_neg hi]
      rfl

/-- The pauses of the retry loop are appended to the earlier ones, and none of them is a
pause of one second. -/
theorem sendSMSWithRetryLoop_sleeps (env : Env) (phone message fromNumber : String)
    (maxRetries : Int) :
    ∀ (fuel attempt : Nat) (w : World), 1 ≤ attempt →
      ∃ extra, (sendSMSWithRetryLoop env phone message fromNumber maxRetries fuel attempt
          w).2.sleeps = w.sleeps ++ extra ∧ ∀ x ∈ extra, x ≠ 1000 := by
  intro fuel
  induction fuel with
  | zero => intro attempt w _; exact ⟨[], by simp [sendSMSWithRetryLoop], by simp⟩
  | succ f ih =>
    intro attempt w ha
    obtain ⟨k, _, hw1⟩ := sendSingleSMS_world env phone message fromNumber w
    have hs1 : (sendSingleSMS env phone message fromNumber w).2.sleeps = w.sleeps := by
      rw [hw1]
    rw [sendSMSWithRetryLoop_succ]
    by_cases h1 : (attempt : Int) ≤ maxRetries
    · rw [if_pos h1]
      by_cases h2 : (sendSingleSMS env phone message fromNumber w).1.success = true
      · rw [if_pos h2]
        exact ⟨[], by simp [hs1], by simp⟩
      · rw [if_neg h2]
        by_cases h3 : isNoRetryCode (sendSingleSMS env phone message fromNumber w).1.errorCode
            = true
        · rw [if_pos h3]
          exact ⟨[], by simp [hs1], by simp⟩
        · rw [if_neg h3]
          by_cases h4 : (attempt : Int) < maxRetries
          · rw [if_pos h4]
            obtain ⟨extra, e1, e2⟩ := ih (attempt + 1)
              (sleep (2 ^ attempt * 1000) (sendSingleSMS env phone message fromNumber w).2)
              (by omega)
            refine ⟨(2 ^ attempt * 1000 : Int) :: extra, ?_, ?_⟩
            · rw [e1]
              simp [sleep, hs1]
            · intro x hx
              rcases List.mem_cons.mp hx with hx | hx
              · have h2le : (2 : Int) ≤ 2 ^ attempt := by
                  have : (2 : Int) ^ 1 ≤ 2 ^ attempt :=
                    pow_le_pow_right₀ (by norm_num) ha
                  simpa using this
                rw [hx]
                omega
              · exact e2 x hx
          · rw [if_neg h4]
            obtain ⟨extra, e1, e2⟩ := ih (attempt + 1)
              (sendSingleSMS env phone message fromNumber w).2 (by omega)
            exact ⟨extra, by rw [e1, hs1], e2⟩
    · rw [if_neg h1]
      exact ⟨[], by simp, by simp⟩

theorem sendBatch_sleeps (env : Env) (message fromNumber : String) (testMode : Bool) :
    ∀ (recipients : List Recipient) (w : World),
      ∃ extra, (sendBatch env message fromNumber testMode recipients w).2.sleeps =
          w.sleeps ++ extra ∧ ∀ x ∈ extra, x ≠ 1000 := by
  intro recipients
  induction recipients with
  | nil => intro w; exact ⟨[], by simp [sendBatch], by simp⟩
  | cons r rest ih =>
    intro w
    have h1 : ∃ extra, (sendToRecipient env message fromNumber testMode r w).2.sleeps =
        w.sleeps ++ extra ∧ ∀ x ∈ extra, x ≠ 1000 := by
      cases testMode with
      | true => exact ⟨[], by simp [sendToRecipient, dateNow], by simp⟩
      | false =>
        unfold sendToRecipient sendSMSWithRetry
        simp only [Bool.false_eq_true, if_false]
        obtain ⟨extra, e1, e2⟩ := sendSMSWithRetryLoop_sleeps env r.phone
          (replaceName message (if r.name != "" then r.name else "Friend")) fromNumber
          defaultMaxRetries defaultMaxRetries.toNat 1 w (le_refl _)
        refine ⟨extra, ?_, e2⟩
        rcases hL : sendSMSWithRetryLoop env r.phone
          (replaceName message (if r.name != "" then r.name else "Friend")) fromNumber
          defaultMaxRetries defaultMaxRetries.toNat 1 w with ⟨x, v⟩
        rw [hL] at e1
        cases x <;> exact e1
    obtain ⟨x1, a1, a2⟩ := h1
    obtain ⟨x2, b1, b2⟩ := ih (sendToRecipient env message fromNumber testMode r w).2
    refine ⟨x1 ++ x2, ?_, ?_⟩
    · simp only [sendBatch]
      rw [b1, a1, List.append_assoc]
    · intro x hx
      rcases List.mem_append.mp hx with h | h
      · exact a2 x h
      · exact b2 x h

/-- In a run over a list of batches the pauses of one second are one fewer than the
batches. -/
theorem runBatches_sleeps (env : Env) (message fromNumber : String) (testMode : Bool) :
    ∀ (batches : List (List Recipient)) (acc : Tally) (w : World),
      ∃ extra, (runBatches env message fromNumber testMode batches acc w).2.sleeps =
          w.sleeps ++ extra ∧ extra.count 1000 = batches.length - 1 := by
  intro batches
  induction batches with
  | nil => intro acc w; exact ⟨[], by simp [runBatches], by simp⟩
  | cons b rest ih =>
    intro acc w
    obtain ⟨x1, a1, a2⟩ := sendBatch_sleeps env message fromNumber testMode b w
    have hc : x1.count 1000 = 0 := List.count_eq_zero.mpr (fun h => a2 1000 h rfl)
    cases rest with
    | nil =>
      refine ⟨x1, ?_, by simpa using hc⟩
      simp only [runBatches]
      exact a1
    | cons next more =>
      obtain ⟨x2, b1, b2⟩ := ih
        { results := acc.results ++ (sendBatch env message fromNumber testMode b w).1,
          successCount := acc.successCount +
            ((sendBatch env message fromNumber testMode b w).1.filter (fun r => r.success)).length,
          failureCount := acc.failureCount +
            ((sendBatch env message fromNumber testMode b w).1.filter
              (fun r => !r.success)).length }
        (sleep 1000 (sendBatch env message fromNumber testMode b w).2)
      refine ⟨x1 ++ 1000 :: x2, ?_, ?_⟩
      · have hstep : runBatches env message fromNumber testMode (b :: next :: more) acc w =
            runBatches env message fromNumber testMode (next :: more)
              { results := acc.results ++ (sendBatch env message fromNumber testMode b w).1,
                successCount := acc.successCount +
                  ((sendBatch env message fromNumber testMode b w).1.filter
                    (fun r => r.success)).length,
                failureCount := acc.failureCount +
                  ((sendBatch env message fromNumber testMode b w).1.filter
                    (fun r => !r.success)).length }
              (sleep 1000 (sendBatch env message fromNumber testMode b w).2) := rfl
        rw [hstep, b1]
        show ((sendBatch env message fromNumber testMode b w).2.sleeps ++ [1000]) ++ x2 = _
        rw [a1]
        simp only [List.append_assoc, List.singleton_append]
      · rw [List.count_append, hc, List.count_cons_self, b2]
        simp

theorem ceil_div_five (n : Nat) : ⌈(n : ℚ) / 5⌉₊ = (n + 4) / 5 := by
  by_cases h0 : n = 0
  · subst h0; simp
  · have hm : (n + 4) / 5 ≠ 0 := by omega
    rw [Nat.ceil_eq_iff hm]
    have h1 : 5 * ((n + 4) / 5 - 1) < n := by omega
    have h2 : n ≤ 5 * ((n + 4) / 5) := by omega
    constructor
    · rw [lt_div_iff₀ (by norm_num)]
      have : ((5 * ((n + 4) / 5 - 1) : Nat) : ℚ) < n := by exact_mod_cast h1
      push_cast at this ⊢
      linarith
    · rw [div_le_iff₀ (by norm_num)]
      have : ((n : Nat) : ℚ) ≤ ((5 * ((n + 4) / 5) : Nat) : ℚ) := by exact_mod_cast h2
      push_cast at this ⊢
      linarith

/-- C24. The batch loop of a dispatch over `n ≥ 1` recipients takes the batches
`recipients.slice(5 k, 5 k + 5)` for `k = 0, …, ⌈n / 5⌉ - 1`: concatenated in order they are
the list of recipients, there are `⌈n / 5⌉ = (n + 4) / 5` of them, every batch but the last
has five recipients and the last has one to five.  The loop sends each batch as a whole and
pauses one second after every batch that has a successor: the pauses of 1000 ms are
`⌈n / 5⌉ - 1`, none after the last batch. -/
theorem batchLoop_partition (env : Env) (message fromNumber : String) (testMode : Bool)
    (recipients : List Recipient) (acc : Tally) (w : World) (hn : 1 ≤ recipients.length) :
    (batchSlices recipients recipients.length 0).flatten = recipients ∧
    (batchSlices recipients recipients.length 0).length = (recipients.length + 4) / 5 ∧
    1 ≤ (batchSlices recipients recipients.length 0).length ∧
    (batchSlices recipients recipients.length 0).length = ⌈(recipients.length : ℚ) / 5⌉₊ ∧
    (∀ k, k < (batchSlices recipients recipients.length 0).length →
      (batchSlices recipients recipients.length 0)[k]? =
        some ((recipients.drop (5 * k)).take 5)) ∧
    (∀ k b, (batchSlices recipients recipients.length 0)[k]? = some b →
      (k + 1 < (batchSlices recipients recipients.length 0).length → b.length = 5) ∧
      (k + 1 = (batchSlices recipients recipients.length 0).length →
        1 ≤ b.length ∧ b.length ≤ 5)) ∧
    batchLoop env message fromNumber testMode recipients recipients.length 0 acc w =
      runBatches env message fromNumber testMode
        (batchSlices recipients recipients.length 0) acc w ∧
    (∃ extra, (batchLoop env message fromNumber testMode recipients recipients.length 0 acc
        w).2.sleeps = w.sleeps ++ extra ∧
      extra.count 1000 = (recipients.length + 4) / 5 - 1) := by
  have hr := batchSlices_eq_range recipients recipients.length 0 (by omega)
  simp only [Nat.sub_zero, Nat.zero_add] at hr
  have hlen : (batchSlices recipients recipients.length 0).length =
      (recipients.length + 4) / 5 := by rw [hr]; simp
  have hget : ∀ k, k < (batchSlices recipients recipients.length 0).length →
      (batchSlices recipients recipients.length 0)[k]? =
        some ((recipients.drop (5 * k)).take 5) := by
    intro k hk
    rw [hlen] at hk
    rw [hr, List.getElem?_map, List.getElem?_range hk]
    rfl
  have hrun := batchLoop_runBatches env message fromNumber testMode recipients
    recipients.length 0 acc w (by omega)
  refine ⟨?_, hlen, by rw [hlen]; omega, ?_, hget, ?_, hrun, ?_⟩
  · rw [batchSlices_join recipients recipients.length 0 (by omega), List.drop_zero]
  · rw [hlen, ceil_div_five]
  · intro k b hb
    have hk : k < (batchSlices recipients recipients.length 0).length := by
      by_contra hge
      rw [List.getElem?_eq_none (by omega)] at hb
      exact absurd hb (by simp)
    rw [hget k hk] at hb
    have hb2 : b = (recipients.drop (5 * k)).take 5 := (Option.some.inj hb).symm
    rw [hlen] at hk ⊢
    subst hb2
    simp only [List.length_take, List.length_drop]
    constructor
    · intro h; omega
    · intro h; omega
  · obtain ⟨extra, e1, e2⟩ := runBatches_sleeps env message fromNumber testMode
      (batchSlices recipients recipients.length 0) acc w
    rw [hlen] at e2
    exact ⟨extra, by rw [hrun]; exact e1, e2⟩

/-- The witness of C24: a test dispatch to twelve recipients is sent in the batches of five,
five and two, with two pauses of one second. -/
theorem batchLoop_partition_witness :
    (batchSlices (List.replicate 12 bobRecipient) 12 0).map List.length = [5, 5, 2] ∧
    (batchLoop calmEnv "Hi!" "+15550000000" true (List.replicate 12 bobRecipient) 12 0
      { results := [], successCount := 0, failureCount := 0 } emptyWorld).2.sleeps =
      [1000, 1000] ∧
    (batchSlices (List.replicate 12 bobRecipient)
      (List.replicate 12 bobRecipient).length 0).length =
      ((List.replicate 12 bobRecipient).length + 4) / 5 :=
  ⟨by decide, by decide,
   (batchLoop_partition calmEnv "Hi!" "+15550000000" true (List.replicate 12 bobRecipient)
    { results := [], successCount := 0, failureCount := 0 } emptyWorld (by decide)).2.1⟩

/-- The witness of C27: of four index entries only Ann's leads to an active record; with a
failing third read the result is empty. -/
theorem getAllSubscribers_lists_active_witness :
    (getAllSubscribers calmEnv mixedWorld).1 = listActive mixedWorld.store ∧
    (listActive mixedWorld.store).map (fun u => u.name) = ["Ann"] ∧
    (mixedWorld.store.keys "subscriber:").length = 4 ∧
    (getAllSubscribers thirdReadFailsEnv mixedWorld).1 = [] :=
  ⟨(getAllSubscribers_lists_active calmEnv mixedWorld).1 (fun _ _ _ => rfl),
   by decide, by decide,
   (getAllSubscribers_lists_active thirdReadFailsEnv mixedWorld).2.1
     ⟨2, by decide, by decide, rfl⟩⟩

/-! ## The stores that signups reach -/

theorem Store.keys_set (s : Store) (key : String) (v : KVal) :
    (Store.set s key v).map Entry.key =
      if key ∈ s.map Entry.key then s.map Entry.key else s.map Entry.key ++ [key] := by
  induction s with
  | nil => simp [Store.set]
  | cons e rest ih =>
    unfold Store.set
    by_cases h : e.key = key
    · simp [h]
    · have h2 : ¬ key = e.key := fun x => h x.symm
      simp only [beq_iff_eq, h, if_false, List.map_cons, ih, List.mem_cons, h2, false_or]
      split_ifs <;> simp

theorem Store.keys_set_nodup (s : Store) (key : String) (v : KVal)
    (h : (s.map Entry.key).Nodup) : ((Store.set s key v).map Entry.key).Nodup := by
  rw [Store.keys_set]
  split_ifs with hk
  · exact h
  · exact List.Nodup.append h (List.nodup_singleton key) (by simpa using hk)

theorem Store.mem_set (s : Store) (key : String) (v : KVal) (e : Entry)
    (h : e ∈ Store.set s key v) : e = ⟨key, v, none⟩ ∨ e ∈ s := by
  induction s with
  | nil => left; simpa [Store.set] using h
  | cons x rest ih =>
    unfold Store.set at h
    by_cases hk : x.key = key
    · simp only [beq_iff_eq, hk, if_true, List.mem_cons] at h
      rcases h with h | h
      · exact Or.inl h
      · exact Or.inr (List.mem_cons_of_mem _ h)
    · simp only [beq_iff_eq, hk, if_false, List.mem_cons] at h
      rcases h with h | h
      · exact Or.inr (by rw [h]; exact List.mem_cons_self _ _)
      · rcases ih h with h2 | h2
        · exact Or.inl h2
        · exact Or.inr (List.mem_cons_of_mem _ h2)

theorem phone_key_not_user (a : String) :
    ("user:".data.isPrefixOf ("phone:" ++ a).data) = false := by
  simp [String.data_append, List.isPrefixOf]

theorem subscriber_key_not_user (a : String) :
    ("user:".data.isPrefixOf ("subscriber:" ++ a).data) = false := by
  simp [String.data_append, List.isPrefixOf]

theorem phone_key_injective (a b : String) (h : "phone:" ++ a = "phone:" ++ b) : a = b := by
  have := congrArg String.data h
  simp only [String.data_append, List.append_cancel_left_eq] at this
  exact String.ext this

/-- The write of the index entry of a phone that had none keeps the store indexed. -/
theorem PhoneIndexed.set_phone (s : Store) (q : String) (v : KVal) (h : PhoneIndexed s)
    (hfree : truthyVal (s.get ("phone:" ++ q)) = false) :
    PhoneIndexed (s.set ("phone:" ++ q) v) := by
  refine ⟨Store.keys_set_nodup s _ v h.1, ?_⟩
  intro e he hpre u hval
  rcases Store.mem_set s _ v e he with hnew | hold
  · rw [hnew] at hpre
    rw [phone_key_not_user] at hpre
    exact absurd hpre (by simp)
  · obtain ⟨h1, h2⟩ := h.2 e hold hpre u hval
    refine ⟨h1, ?_⟩
    have hne : "phone:" ++ u.phone ≠ "phone:" ++ q := by
      intro heq
      rw [heq] at h2
      rw [h2] at hfree
      simp [truthyVal] at hfree
    rw [Store.get_set_ne _ _ _ _ hne]
    exact h2

/-- The write of a record under the key of its id keeps the store indexed, if the index
entry of its phone holds the record. -/
theorem PhoneIndexed.set_user (s : Store) (u : User) (h : PhoneIndexed s)
    (hidx : s.get ("phone:" ++ u.phone) = some (.user u)) :
    PhoneIndexed (s.set ("user:" ++ u.id) (.user u)) := by
  refine ⟨Store.keys_set_nodup s _ _ h.1, ?_⟩
  intro e he hpre u2 hval
  rcases Store.mem_set s _ _ e he with hnew | hold
  · rw [hnew] at hval ⊢
    simp only [KVal.user.injEq] at hval
    subst hval
    refine ⟨rfl, ?_⟩
    rw [Store.get_set_ne _ _ _ _ (phone_key_ne_user_key _ _)]
    exact hidx
  · obtain ⟨h1, h2⟩ := h.2 e hold hpre u2 hval
    refine ⟨h1, ?_⟩
    rw [Store.get_set_ne _ _ _ _ (phone_key_ne_user_key _ _)]
    exact h2

/-- The write of an entry of the subscriber index keeps the store indexed. -/
theorem PhoneIndexed.set_subscriber (s : Store) (id : String) (v : KVal)
    (h : PhoneIndexed s) : PhoneIndexed (s.set ("subscriber:" ++ id) v) := by
  refine ⟨Store.keys_set_nodup s _ v h.1, ?_⟩
  intro e he hpre u hval
  rcases Store.mem_set s _ v e he with hnew | hold
  · rw [hnew] at hpre
    rw [subscriber_key_not_user] at hpre
    exact absurd hpre (by simp)
  · obtain ⟨h1, h2⟩ := h.2 e hold hpre u hval
    refine ⟨h1, ?_⟩
    rw [Store.get_set_ne _ _ _ _ (phone_key_ne_subscriber_key _ _)]
    exact h2

/-- The writes of `storeSubscriber` are a prefix, ended by the first failure of the store, of
the three writes of one record: under the phone key, under the user key, and the index
entry. -/
theorem storeSubscriber_store_cases (env : Env) (body : SubscribeBody)
    (name formattedPhone : String) (w : World) :
    (storeSubscriber env body name formattedPhone w).2.store = w.store ∨
    ∃ user : User, user.phone = formattedPhone ∧
      ((storeSubscriber env body name formattedPhone w).2.store =
          w.store.set ("phone:" ++ formattedPhone) (.user user) ∨
       (storeSubscriber env body name formattedPhone w).2.store =
          (w.store.set ("phone:" ++ formattedPhone) (.user user)).set ("user:" ++ user.id)
            (.user user) ∨
       (storeSubscriber env body name formattedPhone w).2.store =
          ((w.store.set ("phone:" ++ formattedPhone) (.user user)).set ("user:" ++ user.id)
            (.user user)).set ("subscriber:" ++ user.id) (.str user.id)) := by
  by_cases ht : truthyStr body.timestamp = true <;>
  by_cases h1 : env.kvFails w.kvOps = true <;>
  by_cases h2 : env.kvFails (w.kvOps + 1) = true <;>
  by_cases h3 : env.kvFails (w.kvOps + 1 + 1) = true <;>
  by_cases h4 : env.kvFails (w.kvOps + 1 + 1 + 1) = true <;>
  simp only [storeSubscriber, dateNow, isoNow, kvSet, kvKeys, kvOp, subscribeInternalError, ht,
    h1, h2, h3, h4, if_true, if_false, Bool.false_eq_true, id] <;>
  first
    | exact Or.inl trivial
    | exact Or.inl rfl
    | exact Or.inr ⟨_, rfl, Or.inl rfl⟩
    | exact Or.inr ⟨_, rfl, Or.inr (Or.inl rfl)⟩
    | exact Or.inr ⟨_, rfl, Or.inr (Or.inr rfl)⟩

/-- A signup leaves the store as it was or makes a prefix of the three writes of one record,
for a phone whose index entry was missing. -/
theorem signup_store_cases (env : Env) (body : SubscribeBody) (w : World) :
    (signup env body w).2.store = w.store ∨
    ∃ (q : String) (user : User), truthyVal (w.store.get ("phone:" ++ q)) = false ∧
      user.phone = q ∧
      ((signup env body w).2.store = w.store.set ("phone:" ++ q) (.user user) ∨
       (signup env body w).2.store =
          (w.store.set ("phone:" ++ q) (.user user)).set ("user:" ++ user.id) (.user user) ∨
       (signup env body w).2.store =
          ((w.store.set ("phone:" ++ q) (.user user)).set ("user:" ++ user.id)
            (.user user)).set ("subscriber:" ++ user.id) (.str user.id)) := by
  unfold signup
  split
  · rename_i name phone _ _
    split_ifs
    · exact Or.inl rfl
    · exact Or.inl rfl
    · exact Or.inl rfl
    · simp only
      by_cases h0 : env.kvFails w.kvOps = true
      · left; simp [kvGet, kvOp, h0]
      · have h0f : env.kvFails w.kvOps = false := by simpa using h0
        simp only [kvGet, kvOp, h0f, Bool.false_eq_true, if_false, id]
        by_cases ht : truthyVal (w.store.get ("phone:" ++ formatPhoneNumber phone)) = true
        · left; simp [ht]
        · have htf : truthyVal (w.store.get ("phone:" ++ formatPhoneNumber phone)) = false := by
            simpa using ht
          simp only [htf, Bool.false_eq_true, if_false]
          rcases storeSubscriber_store_cases env body name (formatPhoneNumber phone)
            { w with kvOps := w.kvOps + 1 } with h | ⟨user, hu, h⟩
          · exact Or.inl h
          · exact Or.inr ⟨_, user, htf, hu, h⟩
  · exact Or.inl rfl

theorem signup_phoneIndexed (env : Env) (body : SubscribeBody) (w : World)
    (h : PhoneIndexed w.store) : PhoneIndexed (signup env body w).2.store := by
  rcases signup_store_cases env body w with hs | ⟨q, user, hfree, hu, hs⟩
  · rw [hs]; exact h
  · have h1 := PhoneIndexed.set_phone w.store q (.user user) h hfree
    have hidx : (w.store.set ("phone:" ++ q) (.user user)).get ("phone:" ++ user.phone) =
        some (.user user) := by rw [hu, Store.get_set_self]
    have h2 := PhoneIndexed.set_user _ user h1 hidx
    have h3 := PhoneIndexed.set_subscriber _ user.id (.str user.id) h2
    rcases hs with hs | hs | hs
    · rw [hs]; exact h1
    · rw [hs]; exact h2
    · rw [hs]; exact h3

theorem run_phoneIndexed (env : Env) :
    ∀ (reqs : List SubscribeRequest) (w : World), (∀ req ∈ reqs, req.method = "POST") →
      PhoneIndexed w.store → PhoneIndexed (Subscribe.run env reqs w).store := by
  intro reqs
  induction reqs with
  | nil => intro w _ h; exact h
  | cons req rest ih =>
    intro w hpost h
    simp only [Subscribe.run]
    apply ih _ (fun r hr => hpost r (List.mem_cons_of_mem _ hr))
    have hm := hpost req (List.mem_cons_self _ _)
    unfold Subscribe.handler
    rw [hm]
    simp only [show ("POST" == "OPTIONS") = false by decide,
      show ("POST" == "DELETE") = false by decide, show ("POST" == "POST") = true by decide,
      Bool.false_and, Bool.false_eq_true, if_false, if_true]
    cases req.body with
    | none => exact h
    | some body => exact signup_phoneIndexed env body w h

theorem subscriberRecords_mem (s : Store) (u : User) (h : u ∈ subscriberRecords s) :
    ∃ e ∈ s, "user:".data.isPrefixOf e.key.data = true ∧ e.val = .user u := by
  unfold subscriberRecords at h
  obtain ⟨e, he, hf⟩ := List.mem_filterMap.mp h
  refine ⟨e, he, ?_⟩
  by_cases hp : "user:".data.isPrefixOf e.key.data = true
  · rw [if_pos hp] at hf
    refine ⟨hp, ?_⟩
    cases hv : e.val with
    | log ts => rw [hv] at hf; simp at hf
    | str x => rw [hv] at hf; simp at hf
    | user u2 =>
      rw [hv] at hf
      simp only [Option.some.injEq] at hf
      rw [hf]
  · rw [if_neg hp] at hf
    simp at hf

/-- In an indexed store no two subscriber records have the same phone, and the index entry
of the phone of every subscriber record holds that record. -/
theorem PhoneIndexed.records (s : Store) (h : PhoneIndexed s) :
    ((subscriberRecords s).map User.phone).Nodup ∧
    ∀ u ∈ subscriberRecords s, s.get ("phone:" ++ u.phone) = some (.user u) := by
  have hidx : ∀ u ∈ subscriberRecords s, s.get ("phone:" ++ u.phone) = some (.user u) := by
    intro u hu
    obtain ⟨e, he, hp, hv⟩ := subscriberRecords_mem s u hu
    exact (h.2 e he hp u hv).2
  refine ⟨?_, hidx⟩
  have hkeys : List.Pairwise (fun a b : Entry => a.key ≠ b.key) s := by
    have := h.1
    unfold List.Nodup at this
    rwa [List.pairwise_map] at this
  unfold List.Nodup subscriberRecords
  rw [List.pairwise_map, List.pairwise_filterMap]
  refine hkeys.imp_of_mem ?_
  intro a b ha hb hne u1 hu1 u2 hu2 hphone
  have m1 : u1 ∈ subscriberRecords s := List.mem_filterMap.mpr ⟨a, ha, hu1⟩
  have m2 : u2 ∈ subscriberRecords s := List.mem_filterMap.mpr ⟨b, hb, hu2⟩
  have g1 := hidx u1 m1
  have g2 := hidx u2 m2
  rw [hphone, g2] at g1
  simp only [Option.some.injEq, KVal.user.injEq] at g1
  subst g1
  have ka : a.key = "user:" ++ u2.id := by
    by_cases hp : "user:".data.isPrefixOf a.key.data = true
    · rw [if_pos hp] at hu1
      cases hv : a.val with
      | log ts => rw [hv] at hu1; simp at hu1
      | str x => rw [hv] at hu1; simp at hu1
      | user u3 =>
        rw [hv] at hu1
        simp only [Option.mem_def, Option.some.injEq] at hu1
        subst hu1
        exact (h.2 a ha hp _ hv).1
    · rw [if_neg hp] at hu1
      simp at hu1
  have kb : b.key = "user:" ++ u2.id := by
    by_cases hp : "user:".data.isPrefixOf b.key.data = true
    · rw [if_pos hp] at hu2
      cases hv : b.val with
      | log ts => rw [hv] at hu2; simp at hu2
      | str x => rw [hv] at hu2; simp at hu2
      | user u3 =>
        rw [hv] at hu2
        simp only [Option.mem_def, Option.some.injEq] at hu2
        subst hu2
        exact (h.2 b hb hp _ hv).1
    · rw [if_neg hp] at hu2
      simp at hu2
  exact hne (ka.trans kb.symm)

/-- C21. In the store reached from the empty store by any sequence of `POST` requests to
`api/subscribe.js`, answered 200 or rejected, whatever the failures of the store and the ids
generated, no two subscriber records (the records under the keys `user:*`) have the same
phone, and the index entry `phone:<phone>` of every subscriber record holds that record. -/
theorem signup_phone_unique (env : Env) (reqs : List SubscribeRequest) (w : World)
    (hw : w.store = []) (hpost : ∀ req ∈ reqs, req.method = "POST") :
    ((subscriberRecords (Subscribe.run env reqs w).store).map User.phone).Nodup ∧
    ∀ u ∈ subscriberRecords (Subscribe.run env reqs w).store,
      (Subscribe.run env reqs w).store.get ("phone:" ++ u.phone) = some (.user u) := by
  apply PhoneIndexed.records
  apply run_phoneIndexed env reqs w hpost
  rw [hw]
  exact ⟨List.nodup_nil, by simp⟩

/-- The witness of C21: Ann signs up, signs up again with the same number written
differently, and Bob signs up; the store holds the records of Ann and of Bob. -/
theorem signup_phone_unique_witness :
    (subscriberRecords (Subscribe.run calmEnv
        [signupRequest "Ann" "5551234567", signupRequest "Ann" "(555) 123-4567",
         signupRequest "Bob" "5559876543"] emptyWorld).store).map User.phone =
      ["+15551234567", "+15559876543"] ∧
    ((subscriberRecords (Subscribe.run calmEnv
        [signupRequest "Ann" "5551234567", signupRequest "Ann" "(555) 123-4567",
         signupRequest "Bob" "5559876543"] emptyWorld).store).map User.phone).Nodup :=
  ⟨by decide,
   (signup_phone_unique calmEnv
    [signupRequest "Ann" "5551234567", signupRequest "Ann" "(555) 123-4567",
     signupRequest "Bob" "5559876543"] emptyWorld rfl (by decide)).1⟩

/-! ## The name of a stored subscriber -/

/-- C22 (the code at the failing input). A `POST` with a name of two blanks and a valid phone
is answered 200, and the record written to the store has the empty name: the name is checked
before it is trimmed. -/
theorem signup_blank_name_stored_empty :
    (Subscribe.handler calmEnv (signupRequest "  " "5551234567") emptyWorld).1 =
      .registered 200 "Successfully registered for birthday notifications!"
        { userId := "user_1700000000000_k3j9x0q2a", name := "", phone := "+15551234567",
          totalSubscribers := 1, registeredAt := "T1700000000001" } ∧
    (subscriberRecords (Subscribe.handler calmEnv (signupRequest "  " "5551234567")
      emptyWorld).2.store).map User.name = [""] := by
  decide

/-! ## Independence of the recipients -/

theorem Slot.Traced.grow (message fromNumber : String) (w w2 : World) (slot : Slot)
    (extra : List SendReq) (h : Slot.Traced message fromNumber w slot)
    (hw : w2.sends = w.sends ++ extra) : Slot.Traced message fromNumber w2 slot := by
  intro n hn
  have h1 := h n hn
  have hlt : n < w.sends.length := by
    by_contra hge
    rw [List.getElem?_eq_none (by omega)] at h1
    exact absurd h1 (by simp)
  rw [hw, List.getElem?_append_left hlt]
  exact h1

/-- One attempt keeps the recipient of a send, notes the result of the reply to the request
it makes at the end of the trace, and only adds to the trace. -/
theorem Slot.attempt_spec (env : Env) (message fromNumber : String) (slot : Slot) (w : World)
    (hc : Slot.Consistent env message fromNumber slot)
    (ht : Slot.Traced message fromNumber w slot) :
    (Slot.attempt env message fromNumber slot w).1.recipient = slot.recipient ∧
    Slot.Consistent env message fromNumber (Slot.attempt env message fromNumber slot w).1 ∧
    Slot.Traced message fromNumber (Slot.attempt env message fromNumber slot w).2
      (Slot.attempt env message fromNumber slot w).1 ∧
    (Slot.attempt env message fromNumber slot w).1.attempts ≠ [] ∧
    ∃ extra, (Slot.attempt env message fromNumber slot w).2.sends = w.sends ++ extra := by
  by_cases hv : ValidPhone slot.recipient.phone
  · have hs := sendSingleSMS_valid env slot.recipient.phone
      (replaceName message (if slot.recipient.name != "" then slot.recipient.name else "Friend"))
      fromNumber w hv
    have ha : Slot.attempt env message fromNumber slot w =
        ({ slot with
            attempts := slot.attempts ++ [attemptResult slot.recipient.phone
              (env.provider w.sends.length (requestFor message fromNumber slot.recipient))],
            requests := slot.requests ++ [w.sends.length] },
         { w with sends := w.sends ++ [requestFor message fromNumber slot.recipient] }) := by
      unfold Slot.attempt
      rw [hs]
      simp [requestFor, List.range']
    rw [ha]
    refine ⟨rfl, ⟨?_, ?_⟩, ?_, by simp, ⟨_, rfl⟩⟩
    · intro _
      simp only [List.map_append, List.map_cons, List.map_nil]
      rw [← hc.1 hv]
    · intro hnv
      exact absurd hv hnv
    · intro n hn
      simp only [List.mem_append, List.mem_singleton] at hn
      rcases hn with hn | hn
      · exact Slot.Traced.grow message fromNumber w _ slot _ ht rfl n hn
      · rw [hn]
        simp
  · have hs := sendSingleSMS_invalid env slot.recipient.phone
      (replaceName message (if slot.recipient.name != "" then slot.recipient.name else "Friend"))
      fromNumber w hv
    have h1 : (sendSingleSMS env slot.recipient.phone
        (replaceName message
          (if slot.recipient.name != "" then slot.recipient.name else "Friend"))
        fromNumber w).1.success = false := by rw [hs]
    have ha : Slot.attempt env message fromNumber slot w =
        ({ slot with
            attempts := slot.attempts ++ [(sendSingleSMS env slot.recipient.phone
              (replaceName message
                (if slot.recipient.name != "" then slot.recipient.name else "Friend"))
              fromNumber w).1] }, w) := by
      unfold Slot.attempt
      rw [hs]
      simp [List.range']
    rw [ha]
    refine ⟨rfl, ⟨?_, ?_⟩, ?_, by simp, ⟨[], by simp⟩⟩
    · intro hv2
      exact absurd hv2 hv
    · intro _
      refine ⟨(hc.2 hv).1, ?_⟩
      intro a hmem
      simp only [List.mem_append, List.mem_singleton] at hmem
      rcases hmem with hmem | hmem
      · exact (hc.2 hv).2 a hmem
      · rw [hmem]; exact h1
    · exact ht

theorem startSends_spec (env : Env) (message fromNumber : String) :
    ∀ (batch : List Recipient) (w : World),
      (startSends env message fromNumber batch w).1.map Slot.recipient = batch ∧
      (∀ slot ∈ (startSends env message fromNumber batch w).1,
        Slot.Consistent env message fromNumber slot ∧
        Slot.Traced message fromNumber (startSends env message fromNumber batch w).2 slot ∧
        slot.attempts ≠ []) ∧
      ∃ extra, (startSends env message fromNumber batch w).2.sends = w.sends ++ extra := by
  intro batch
  induction batch with
  | nil => intro w; exact ⟨rfl, by simp [startSends], ⟨[], by simp [startSends]⟩⟩
  | cons r rest ih =>
    intro w
    have h0c : Slot.Consistent env message fromNumber
        { recipient := r, attempts := [], requests := [] } :=
      ⟨fun _ => rfl, fun _ => ⟨rfl, by simp⟩⟩
    have h0t : Slot.Traced message fromNumber w
        { recipient := r, attempts := [], requests := [] } := by
      intro n hn; simp at hn
    obtain ⟨a1, a2, a3, a5, x1, a4⟩ := Slot.attempt_spec env message fromNumber _ w h0c h0t
    obtain ⟨i1, i2, x2, i3⟩ := ih (Slot.attempt env message fromNumber
      { recipient := r, attempts := [], requests := [] } w).2
    simp only [startSends]
    refine ⟨?_, ?_, ⟨x1 ++ x2, ?_⟩⟩
    · simp only [List.map_cons, i1, a1]
    · intro slot hmem
      rcases List.mem_cons.mp hmem with hmem | hmem
      · rw [hmem]
        exact ⟨a2, Slot.Traced.grow message fromNumber _ _ _ x2 a3 i3, a5⟩
      · exact i2 slot hmem
    · rw [i3, a4, List.append_assoc]

theorem map_recipient_set (slots : List Slot) :
    ∀ (j : Nat) (slot slot1 : Slot), slots[j]? = some slot → slot1.recipient = slot.recipient →
      (slots.set j slot1).map Slot.recipient = slots.map Slot.recipient := by
  induction slots with
  | nil => intro j slot slot1 h _; simp at h
  | cons s rest ih =>
    intro j slot slot1 h hr
    cases j with
    | zero =>
      simp only [List.getElem?_cons_zero, Option.some.injEq] at h
      simp [List.set, hr, h]
    | succ k =>
      simp only [List.getElem?_cons_succ] at h
      simp only [List.set, List.map_cons, ih k slot slot1 h hr]

theorem retrySends_spec (env : Env) (message fromNumber : String) :
    ∀ (order : List Nat) (slots : List Slot) (w : World),
      (∀ slot ∈ slots, Slot.Consistent env message fromNumber slot ∧
        Slot.Traced message fromNumber w slot ∧ slot.attempts ≠ []) →
      (retrySends env message fromNumber order slots w).1.map Slot.recipient =
        slots.map Slot.recipient ∧
      (∀ slot ∈ (retrySends env message fromNumber order slots w).1,
        Slot.Consistent env message fromNumber slot ∧
        Slot.Traced message fromNumber (retrySends env message fromNumber order slots w).2
          slot ∧ slot.attempts ≠ []) ∧
      ∃ extra, (retrySends env message fromNumber order slots w).2.sends = w.sends ++ extra := by
  intro order
  induction order with
  | nil => intro slots w h; exact ⟨rfl, h, ⟨[], by simp [retrySends]⟩⟩
  | cons j rest ih =>
    intro slots w h
    simp only [retrySends]
    cases hj : slots[j]? with
    | none => exact ih slots w h
    | some slot =>
      simp only
      by_cases hwait : slot.waiting = true
      · simp only [hwait, if_true]
        have hmem : slot ∈ slots := List.getElem?_mem hj
        obtain ⟨hc, ht, _⟩ := h slot hmem
        obtain ⟨a1, a2, a3, a5, x1, a4⟩ := Slot.attempt_spec env message fromNumber slot
          (sleep (2 ^ 1 * 1000) w) hc ht
        have hall : ∀ s ∈ slots.set j (Slot.attempt env message fromNumber slot
            (sleep (2 ^ 1 * 1000) w)).1,
            Slot.Consistent env message fromNumber s ∧
            Slot.Traced message fromNumber (Slot.attempt env message fromNumber slot
              (sleep (2 ^ 1 * 1000) w)).2 s ∧ s.attempts ≠ [] := by
          intro s hs
          rcases List.mem_or_eq_of_mem_set hs with hs | hs
          · exact ⟨(h s hs).1, Slot.Traced.grow message fromNumber w _ s x1 (h s hs).2.1 a4,
              (h s hs).2.2⟩
          · rw [hs]; exact ⟨a2, a3, a5⟩
        obtain ⟨i1, i2, x2, i3⟩ := ih _ _ hall
        refine ⟨?_, i2, ⟨x1 ++ x2, ?_⟩⟩
        · rw [i1, map_recipient_set slots j slot _ hj a1]
        · rw [i3, a4, List.append_assoc]
          rfl
      · simp only [hwait, Bool.false_eq_true, if_false]
        exact ih slots w h

theorem sendBatchTogether_spec (env : Env) (arrival : Nat → Nat) (message fromNumber : String)
    (offset : Nat) (batch : List Recipient) (w : World) :
    (sendBatchTogether env arrival message fromNumber offset batch w).1.map Slot.recipient =
      batch ∧
    (∀ slot ∈ (sendBatchTogether env arrival message fromNumber offset batch w).1,
      Slot.Consistent env message fromNumber slot ∧
      Slot.Traced message fromNumber
        (sendBatchTogether env arrival message fromNumber offset batch w).2 slot ∧
      slot.attempts ≠ []) ∧
    ∃ extra, (sendBatchTogether env arrival message fromNumber offset batch w).2.sends =
      w.sends ++ extra := by
  obtain ⟨a1, a2, x1, a3⟩ := startSends_spec env message fromNumber batch w
  obtain ⟨b1, b2, x2, b3⟩ := retrySends_spec env message fromNumber
    (retryOrder arrival offset batch.length) _ _ a2
  unfold sendBatchTogether
  refine ⟨by rw [b1, a1], b2, ⟨x1 ++ x2, ?_⟩⟩
  rw [b3, a3, List.append_assoc]

theorem batchLoopTogether_succ (env : Env) (arrival : Nat → Nat) (message fromNumber : String)
    (recipients : List Recipient) (fuel i : Nat) (acc : List Slot) (w : World) :
    batchLoopTogether env arrival message fromNumber recipients (fuel + 1) i acc w =
      if i < recipients.length then
        batchLoopTogether env arrival message fromNumber recipients fuel (i + batchSize)
          (acc ++ (sendBatchTogether env arrival message fromNumber i
            ((recipients.drop i).take batchSize) w).1)
          (if i + batchSize < recipients.length then
            sleep 1000 (sendBatchTogether env arrival message fromNumber i
              ((recipients.drop i).take batchSize) w).2
           else (sendBatchTogether env arrival message fromNumber i
              ((recipients.drop i).take batchSize) w).2)
      else (acc, w) := by
  rw [batchLoopTogether]

/-- The loop with the sends started together ends with one send for each recipient, in the
order of the recipients; the attempts noted for each are the replies to its own requests, and
the places noted are those of its requests in the provider trace. -/
theorem batchLoopTogether_spec (env : Env) (arrival : Nat → Nat) (message fromNumber : String)
    (recipients : List Recipient) :
    ∀ (fuel i : Nat) (acc : List Slot) (w : World), recipients.length ≤ i + fuel →
      (∀ slot ∈ acc, Slot.Consistent env message fromNumber slot ∧
        Slot.Traced message fromNumber w slot ∧ slot.attempts ≠ []) →
      (batchLoopTogether env arrival message fromNumber recipients fuel i acc w).1.map
          Slot.recipient = acc.map Slot.recipient ++ recipients.drop i ∧
      (∀ slot ∈ (batchLoopTogether env arrival message fromNumber recipients fuel i acc w).1,
        Slot.Consistent env message fromNumber slot ∧
        Slot.Traced message fromNumber
          (batchLoopTogether env arrival message fromNumber recipients fuel i acc w).2 slot ∧
        slot.attempts ≠ []) ∧
      ∃ extra, (batchLoopTogether env arrival message fromNumber recipients fuel i acc
        w).2.sends = w.sends ++ extra := by
  intro fuel
  induction fuel with
  | zero =>
    intro i acc w hlen h
    refine ⟨?_, h, ⟨[], by simp [batchLoopTogether]⟩⟩
    simp only [batchLoopTogether]
    rw [List.drop_eq_nil_of_le (by omega), List.append_nil]
  | succ f ih =>
    intro i acc w hlen h
    rw [batchLoopTogether_succ]
    by_cases hi : i < recipients.length
    · rw [if_pos hi]
      obtain ⟨a1, a2, x1, a3⟩ := sendBatchTogether_spec env arrival message fromNumber i
        ((recipients.drop i).take batchSize) w
      have hw : ∃ w2 : World,
          (if i + batchSize < recipients.length then
            sleep 1000 (sendBatchTogether env arrival message fromNumber i
              ((recipients.drop i).take batchSize) w).2
           else (sendBatchTogether env arrival message fromNumber i
              ((recipients.drop i).take batchSize) w).2) = w2 ∧
          w2.sends = (sendBatchTogether env arrival message fromNumber i
              ((recipients.drop i).take batchSize) w).2.sends := by
        split_ifs
        · exact ⟨_, rfl, rfl⟩
        · exact ⟨_, rfl, rfl⟩
      obtain ⟨w2, hw2, hs2⟩ := hw
      rw [hw2]
      have hall : ∀ slot ∈ acc ++ (sendBatchTogether env arrival message fromNumber i
          ((recipients.drop i).take batchSize) w).1,
          Slot.Consistent env message fromNumber slot ∧
          Slot.Traced message fromNumber w2 slot ∧ slot.attempts ≠ [] := by
        intro slot hmem
        rcases List.mem_append.mp hmem with hmem | hmem
        · exact ⟨(h slot hmem).1, Slot.Traced.grow message fromNumber w w2 slot x1
            (h slot hmem).2.1 (by rw [hs2, a3]), (h slot hmem).2.2⟩
        · exact ⟨(a2 slot hmem).1, Slot.Traced.grow message fromNumber _ w2 slot []
            (a2 slot hmem).2.1 (by rw [hs2, List.append_nil]), (a2 slot hmem).2.2⟩
      obtain ⟨i1, i2, x2, i3⟩ := ih (i + batchSize) _ w2
        (by unfold batchSize; omega) hall
      refine ⟨?_, i2, ⟨x1 ++ x2, ?_⟩⟩
      · rw [i1, List.map_append, a1, List.append_assoc, ← List.drop_drop,
          List.take_append_drop]
      · rw [i3, hs2, a3, List.append_assoc]
    · rw [if_neg hi]
      refine ⟨?_, h, ⟨[], by simp⟩⟩
      rw [List.drop_eq_nil_of_le (by omega), List.append_nil]

theorem Slot.result_congr (s1 s2 : Slot) (hr : s2.recipient = s1.recipient)
    (ha : s1.attempts = s2.attempts) : s1.result = s2.result := by
  unfold Slot.result
  rw [ha, hr]

theorem Slot.result_of_agree (env1 env2 : Env) (message fromNumber : String) (s1 s2 : Slot)
    (hr : s2.recipient = s1.recipient)
    (c1 : Slot.Consistent env1 message fromNumber s1)
    (c2 : Slot.Consistent env2 message fromNumber s2)
    (hagree :
      s1.requests.map (fun n => env1.provider n (requestFor message fromNumber s1.recipient)) =
      s2.requests.map (fun n => env2.provider n (requestFor message fromNumber s2.recipient))) :
    s1.result = s2.result := by
  by_cases hv : ValidPhone s1.recipient.phone
  · apply Slot.result_congr s1 s2 hr
    have hv2 : ValidPhone s2.recipient.phone := by rw [hr]; exact hv
    have e1 := c1.1 hv
    have e2 := c2.1 hv2
    rw [hr] at hagree
    have m := congrArg (List.map (attemptResult s1.recipient.phone)) hagree
    simp only [List.map_map] at m
    rw [e1, e2, hr]
    exact m
  · have hv2 : ¬ ValidPhone s2.recipient.phone := by rw [hr]; exact hv
    have f1 : s1.attempts.find? (fun r => r.success) = none :=
      List.find?_eq_none.mpr (fun a ha => by simp [(c1.2 hv).2 a ha])
    have f2 : s2.attempts.find? (fun r => r.success) = none :=
      List.find?_eq_none.mpr (fun a ha => by simp [(c2.2 hv2).2 a ha])
    unfold Slot.result
    rw [f1, f2, hr]

theorem retryOrder_perm (arrival : Nat → Nat) (offset count : Nat) :
    (retryOrder arrival offset count).Perm (List.range count) :=
  List.perm_insertionSort _ _

theorem Slot.attempt_attempts (env : Env) (message fromNumber : String) (slot : Slot)
    (w : World) :
    ∃ x, (Slot.attempt env message fromNumber slot w).1.attempts = slot.attempts ++ [x] :=
  ⟨_, rfl⟩

theorem Slot.waiting_false_of_append (slot slot1 : Slot) (x : DeliveryResult)
    (h : slot.waiting = true) (h1 : slot1.attempts = slot.attempts ++ [x]) :
    slot1.waiting = false := by
  unfold Slot.waiting at h ⊢
  rw [h1]
  split at h
  · rename_i r heq
    rw [heq]
    rfl
  · exact absurd h (by simp)

/-- A send that still goes on after the second attempts is one whose position was not in
the order. -/
theorem retrySends_waiting (env : Env) (message fromNumber : String) :
    ∀ (order : List Nat) (slots : List Slot) (w : World) (j : Nat) (slot1 : Slot),
      (retrySends env message fromNumber order slots w).1[j]? = some slot1 →
      slot1.waiting = true → j ∉ order ∧ slots[j]? = some slot1 := by
  intro order
  induction order with
  | nil =>
    intro slots w j slot1 h _
    exact ⟨by simp, h⟩
  | cons k rest ih =>
    intro slots w j slot1 h hwait
    simp only [retrySends] at h
    cases hk : slots[k]? with
    | none =>
      rw [hk] at h
      obtain ⟨i1, i2⟩ := ih slots w j slot1 h hwait
      refine ⟨?_, i2⟩
      intro hmem
      rcases List.mem_cons.mp hmem with e | e
      · rw [e, hk] at i2
        exact absurd i2 (by simp)
      · exact i1 e
    | some slot =>
      rw [hk] at h
      simp only at h
      by_cases hw : slot.waiting = true
      · simp only [hw, if_true] at h
        obtain ⟨i1, i2⟩ := ih _ _ j slot1 h hwait
        obtain ⟨x, hx⟩ := Slot.attempt_attempts env message fromNumber slot
          (sleep (2 ^ 1 * 1000) w)
        have hnw := Slot.waiting_false_of_append slot _ x hw hx
        have hklt : k < slots.length := by
          by_contra hge
          rw [List.getElem?_eq_none (by omega)] at hk
          exact absurd hk (by simp)
        by_cases hjk : j = k
        · rw [hjk, List.getElem?_set_self hklt] at i2
          rw [← Option.some.inj i2, hnw] at hwait
          exact absurd hwait (by simp)
        · rw [List.getElem?_set_ne (fun e => hjk e.symm)] at i2
          refine ⟨?_, i2⟩
          intro hmem
          rcases List.mem_cons.mp hmem with e | e
          · exact hjk e
          · exact i1 e
      · simp only [hw, Bool.false_eq_true, if_false] at h
        obtain ⟨i1, i2⟩ := ih slots w j slot1 h hwait
        refine ⟨?_, i2⟩
        intro hmem
        rcases List.mem_cons.mp hmem with e | e
        · rw [e, hk] at i2
          rw [← Option.some.inj i2] at hwait
          exact hw hwait
        · exact i1 e

/-- Every send of a batch started together has finished when the batch ends. -/
theorem sendBatchTogether_finished (env : Env) (arrival : Nat → Nat)
    (message fromNumber : String) (offset : Nat) (batch : List Recipient) (w : World) :
    ∀ slot ∈ (sendBatchTogether env arrival message fromNumber offset batch w).1,
      slot.waiting = false := by
  intro slot hmem
  obtain ⟨j, hj⟩ := List.mem_iff_getElem?.mp hmem
  by_contra hw
  have hwait : slot.waiting = true := by simpa using hw
  have hlen : (sendBatchTogether env arrival message fromNumber offset batch w).1.length =
      batch.length := by
    have := congrArg List.length
      (sendBatchTogether_spec env arrival message fromNumber offset batch w).1
    simpa using this
  have hjlt : j < batch.length := by
    rw [← hlen]
    by_contra hge
    rw [List.getElem?_eq_none (by omega)] at hj
    exact absurd hj (by simp)
  unfold sendBatchTogether at hj
  obtain ⟨hnot, _⟩ := retrySends_waiting env message fromNumber _ _ _ j slot hj hwait
  exact hnot (((retryOrder_perm arrival offset batch.length).mem_iff).mpr
    (List.mem_range.mpr hjlt))

theorem batchLoopTogether_finished (env : Env) (arrival : Nat → Nat)
    (message fromNumber : String) (recipients : List Recipient) :
    ∀ (fuel i : Nat) (acc : List Slot) (w : World), (∀ slot ∈ acc, slot.waiting = false) →
      ∀ slot ∈ (batchLoopTogether env arrival message fromNumber recipients fuel i acc w).1,
        slot.waiting = false := by
  intro fuel
  induction fuel with
  | zero => intro i acc w h; exact h
  | succ f ih =>
    intro i acc w h
    rw [batchLoopTogether_succ]
    split_ifs
    · apply ih
      intro slot hmem
      rcases List.mem_append.mp hmem with hm | hm
      · exact h slot hm
      · exact sendBatchTogether_finished env arrival message fromNumber i _ w slot hm
    · apply ih
      intro slot hmem
      rcases List.mem_append.mp hmem with hm | hm
      · exact h slot hm
      · exact sendBatchTogether_finished env arrival message fromNumber i _ w slot hm
    · exact h

/-! ## The two orders of a batch agree when the provider does not depend on the order -/

theorem find_success_map_const (requests : List Nat) (a : DeliveryResult)
    (hne : requests ≠ []) :
    (requests.map (fun _ => a)).find? (fun r => r.success) =
      if a.success = true then some a else none := by
  cases requests with
  | nil => exact absurd rfl hne
  | cons n rest =>
    by_cases ha : a.success = true
    · simp [List.find?_cons, ha]
    · simp only [ha, if_false]
      apply List.find?_eq_none.mpr
      intro x hx
      simp only [List.mem_map] at hx
      obtain ⟨_, _, hx⟩ := hx
      rw [← hx]
      simpa using ha

theorem Slot.result_steady (env : Env) (message fromNumber : String) (slot : Slot)
    (hstat : ∀ n m q, env.provider n q = env.provider m q)
    (hc : Slot.Consistent env message fromNumber slot) (hne : slot.attempts ≠ []) :
    slot.result = steadyResult slot.recipient
      (env.provider 0 (requestFor message fromNumber slot.recipient)) := by
  unfold Slot.result steadyResult
  by_cases hv : ValidPhone slot.recipient.phone
  · have e := hc.1 hv
    have e2 : slot.attempts = slot.requests.map (fun _ => attemptResult slot.recipient.phone
        (env.provider 0 (requestFor message fromNumber slot.recipient))) := by
      rw [e]
      apply List.map_congr_left
      intro n _
      rw [hstat n 0]
    have hreq : slot.requests ≠ [] := by
      intro h0
      rw [h0] at e2
      exact hne e2
    rw [e2, find_success_map_const _ _ hreq]
    by_cases ha : (attemptResult slot.recipient.phone
        (env.provider 0 (requestFor message fromNumber slot.recipient))).success = true
    · rw [if_pos ha, if_pos ⟨hv, ha⟩]
    · rw [if_neg ha, if_neg (fun h => ha h.2)]
      rfl
  · have f1 : slot.attempts.find? (fun r => r.success) = none :=
      List.find?_eq_none.mpr (fun a ha => by simp [(hc.2 hv).2 a ha])
    rw [f1, if_neg (fun h => hv h.1)]
    rfl

theorem sendToRecipient_steady (env : Env) (message fromNumber : String) (r : Recipient)
    (w : World) (hstat : ∀ n m q, env.provider n q = env.provider m q) :
    (sendToRecipient env message fromNumber false r w).1 =
      steadyResult r (env.provider 0 (requestFor message fromNumber r)) := by
  unfold sendToRecipient
  simp only [Bool.false_eq_true, if_false]
  rw [sendSMSWithRetry_result]
  unfold steadyResult
  by_cases hv : ValidPhone r.phone
  · have hq : ∀ n, env.provider n (sendRequest r.phone
        (replaceName message (if r.name != "" then r.name else "Friend")) fromNumber) =
        env.provider 0 (requestFor message fromNumber r) := fun n => hstat n 0 _
    cases hc : env.provider 0 (requestFor message fromNumber r) with
    | ok sid status =>
      obtain ⟨r1, _⟩ := sendSMSWithRetryLoop_success_after env r.phone
        (replaceName message (if r.name != "" then r.name else "Friend")) fromNumber
        defaultMaxRetries hv sid status 0 defaultMaxRetries.toNat 1 w (by decide) (by decide)
        (fun j hj => absurd hj (by omega)) (by rw [hq, hc])
      rw [r1]
      show attemptResult r.phone (.ok sid status) = _
      rw [if_pos ⟨hv, rfl⟩]
    | err msg code =>
      by_cases hperm : isNoRetryCode code = true
      · have hloop : (sendSMSWithRetryLoop env r.phone
            (replaceName message (if r.name != "" then r.name else "Friend")) fromNumber
            defaultMaxRetries defaultMaxRetries.toNat 1 w).1 = none := by
          have h2 : defaultMaxRetries.toNat = 1 + 1 := by decide
          rw [h2, sendSMSWithRetryLoop_succ, sendSingleSMS_valid env r.phone _ fromNumber w hv,
            hq, hc]
          simp [attemptResult, hperm, defaultMaxRetries]
        rw [hloop]
        show failedAfterRetries r.phone = _
        rw [if_neg (fun h => by simpa [attemptResult] using h.2)]
      · obtain ⟨r1, _⟩ := sendSMSWithRetryLoop_all_transient env r.phone
          (replaceName message (if r.name != "" then r.name else "Friend")) fromNumber
          defaultMaxRetries hv defaultMaxRetries.toNat 1 w (by decide)
          (fun j _ => ⟨msg, code, by rw [hq, hc], by simpa using hperm⟩)
        rw [r1]
        show failedAfterRetries r.phone = _
        rw [if_neg (fun h => by simpa [attemptResult] using h.2)]
  · obtain ⟨r1, _⟩ := sendSMSWithRetryLoop_backoff env r.phone
      (replaceName message (if r.name != "" then r.name else "Friend")) fromNumber
      defaultMaxRetries defaultMaxRetries.toNat 1 w (by decide)
      (fun v _ _ => by
        rw [sendSingleSMS_invalid env r.phone _ fromNumber v hv]
        exact ⟨rfl, rfl⟩)
    rw [r1]
    show failedAfterRetries r.phone = _
    rw [if_neg (fun h => hv h.1)]

theorem sendBatch_steady (env : Env) (message fromNumber : String)
    (hstat : ∀ n m q, env.provider n q = env.provider m q) :
    ∀ (recipients : List Recipient) (w : World),
      (sendBatch env message fromNumber false recipients w).1 =
        recipients.map (fun r =>
          steadyResult r (env.provider 0 (requestFor message fromNumber r))) := by
  intro recipients
  induction recipients with
  | nil => intro w; rfl
  | cons r rest ih =>
    intro w
    simp only [sendBatch, List.map_cons]
    rw [ih, sendToRecipient_steady env message fromNumber r w hstat]

/-- At a provider whose replies do not depend on the place of a request in the trace, the
sends started together return, in whatever order the replies arrive, the results of the pass
over the recipients in list order. -/
theorem sendsTogether_eq_sendBatch (env : Env) (arrival : Nat → Nat)
    (message fromNumber : String) (recipients : List Recipient) (w v : World)
    (hstat : ∀ n m q, env.provider n q = env.provider m q) :
    (batchLoopTogether env arrival message fromNumber recipients recipients.length 0 []
      w).1.map Slot.result = (sendBatch env message fromNumber false recipients v).1 := by
  obtain ⟨a1, a2, _⟩ := batchLoopTogether_spec env arrival message fromNumber recipients
    recipients.length 0 [] w (by omega) (by simp)
  simp only [List.map_nil, List.nil_append, List.drop_zero] at a1
  rw [sendBatch_steady env message fromNumber hstat]
  conv_rhs => rw [← a1]
  rw [List.map_map]
  apply List.map_congr_left
  intro slot hmem
  obtain ⟨c, _, hne⟩ := a2 slot hmem
  exact Slot.result_steady env message fromNumber slot hstat c hne

/-- C20. In a live dispatch with the sends of each batch started together, whatever the
order in which the replies arrive, the result of the send to the `i`-th recipient depends on
the provider only through the replies to the requests made for that recipient.  Take two runs
over the same recipients, with any two providers, any two orders of arrival and any two
worlds: if the requests made for the recipient get, in order, the same replies in both runs,
the two sends have finished with the same result for the recipient (and the same is
reported), whatever the replies to the requests for the others.  Each run ends with one send
for every recipient, in order, and a request of the handler that is admitted and has a
recipient is answered with the 200 summary whatever the provider answers. -/
theorem sends_independent (env1 env2 : Env) (arrival1 arrival2 : Nat → Nat)
    (message fromNumber : String) (recipients : List Recipient) (w1 w2 : World) (i : Nat)
    (s1 s2 : Slot)
    (h1 : (batchLoopTogether env1 arrival1 message fromNumber recipients recipients.length 0 []
      w1).1[i]? = some s1)
    (h2 : (batchLoopTogether env2 arrival2 message fromNumber recipients recipients.length 0 []
      w2).1[i]? = some s2)
    (hagree :
      s1.requests.map (fun n => env1.provider n (requestFor message fromNumber s1.recipient)) =
      s2.requests.map (fun n => env2.provider n (requestFor message fromNumber s2.recipient))) :
    recipients[i]? = some s1.recipient ∧ s2.recipient = s1.recipient ∧
    s1.waiting = false ∧ s2.waiting = false ∧
    (∀ n ∈ s1.requests,
      (batchLoopTogether env1 arrival1 message fromNumber recipients recipients.length 0 []
        w1).2.sends[n]? = some (requestFor message fromNumber s1.recipient)) ∧
    (∀ n ∈ s2.requests,
      (batchLoopTogether env2 arrival2 message fromNumber recipients recipients.length 0 []
        w2).2.sends[n]? = some (requestFor message fromNumber s2.recipient)) ∧
    s1.result = s2.result ∧
    reportResult s1.result = reportResult s2.result ∧
    (batchLoopTogether env1 arrival1 message fromNumber recipients recipients.length 0 []
      w1).1.map Slot.recipient = recipients ∧
    (batchLoopTogether env2 arrival2 message fromNumber recipients recipients.length 0 []
      w2).1.map Slot.recipient = recipients ∧
    (∀ (env : Env) (req : SmsRequest) (w : World) (body : SmsBody) (sender : String),
      ReachesLimiter env req body message sender → (admission env req w).1 = true →
      (resolveRecipients env body.specificPhone (admission env req w).2).1 ≠ [] →
      ∃ text data, (SendSms.handler env req w).1 = .sent 200 text data) := by
  obtain ⟨a1, a2, _⟩ := batchLoopTogether_spec env1 arrival1 message fromNumber recipients
    recipients.length 0 [] w1 (by omega) (by simp)
  obtain ⟨b1, b2, _⟩ := batchLoopTogether_spec env2 arrival2 message fromNumber recipients
    recipients.length 0 [] w2 (by omega) (by simp)
  simp only [List.map_nil, List.nil_append, List.drop_zero] at a1 b1
  have r1 : recipients[i]? = some s1.recipient := by
    rw [← a1, List.getElem?_map, h1]; rfl
  have r2 : recipients[i]? = some s2.recipient := by
    rw [← b1, List.getElem?_map, h2]; rfl
  have hr : s2.recipient = s1.recipient := by
    rw [r1] at r2
    exact (Option.some.inj r2).symm
  obtain ⟨c1, t1, _⟩ := a2 s1 (List.getElem?_mem h1)
  obtain ⟨c2, t2, _⟩ := b2 s2 (List.getElem?_mem h2)
  have hres := Slot.result_of_agree env1 env2 message fromNumber s1 s2 hr c1 c2 hagree
  have f1 := batchLoopTogether_finished env1 arrival1 message fromNumber recipients
    recipients.length 0 [] w1 (by simp) s1 (List.getElem?_mem h1)
  have f2 := batchLoopTogether_finished env2 arrival2 message fromNumber recipients
    recipients.length 0 [] w2 (by simp) s2 (List.getElem?_mem h2)
  refine ⟨r1, hr, f1, f2, t1, t2, hres, by rw [hres], a1, b1, ?_⟩
  intro env req w body sender hreq hgranted hne
  rw [handler_granted env req w body message sender hreq hgranted]
  obtain ⟨stamp, hresp⟩ := dispatch_response env message sender body.testMode
    body.specificPhone (admission env req w).2 hne
  exact ⟨_, _, hresp⟩

/-- The sends started together, at a provider that accepts only the second request made:
the first attempts of Ann and of Bob are the requests 0 and 1, so Bob's is accepted, and Ann's
second attempt is the request 2.  At a provider that rejects every request, Bob's attempts
are the requests 1 and 3 and fail.  In the pass in list order the second request is Ann's
second attempt. -/
theorem sendsTogether_second_request :
    (batchLoopTogether { calmEnv with provider := secondOnly } (fun n => n) "Hi!" "+15550000000"
      [annRecipient, bobRecipient] 2 0 [] emptyWorld).1.map
        (fun s => (s.result.success, s.requests)) = [(false, [0, 2]), (true, [1])] ∧
    (batchLoopTogether { calmEnv with provider := rejectAll } (fun n => n) "Hi!" "+15550000000"
      [annRecipient, bobRecipient] 2 0 [] emptyWorld).1.map
        (fun s => (s.result.success, s.requests)) = [(false, [0, 2]), (false, [1, 3])] ∧
    (sendBatch { calmEnv with provider := secondOnly } "Hi!" "+15550000000" false
      [annRecipient, bobRecipient] emptyWorld).1.map (fun r => r.success) = [true, false] := by
  decide

/-- The witness of C20: six recipients, Ann and five times Bob, in two batches.  When the
provider rejects the requests for Ann, Ann's second attempt is made before the second batch,
and the request for the last recipient is the request 6 of the trace; when it accepts
them, it is the request 5.  The reply is the same, and so is the result. -/
theorem sends_independent_witness :
    (bobSent 6).result = (bobSent 5).result ∧
    (bobSent 6).result =
      { success := true, phone := "+15559876543", messageId := some "SM0",
        status := some "queued", error := none, errorCode := none } :=
  ⟨(sends_independent { calmEnv with provider := rejectAnn } steadyEnv (fun n => n)
      (fun n => 9 - n) "Hi!" "+15550000000" (annRecipient :: List.replicate 5 bobRecipient)
      emptyWorld emptyWorld 5 (bobSent 6) (bobSent 5) (by decide) (by decide)
      (by decide)).2.2.2.2.2.2.1,
   by decide⟩

end BirthdaySurprise
